import Mathlib

/-!
# Veyon: the server side of the RFB handshake

A shallow embedding of `core/src/VncServerProtocol.cpp` and of
`plugins/demo/DemoServerProtocol.cpp`, followed by the demo relay
(`plugins/demo/DemoServerConnection.cpp`), the connection of a worker
(`worker/src/FeatureWorkerManagerConnection.cpp`), the worker manager and the
variant stream (of which the sources hold the headers only), the magic packet of
`plugins/powercontrol/PowerControlFeaturePlugin.cpp`, the `run` command of
`cli/src/ShellCommands.cpp`, the JSON values of
`core/src/Configuration/LocalStore.cpp` and the environment strings of
`plugins/platform/windows/WindowsSessionFunctions.cpp`.

* The transport (`QIODevice`) is a record of the bytes buffered for reading, of
  the write requests issued so far and of the open flag.
* The object state of `VncServerProtocol` is passed explicitly; a member
  function that returns `bool` becomes a function to `VncServerProtocol × Bool`.
* The pure virtual members (`supportedAuthTypes`, `processAuthenticationMessage`,
  `performAccessControl`) are the fields of `Subclass`.
* Declarations of headers that are not part of the sources are collected in
  `Externals`.
-/

namespace Veyon

/-! ## Bytes and strings -/

/-- A `QByteArray`: a sequence of bytes, each kept as a natural number (a value
below 256). -/
abbrev QByteArray := List Nat

/-- A `QString`, kept as its sequence of Unicode code points. -/
abbrev QString := List Nat

/-- The code points of a string literal. -/
def QStringLiteral (s : String) : QString := s.toList.map Char.toNat

/-- The bytes of an ASCII string literal. -/
def asciiBytes (s : String) : QByteArray := s.toList.map Char.toNat

/-- The replacement character U+FFFD that the UTF-8 decoder of Qt emits for a
byte that starts no valid sequence. -/
def replacementCharacter : Nat := 0xFFFD

/-- A UTF-8 continuation byte, `10xxxxxx`. -/
def isContinuation (b : Nat) : Bool := decide (0x80 ≤ b) && decide (b < 0xC0)

/-- Decode the UTF-8 sequence that starts with the lead byte `b` and goes on in
`rest`: the code point and the number of continuation bytes it took, or `none`
when no valid sequence starts here (truncated, overlong, surrogate, above
U+10FFFF or a stray continuation byte). -/
def decodeUtf8At (b : Nat) (rest : QByteArray) : Option (Nat × Nat) :=
  if b < 0x80 then some (b, 0)
  else if 0xC2 ≤ b ∧ b < 0xE0 then
    match rest with
    | c1 :: _ =>
      if isContinuation c1 then some ((b - 0xC0) * 64 + (c1 - 0x80), 1) else none
    | _ => none
  else if 0xE0 ≤ b ∧ b < 0xF0 then
    match rest with
    | c1 :: c2 :: _ =>
      let cp := (b - 0xE0) * 4096 + (c1 - 0x80) * 64 + (c2 - 0x80)
      if isContinuation c1 && isContinuation c2 && decide (0x800 ≤ cp)
          && !(decide (0xD800 ≤ cp) && decide (cp < 0xE000)) then some (cp, 2) else none
    | _ => none
  else if 0xF0 ≤ b ∧ b < 0xF5 then
    match rest with
    | c1 :: c2 :: c3 :: _ =>
      let cp := (b - 0xF0) * 262144 + (c1 - 0x80) * 4096 + (c2 - 0x80) * 64 + (c3 - 0x80)
      if isContinuation c1 && isContinuation c2 && isContinuation c3
          && decide (0x10000 ≤ cp) && decide (cp < 0x110000) then some (cp, 3) else none
    | _ => none
  else none

/-- The decoding loop: `skip` is the number of continuation bytes of the
sequence just decoded that are still to be passed over. A byte that starts no
valid sequence yields one replacement character and the loop goes on with the
next byte. -/
def decodeUtf8 : Nat → QByteArray → QString
  | _, [] => []
  | skip + 1, _ :: rest => decodeUtf8 skip rest
  | 0, b :: rest =>
    match decodeUtf8At b rest with
    | some (cp, n) => cp :: decodeUtf8 n rest
    | none => replacementCharacter :: decodeUtf8 0 rest

/-- The library call `QString::fromUtf8(const QByteArray&)`: a leading byte order mark is
dropped, the rest is decoded. -/
def QString.fromUtf8 (ba : QByteArray) : QString :=
  match ba with
  | 0xEF :: 0xBB :: 0xBF :: rest => decodeUtf8 0 rest
  | _ => decodeUtf8 0 ba

/-! ## Regular expressions -/

/-- One item of a regular expression without repetition or alternation, which is
all that the pattern of `readProtocol` uses. -/
inductive RxAtom where
  | lit (c : Nat)
  | digit
  deriving DecidableEq, Repr

/-- Whether the item accepts the code point; `\d` without the Unicode
properties option is an ASCII digit. -/
def RxAtom.accepts : RxAtom → Nat → Bool
  | .lit c, x => decide (x = c)
  | .digit, x => decide (48 ≤ x) && decide (x ≤ 57)

/-- Whether the pattern matches at the start of the subject. -/
def matchHere : List RxAtom → QString → Bool
  | [], _ => true
  | _ :: _, [] => false
  | a :: as, x :: xs => a.accepts x && matchHere as xs

/-- The library call `QRegularExpression::match(subject).hasMatch()`: the pattern
is not anchored, so a match may start at any offset of the subject. -/
def hasMatch (rx : List RxAtom) : QString → Bool
  | [] => matchHere rx []
  | x :: xs => matchHere rx (x :: xs) || hasMatch rx xs

/-- The pattern `"RFB (\\d\\d\\d)\\.(\\d\\d\\d)\n"` of `readProtocol`. -/
def rfbRX : List RxAtom :=
  [.lit 82, .lit 70, .lit 66, .lit 32, .digit, .digit, .digit, .lit 46,
   .digit, .digit, .digit, .lit 10]

/-- The wording of the specification for a valid reply: `"RFB "`, three decimal
digits, `"."`, three decimal digits, `"\n"`. -/
def isRfbVersionReply (ba : QByteArray) : Bool :=
  match ba with
  | [r, f, b, sp, d1, d2, d3, dot, d4, d5, d6, nl] =>
    decide (r = 82) && decide (f = 70) && decide (b = 66) && decide (sp = 32)
      && (decide (48 ≤ d1) && decide (d1 ≤ 57))
      && (decide (48 ≤ d2) && decide (d2 ≤ 57))
      && (decide (48 ≤ d3) && decide (d3 ≤ 57))
      && decide (dot = 46)
      && (decide (48 ≤ d4) && decide (d4 ≤ 57))
      && (decide (48 ≤ d5) && decide (d5 ≤ 57))
      && (decide (48 ≤ d6) && decide (d6 ≤ 57))
      && decide (nl = 10)
  | _ => false

/-- What the decoder yields for one byte when nothing is merged: the byte
itself when it is ASCII, the replacement character otherwise. -/
def decodeSingle (b : Nat) : Nat := if b < 0x80 then b else replacementCharacter

/-- The UTF-8 bytes of one code point. -/
def encodeUtf8Char (cp : Nat) : QByteArray :=
  if cp < 0x80 then [cp]
  else if cp < 0x800 then [0xC0 + cp / 64, 0x80 + cp % 64]
  else if cp < 0x10000 then [0xE0 + cp / 4096, 0x80 + cp / 64 % 64, 0x80 + cp % 64]
  else [0xF0 + cp / 262144, 0x80 + cp / 4096 % 64, 0x80 + cp / 64 % 64, 0x80 + cp % 64]

/-- The library call `QString::toUtf8()`. -/
def QString.toUtf8 (s : QString) : QByteArray := s.flatMap encodeUtf8Char

/-- The library call `qToBigEndian<uint32_t>(v)`, as the four bytes it leaves in memory. -/
def qToBigEndian32 (v : Nat) : QByteArray :=
  [v / 16777216 % 256, v / 65536 % 256, v / 256 % 256, v % 256]

/-! ## Constants of `rfb/rfbproto.h` -/

/-- The size of `rfbProtocolVersionMsg`, the banner `"RFB 003.008\n"`. -/
def sz_rfbProtocolVersionMsg : Nat := 12

/-- The size of `rfbClientInitMsg`: the single `shared` flag. -/
def sz_rfbClientInitMsg : Nat := 1

/-- The authentication result `rfbVncAuthOK`. -/
def rfbVncAuthOK : Nat := 0

/-- The size of `rfbServerInitMsg`: width and height (2 bytes each), the pixel
format (16 bytes) and the name length (4 bytes). -/
def sz_rfbServerInitMsg : Nat := 24

/-- A number printed by `%03d`: decimal digits, padded with zeros to a width of
three. -/
def format03d (n : Nat) : QByteArray :=
  let digits := (Nat.toDigits 10 n).map Char.toNat
  List.replicate (3 - digits.length) 48 ++ digits

/-- The result of `sprintf` with `rfbProtocolVersionFormat`, `"RFB %03d.%03d\n"`. -/
def rfbProtocolVersionFormat (major minor : Nat) : QByteArray :=
  asciiBytes "RFB " ++ format03d major ++ asciiBytes "." ++ format03d minor ++ asciiBytes "\n"

/-! ## Enumerations -/

/-- The states of `VncServerProtocol::State`. -/
inductive State where
  | Disconnected
  | Protocol
  | SecurityInit
  | AuthenticationTypes
  | Authenticating
  | AccessControl
  | FramebufferInit
  | Running
  | Close
  deriving DecidableEq, Repr

/-- The states of `VncServerClient::AuthState`. The declaring header is not part
of the sources: these are the enumerators that the sources name, and `Challenge`
for the challenge states of the specification. -/
inductive AuthState where
  | Init
  | Challenge
  | Token
  | Successful
  | Failed
  deriving DecidableEq, Repr

/-- The states of `VncServerClient::AccessControlState`. The declaring header is
not part of the sources: these are the enumerators that the sources name, and
`Failed` for the denial of the specification. -/
inductive AccessControlState where
  | Init
  | Successful
  | Pending
  | Waiting
  | Failed
  deriving DecidableEq, Repr

/-- The authentication types of `RfbVeyonAuth::Type`. The declaring header is
not part of the sources, which name `Token` only; the remaining enumerators are
kept by a number. -/
inductive RfbVeyonAuthType where
  | Token
  | other (code : Nat)
  deriving DecidableEq, Repr

/-! ## Message values -/

/-- Modelled from the spec: the `Value` of section 3, a tagged variant over
bool, 32-bit int, 64-bit int, rectangle, string, string list, identifier, byte
payload, list and map (`QVariant`, filled by the absent `VariantStream.cpp`).
`authType` is the value that `VariantArrayMessage::write` makes of an
authentication type. -/
inductive QVariant where
  | invalid
  | bool (b : Bool)
  | int (n : Int)
  | longLong (n : Int)
  | rect (x y w h : Int)
  | string (s : QString)
  | stringList (l : List QString)
  | uuid (u : QByteArray)
  | byteArray (b : QByteArray)
  | authType (t : RfbVeyonAuthType)
  | list (l : List QVariant)
  | map (m : List (QString × QVariant))

/-- The conversion `QVariant::value<RfbVeyonAuth::Type>()`; a value of another
kind gives the default-constructed result. -/
def QVariant.toAuthType : QVariant → RfbVeyonAuthType
  | .authType t => t
  | _ => .other 0

/-- The decimal digits of a natural number, as characters. -/
def decimalDigits (n : Nat) : List Nat := (Nat.toDigits 10 n).map Char.toNat

/-- The library calls `QByteArray::number(n)` and `QString::number(n)` for an
integer: the decimal digits, after a minus sign for a negative number. -/
def QByteArray.number (n : Int) : QByteArray :=
  if n < 0 then 45 :: decimalDigits n.natAbs else decimalDigits n.natAbs

/-- A hexadecimal digit in lower case. -/
def toHexDigit (d : Nat) : Nat := if d < 10 then 48 + d else 87 + d

/-- The library call `QByteArray::toHex()`. -/
def QByteArray.toHex (b : QByteArray) : QByteArray :=
  b.flatMap (fun byte => [toHexDigit (byte / 16 % 16), toHexDigit (byte % 16)])

/-- The library calls `QUuid::toByteArray()` and `QUuid::toString()` for an
identifier of 16 bytes: the hexadecimal digits in five groups between braces. -/
def QUuid.toByteArray (u : QByteArray) : QByteArray :=
  [123] ++ QByteArray.toHex (u.take 4) ++ [45] ++ QByteArray.toHex ((u.drop 4).take 2)
    ++ [45] ++ QByteArray.toHex ((u.drop 6).take 2) ++ [45]
    ++ QByteArray.toHex ((u.drop 8).take 2) ++ [45] ++ QByteArray.toHex (u.drop 10) ++ [125]

/-- The conversion `QVariant::toString()`: a string is taken as it is, a byte
array is read as UTF-8, a number is written in decimal digits, a bool is `true`
or `false`, an identifier is written in its text form, and a string list with
exactly one string gives that string; a value of another kind gives the empty
string. -/
def QVariant.toQString : QVariant → QString
  | .string s => s
  | .byteArray b => QString.fromUtf8 b
  | .int n => QByteArray.number n
  | .longLong n => QByteArray.number n
  | .bool b => if b then QStringLiteral "true" else QStringLiteral "false"
  | .uuid u => QUuid.toByteArray u
  | .stringList [s] => s
  | _ => []

/-- The conversion `QVariant::toByteArray()`: a byte array is taken as it is, a
string gives its UTF-8 bytes, a number is written in decimal digits, a bool is
`true` or `false`, and an identifier is written in its text form; a value of
another kind gives the empty array. -/
def QVariant.toByteArray : QVariant → QByteArray
  | .byteArray b => b
  | .string s => QString.toUtf8 s
  | .int n => QByteArray.number n
  | .longLong n => QByteArray.number n
  | .bool b => if b then asciiBytes "true" else asciiBytes "false"
  | .uuid u => QUuid.toByteArray u
  | _ => []

/-! ## The transport -/

/-- One write request on the transport: raw bytes, or one message of the
message codec with the values it carries. -/
inductive Written where
  | raw (bytes : QByteArray)
  | message (values : List QVariant)

/-- The transport behind `m_socket`: whether it is open, the bytes that have
arrived and are not read yet, and the write requests issued so far, oldest
first. -/
structure QIODevice where
  isOpen : Bool
  readBuffer : QByteArray
  written : List Written

/-- The library call `QIODevice::bytesAvailable()`. -/
def QIODevice.bytesAvailable (d : QIODevice) : Nat := d.readBuffer.length

/-- The library call `QIODevice::read(maxSize)`: the bytes read and the device after. -/
def QIODevice.read (d : QIODevice) (maxSize : Nat) : QByteArray × QIODevice :=
  (d.readBuffer.take maxSize, { d with readBuffer := d.readBuffer.drop maxSize })

/-- The library call `QIODevice::write(data)`. -/
def QIODevice.write (d : QIODevice) (data : QByteArray) : QIODevice :=
  { d with written := d.written ++ [Written.raw data] }

/-- The library call `QIODevice::close()`: the device is not open any more and
what was buffered for reading is discarded. -/
def QIODevice.close (d : QIODevice) : QIODevice :=
  { d with isOpen := false, readBuffer := [] }

/-- Bytes arriving from the peer (the event behind `readyRead`). -/
def QIODevice.arrive (d : QIODevice) (data : QByteArray) : QIODevice :=
  { d with readBuffer := d.readBuffer ++ data }

/-! ## Declarations outside the sources -/

/-- Modelled from the spec: what the handshake takes from headers that are not
part of the sources. `rfbSecTypeVeyon` is the single custom security type of
section 6. `messageReady` and `messageReceive` are the two phases of
`MessageCodec.decode` of section 4.2 (`VariantArrayMessage::isReadyForReceive`
and `VariantArrayMessage::receive`) on the bytes buffered for reading: the
check pass consumes nothing and tells whether a complete message is buffered;
the materialize pass gives the values of the message, if it succeeds, and the
bytes that stay buffered. `accessControlMessageScheme` is the fixed scheme
constant of section 4.1 that starts the denial reason. -/
structure Externals where
  rfbSecTypeVeyon : Nat
  messageReady : QByteArray → Bool
  messageReceive : QByteArray → Option (List QVariant) × QByteArray
  accessControlMessageScheme : QByteArray

/-- Modelled from the spec: a `VariantArrayMessage`, seen as the values of its
buffer that are not read yet. -/
structure VariantArrayMessage where
  values : List QVariant

/-- Modelled from the spec: `VariantArrayMessage::read()` takes the next value
of the buffer; an exhausted buffer gives an invalid `QVariant`. -/
def VariantArrayMessage.read (m : VariantArrayMessage) : QVariant × VariantArrayMessage :=
  match m.values with
  | [] => (QVariant.invalid, m)
  | v :: vs => (v, { values := vs })

/-- Modelled from the spec: `VariantArrayMessage::write(v)` appends a value to
the buffer. -/
def VariantArrayMessage.write (m : VariantArrayMessage) (v : QVariant) : VariantArrayMessage :=
  { values := m.values ++ [v] }

/-- Modelled from the spec: `VariantArrayMessage::send()` writes the message to
the device. -/
def VariantArrayMessage.send (m : VariantArrayMessage) (d : QIODevice) : Bool × QIODevice :=
  (true, { d with written := d.written ++ [Written.message m.values] })

/-- Modelled from the spec: `VariantArrayMessage::isReadyForReceive()`, the
check pass. -/
def VariantArrayMessage.isReadyForReceive (x : Externals) (d : QIODevice) : Bool :=
  x.messageReady d.readBuffer

/-- Modelled from the spec: `VariantArrayMessage::receive()`, the materialize
pass: whether it succeeded, the message and the device after. -/
def VariantArrayMessage.receive (x : Externals) (d : QIODevice) :
    Bool × VariantArrayMessage × QIODevice :=
  match x.messageReceive d.readBuffer with
  | (some values, rest) => (true, { values := values }, { d with readBuffer := rest })
  | (none, rest) => (false, { values := [] }, { d with readBuffer := rest })

/-! ## The client record and the protocol object -/

/-- The record `VncServerClient` with the members the handshake reads and
writes, at their values after default construction. -/
structure VncServerClient where
  protocolState : State := State.Disconnected
  authState : AuthState := AuthState.Init
  authType : RfbVeyonAuthType := RfbVeyonAuthType.other 0
  accessControlState : AccessControlState := AccessControlState.Init
  username : QString := []
  hostAddress : QString := []
  accessControlDetails : QString := []

/-- The members of `VncServerProtocol`. -/
structure VncServerProtocol where
  m_socket : QIODevice
  m_client : VncServerClient
  m_serverInitMessage : QByteArray

/-- The pure virtual members of `VncServerProtocol`, which a subclass supplies.
Each one sees the whole object. -/
structure Subclass where
  supportedAuthTypes : VncServerProtocol → List RfbVeyonAuthType
  processAuthenticationMessage : VncServerProtocol → VariantArrayMessage → VncServerProtocol
  performAccessControl : VncServerProtocol → VncServerProtocol

/-- The constructor `VncServerProtocol::VncServerProtocol`; `peerAddress` is the
peer address when the device is a `QTcpSocket`. -/
def VncServerProtocol.create (socket : QIODevice) (client : VncServerClient)
    (peerAddress : Option QString) : VncServerProtocol :=
  let client1 := match peerAddress with
    | some a => { client with hostAddress := a }
    | none => client
  { m_socket := socket
    m_client := { client1 with accessControlState := AccessControlState.Init }
    m_serverInitMessage := [] }

/-- The setter `VncServerProtocol::setServerInitMessage`. -/
def VncServerProtocol.setServerInitMessage (p : VncServerProtocol) (m : QByteArray) :
    VncServerProtocol :=
  { p with m_serverInitMessage := m }

/-- The getter `VncServerProtocol::state`. -/
def VncServerProtocol.state (p : VncServerProtocol) : State := p.m_client.protocolState

/-- The setter `VncServerProtocol::setState`. -/
def VncServerProtocol.setState (p : VncServerProtocol) (s : State) : VncServerProtocol :=
  { p with m_client := { p.m_client with protocolState := s } }

/-- The call `m_socket->write(data)`. -/
def VncServerProtocol.socketWrite (p : VncServerProtocol) (data : QByteArray) :
    VncServerProtocol :=
  { p with m_socket := p.m_socket.write data }

/-- The call `m_socket->close()`. -/
def VncServerProtocol.socketClose (p : VncServerProtocol) : VncServerProtocol :=
  { p with m_socket := p.m_socket.close }

/-- The member `VncServerProtocol::start`. -/
def VncServerProtocol.start (p : VncServerProtocol) : VncServerProtocol :=
  if p.state = State.Disconnected then
    let protocol := rfbProtocolVersionFormat 3 8
    (p.socketWrite (protocol.take sz_rfbProtocolVersionMsg)).setState State.Protocol
  else p

/-- The member `VncServerProtocol::sendSecurityTypes`. -/
def VncServerProtocol.sendSecurityTypes (x : Externals) (p : VncServerProtocol) :
    Bool × VncServerProtocol :=
  let securityTypeList := [1, x.rfbSecTypeVeyon]
  (true, p.socketWrite securityTypeList)

/-- The member `VncServerProtocol::readProtocol`. -/
def VncServerProtocol.readProtocol (x : Externals) (p : VncServerProtocol) :
    Bool × VncServerProtocol :=
  if p.m_socket.bytesAvailable = sz_rfbProtocolVersionMsg then
    let (protocol, socket) := p.m_socket.read sz_rfbProtocolVersionMsg
    let p1 := { p with m_socket := socket }
    if protocol.length ≠ sz_rfbProtocolVersionMsg then
      (false, p1.socketClose)
    else if hasMatch rfbRX (QString.fromUtf8 protocol) = false then
      (false, p1.socketClose)
    else
      (p1.setState State.SecurityInit).sendSecurityTypes x
  else (false, p)

/-- The member `VncServerProtocol::sendAuthenticationTypes`. -/
def VncServerProtocol.sendAuthenticationTypes (v : Subclass) (p : VncServerProtocol) :
    Bool × VncServerProtocol :=
  let authTypes := v.supportedAuthTypes p
  let message : VariantArrayMessage := { values := [] }
  let message := message.write (QVariant.int authTypes.length)
  let message := authTypes.foldl (fun m authType => m.write (QVariant.authType authType)) message
  let (ok, socket) := message.send p.m_socket
  (ok, { p with m_socket := socket })

/-- The member `VncServerProtocol::receiveSecurityTypeResponse`. -/
def VncServerProtocol.receiveSecurityTypeResponse (x : Externals) (v : Subclass)
    (p : VncServerProtocol) : Bool × VncServerProtocol :=
  if p.m_socket.bytesAvailable ≥ 1 then
    let (chosen, socket) := p.m_socket.read 1
    let p1 := { p with m_socket := socket }
    if chosen.length ≠ 1 ∨ chosen.head? ≠ some x.rfbSecTypeVeyon then
      (false, p1.socketClose)
    else
      (p1.setState State.AuthenticationTypes).sendAuthenticationTypes v
  else (false, p)

/-- The member `VncServerProtocol::processAuthentication`. -/
def VncServerProtocol.processAuthentication (v : Subclass) (p : VncServerProtocol)
    (message : VariantArrayMessage) : Bool × VncServerProtocol :=
  let p1 := v.processAuthenticationMessage p message
  match p1.m_client.authState with
  | AuthState.Successful =>
    let authResult := qToBigEndian32 rfbVncAuthOK
    (true, (p1.socketWrite authResult).setState State.AccessControl)
  | AuthState.Failed => (false, p1.socketClose)
  | _ => (false, p1)

/-- The member `VncServerProtocol::receiveAuthenticationTypeResponse`. -/
def VncServerProtocol.receiveAuthenticationTypeResponse (x : Externals) (v : Subclass)
    (p : VncServerProtocol) : Bool × VncServerProtocol :=
  if VariantArrayMessage.isReadyForReceive x p.m_socket then
    let (ok, message, socket) := VariantArrayMessage.receive x p.m_socket
    let p1 := { p with m_socket := socket }
    if ok then
      let (first, message) := message.read
      let chosenAuthType := first.toAuthType
      if (v.supportedAuthTypes p1).contains chosenAuthType = false then
        (false, p1.socketClose)
      else
        let (second, _) := message.read
        let username := second.toQString
        let p2 := { p1 with m_client :=
          { p1.m_client with authType := chosenAuthType, username := username } }
        let p3 := p2.setState State.Authenticating
        let ack : VariantArrayMessage := { values := [] }
        let p4 := { p3 with m_socket := (ack.send p3.m_socket).2 }
        let dummyMessage : VariantArrayMessage := { values := [] }
        (false, (p4.processAuthentication v dummyMessage).2)
    else (false, p1)
  else (false, p)

/-- The member `VncServerProtocol::receiveAuthenticationMessage`. -/
def VncServerProtocol.receiveAuthenticationMessage (x : Externals) (v : Subclass)
    (p : VncServerProtocol) : Bool × VncServerProtocol :=
  if VariantArrayMessage.isReadyForReceive x p.m_socket then
    let (ok, message, socket) := VariantArrayMessage.receive x p.m_socket
    let p1 := { p with m_socket := socket }
    if ok then p1.processAuthentication v message
    else (false, p1)
  else (false, p)

/-- The header that `sendFailedAccessControlMessage` writes: an `rfbServerInitMsg`
of zeros with `format.bitsPerPixel = 255` (the fifth byte, after width and
height) and `nameLength` in its last four bytes. -/
def failedAccessControlHeader (nameLength : Nat) : QByteArray :=
  [0, 0, 0, 0] ++ [255] ++ List.replicate 15 0 ++ qToBigEndian32 nameLength

/-- The member `VncServerProtocol::sendFailedAccessControlMessage`. -/
def VncServerProtocol.sendFailedAccessControlMessage (x : Externals) (p : VncServerProtocol) :
    VncServerProtocol :=
  let name := QString.toUtf8 p.m_client.accessControlDetails
  if name.length > 0 then
    let name := x.accessControlMessageScheme ++ name
    let msg := failedAccessControlHeader name.length
    (p.socketWrite msg).socketWrite name
  else p

/-- The member `VncServerProtocol::processAccessControl`. -/
def VncServerProtocol.processAccessControl (x : Externals) (v : Subclass)
    (p : VncServerProtocol) : Bool × VncServerProtocol :=
  let p1 := v.performAccessControl p
  match p1.m_client.accessControlState with
  | AccessControlState.Successful => (true, p1.setState State.FramebufferInit)
  | AccessControlState.Pending => (false, p1)
  | AccessControlState.Waiting => (false, p1)
  | _ => (true, (p1.sendFailedAccessControlMessage x).socketClose)

/-- The member `VncServerProtocol::processFramebufferInit`. -/
def VncServerProtocol.processFramebufferInit (p : VncServerProtocol) :
    Bool × VncServerProtocol :=
  if p.m_socket.bytesAvailable ≥ sz_rfbClientInitMsg ∧ p.m_serverInitMessage.isEmpty = false then
    let p1 := { p with m_socket := (p.m_socket.read sz_rfbClientInitMsg).2 }
    let p2 := p1.socketWrite p1.m_serverInitMessage
    (true, p2.setState State.Running)
  else (false, p)

/-- The member `VncServerProtocol::read`. -/
def VncServerProtocol.read (x : Externals) (v : Subclass) (p : VncServerProtocol) :
    Bool × VncServerProtocol :=
  match p.state with
  | State.Protocol => p.readProtocol x
  | State.SecurityInit => p.receiveSecurityTypeResponse x v
  | State.AuthenticationTypes => p.receiveAuthenticationTypeResponse x v
  | State.Authenticating => p.receiveAuthenticationMessage x v
  | State.AccessControl => p.processAccessControl x v
  | State.FramebufferInit => p.processFramebufferInit
  | State.Close => (false, p.socketClose)
  | _ => (false, p)

/-! ## The demo server -/

/-- The member `DemoServerProtocol::supportedAuthTypes`. -/
def DemoServerProtocol.supportedAuthTypes : List RfbVeyonAuthType :=
  [RfbVeyonAuthType.Token]

/-- The member `DemoServerProtocol::performTokenAuthentication`. -/
def DemoServerProtocol.performTokenAuthentication (m_demoAccessToken : QByteArray)
    (p : VncServerProtocol) (message : VariantArrayMessage) : AuthState :=
  match p.m_client.authState with
  | AuthState.Init => AuthState.Token
  | AuthState.Token =>
    if message.read.1.toByteArray = m_demoAccessToken then AuthState.Successful
    else AuthState.Failed
  | _ => AuthState.Failed

/-- The member `DemoServerProtocol::processAuthenticationMessage`. -/
def DemoServerProtocol.processAuthenticationMessage (m_demoAccessToken : QByteArray)
    (p : VncServerProtocol) (message : VariantArrayMessage) : VncServerProtocol :=
  if p.m_client.authType = RfbVeyonAuthType.Token then
    { p with m_client := { p.m_client with
        authState := DemoServerProtocol.performTokenAuthentication m_demoAccessToken p message } }
  else
    { p with m_client := { p.m_client with authState := AuthState.Failed } }

/-- The member `DemoServerProtocol::performAccessControl`. -/
def DemoServerProtocol.performAccessControl (p : VncServerProtocol) : VncServerProtocol :=
  { p with m_client := { p.m_client with accessControlState := AccessControlState.Successful } }

/-- The class `DemoServerProtocol` with its access token, as the members it
supplies to `VncServerProtocol`. -/
def DemoServerProtocol (m_demoAccessToken : QByteArray) : Subclass :=
  { supportedAuthTypes := fun _ => DemoServerProtocol.supportedAuthTypes
    processAuthenticationMessage := DemoServerProtocol.processAuthenticationMessage m_demoAccessToken
    performAccessControl := DemoServerProtocol.performAccessControl }

/-! ## Driving a session -/

/-- What happens to a session from outside: bytes arrive from the peer, or the
owner calls `read()`. -/
inductive Step where
  | arrive (data : QByteArray)
  | read

/-- One step of a session. -/
def VncServerProtocol.step (x : Externals) (v : Subclass) (p : VncServerProtocol) :
    Step → VncServerProtocol
  | Step.arrive data => { p with m_socket := p.m_socket.arrive data }
  | Step.read => (p.read x v).2

/-- A session taken through a list of steps, first to last. -/
def VncServerProtocol.run (x : Externals) (v : Subclass) (p : VncServerProtocol)
    (steps : List Step) : VncServerProtocol :=
  steps.foldl (VncServerProtocol.step x v) p

/-! ## An instance for closed examples -/

/-- The values of a payload in the example framing: tag 1 is the authentication
type `Token`; tag 2 is a string and tag 3 a byte array, each followed by a
length byte and that many bytes; tag 4 is followed by the number of another
authentication type. -/
def exampleValues : Nat → QByteArray → List QVariant
  | 0, _ => []
  | _, [] => []
  | fuel + 1, tag :: rest =>
    if tag = 1 then QVariant.authType RfbVeyonAuthType.Token :: exampleValues fuel rest
    else match rest with
      | n :: body =>
        if tag = 2 then QVariant.string (body.take n) :: exampleValues fuel (body.drop n)
        else if tag = 3 then QVariant.byteArray (body.take n) :: exampleValues fuel (body.drop n)
        else if tag = 4 then QVariant.authType (RfbVeyonAuthType.other n) :: exampleValues fuel body
        else []
      | [] => []

/-- An instance of `Externals` for closed examples: security type 40, the scheme
`"vacm://"` and a framing in which a message is a length byte followed by a
payload of that many bytes. -/
def exampleExternals : Externals :=
  { rfbSecTypeVeyon := 40
    messageReady := fun buffer =>
      match buffer with
      | n :: rest => decide (n ≤ rest.length)
      | [] => false
    messageReceive := fun buffer =>
      match buffer with
      | n :: rest => (some (exampleValues n (rest.take n)), rest.drop n)
      | [] => (none, [])
    accessControlMessageScheme := asciiBytes "vacm://" }

/-- A session as `DemoServerConnection::run` sets it up, before `start()`: an
open device, a default-constructed client and the server-init message. -/
def newSession (serverInitMessage : QByteArray) : VncServerProtocol :=
  (VncServerProtocol.create { isOpen := true, readBuffer := [], written := [] } {} none).setServerInitMessage
    serverInitMessage

/-- An example of a subclass with a challenge: the first authentication call
writes a challenge and waits in `Challenge`, the next one compares the answer
with `secret`; access control is `Pending` on its first evaluation and
`Successful` on the one after. -/
def exampleChallenge (secret : QByteArray) : Subclass :=
  { supportedAuthTypes := fun _ => [RfbVeyonAuthType.other 1]
    processAuthenticationMessage := fun p message =>
      match p.m_client.authState with
      | AuthState.Init =>
        { (p.socketWrite [7, 7, 7, 7]) with
          m_client := { p.m_client with authState := AuthState.Challenge } }
      | AuthState.Challenge =>
        if message.read.1.toByteArray = secret then
          { p with m_client := { p.m_client with authState := AuthState.Successful } }
        else
          { p with m_client := { p.m_client with authState := AuthState.Failed } }
      | _ => { p with m_client := { p.m_client with authState := AuthState.Failed } }
    performAccessControl := fun p =>
      match p.m_client.accessControlState with
      | AccessControlState.Init =>
        { p with m_client := { p.m_client with accessControlState := AccessControlState.Pending } }
      | AccessControlState.Pending =>
        { p with m_client := { p.m_client with accessControlState := AccessControlState.Successful } }
      | _ => p }

/-- A session in the given protocol state with the given bytes buffered, an open
device and nothing written. -/
def sessionIn (s : State) (buffer : QByteArray) : VncServerProtocol :=
  ((newSession [0, 1, 0, 1]).setState s).step exampleExternals (DemoServerProtocol [])
    (Step.arrive buffer)

/-- The demo session of the examples after the banner, the security type and the
selection message `{Token, "alice"}`: it waits for the token `[115, 51, 99]`. -/
def sessionAfterSelection : VncServerProtocol :=
  (newSession [0, 1, 0, 1]).start.run exampleExternals (DemoServerProtocol [115, 51, 99])
    [Step.arrive (asciiBytes "RFB 003.008\n"), Step.read,
     Step.arrive [40], Step.read,
     Step.arrive [8, 1, 2, 5, 97, 108, 105, 99, 101], Step.read]

/-! ## The server-init header -/

/-- The structure `rfbPixelFormat` of `rfb/rfbproto.h`, every member zero as
after value initialisation. -/
structure rfbPixelFormat where
  bitsPerPixel : Nat := 0
  depth : Nat := 0
  bigEndian : Nat := 0
  trueColour : Nat := 0
  redMax : Nat := 0
  greenMax : Nat := 0
  blueMax : Nat := 0
  redShift : Nat := 0
  greenShift : Nat := 0
  blueShift : Nat := 0
  pad1 : Nat := 0
  pad2 : Nat := 0

/-- The structure `rfbServerInitMsg` of `rfb/rfbproto.h`, every member zero as
after `rfbServerInitMsg msg{}`. `nameLength` is kept as the four bytes that the
member holds in memory. -/
structure rfbServerInitMsg where
  framebufferWidth : Nat := 0
  framebufferHeight : Nat := 0
  format : rfbPixelFormat := {}
  nameLength : QByteArray := [0, 0, 0, 0]

/-- The two bytes of a 16-bit member, high byte first. -/
def card16 (v : Nat) : QByteArray := [v / 256 % 256, v % 256]

/-- The 16 bytes of an `rfbPixelFormat`, member after member. -/
def rfbPixelFormat.image (f : rfbPixelFormat) : QByteArray :=
  [f.bitsPerPixel % 256, f.depth % 256, f.bigEndian % 256, f.trueColour % 256]
    ++ card16 f.redMax ++ card16 f.greenMax ++ card16 f.blueMax
    ++ [f.redShift % 256, f.greenShift % 256, f.blueShift % 256, f.pad1 % 256]
    ++ card16 f.pad2

/-- The bytes of an `rfbServerInitMsg`, member after member: what
`write(reinterpret_cast<const char *>(&msg), sizeof(msg))` sends. -/
def rfbServerInitMsg.image (m : rfbServerInitMsg) : QByteArray :=
  card16 m.framebufferWidth ++ card16 m.framebufferHeight ++ m.format.image ++ m.nameLength

/-- The library call `qFromBigEndian<uint32_t>` on four bytes. -/
def qFromBigEndian32 (bytes : QByteArray) : Nat :=
  match bytes with
  | [b3, b2, b1, b0] => b3 * 16777216 + b2 * 65536 + b1 * 256 + b0
  | _ => 0

/-- An example of a subclass whose access control denies every client with the
given reason; its authentication accepts every client. -/
def exampleDenial (reason : QString) : Subclass :=
  { supportedAuthTypes := fun _ => [RfbVeyonAuthType.other 1]
    processAuthenticationMessage := fun p _ =>
      { p with m_client := { p.m_client with authState := AuthState.Successful } }
    performAccessControl := fun p =>
      { p with m_client := { p.m_client with
          accessControlState := AccessControlState.Failed
          accessControlDetails := reason } } }

/-! ## The order of the protocol states -/

/-- The position of a state in the order Disconnected < Protocol < SecurityInit
< AuthenticationTypes < Authenticating < AccessControl < FramebufferInit <
Running; the terminal Close is put last. -/
def State.rank : State → Nat
  | State.Disconnected => 0
  | State.Protocol => 1
  | State.SecurityInit => 2
  | State.AuthenticationTypes => 3
  | State.Authenticating => 4
  | State.AccessControl => 5
  | State.FramebufferInit => 6
  | State.Running => 7
  | State.Close => 8

/-- The wording of the specification for a step of the protocol state from `s`
to `t` that is no regress: `t` is `s`, or both are states of the order and `t`
is the later one, or `t` is the terminal Close. -/
def State.notBefore (s t : State) : Prop :=
  t = s ∨ (s ≠ State.Close ∧ t ≠ State.Close ∧ s.rank < t.rank) ∨ t = State.Close

/-- A subclass whose authentication strategy and access control never move the
protocol state backwards themselves. -/
def Subclass.neverRegresses (v : Subclass) : Prop :=
  (∀ q m, State.notBefore q.state (v.processAuthenticationMessage q m).state) ∧
  (∀ q, State.notBefore q.state (v.performAccessControl q).state)

/-- A subclass whose authentication strategy and access control leave the
protocol state alone. -/
def Subclass.keepsState (v : Subclass) : Prop :=
  (∀ q m, (v.processAuthenticationMessage q m).state = q.state) ∧
  (∀ q, (v.performAccessControl q).state = q.state)

/-! ## Sequences of calls -/

/-- What the owner of a session does with it: call `start()`, call `read()`, or
let bytes arrive from the peer in between. -/
inductive Call where
  | start
  | read
  | arrive (data : QByteArray)

/-- One call on a session. -/
def VncServerProtocol.call (x : Externals) (v : Subclass) (p : VncServerProtocol) :
    Call → VncServerProtocol
  | Call.start => p.start
  | Call.read => (p.read x v).2
  | Call.arrive data => { p with m_socket := p.m_socket.arrive data }

/-- A session after a sequence of calls, first to last. -/
def VncServerProtocol.calls (x : Externals) (v : Subclass) (p : VncServerProtocol)
    (cs : List Call) : VncServerProtocol :=
  cs.foldl (VncServerProtocol.call x v) p

/-- Whether the call writes the version banner: a `start()` in state
Disconnected. -/
def VncServerProtocol.sendsBanner (p : VncServerProtocol) : Call → Bool
  | Call.start => decide (p.state = State.Disconnected)
  | _ => false

/-- Whether the call runs `sendSecurityTypes`: a `read()` in state Protocol that
accepts the reply and so returns true. -/
def VncServerProtocol.sendsSecurityTypes (x : Externals) (v : Subclass)
    (p : VncServerProtocol) : Call → Bool
  | Call.read => decide (p.state = State.Protocol) && (p.read x v).1
  | _ => false

/-- The number of calls of a sequence that write the version banner. -/
def countBanner (x : Externals) (v : Subclass) : VncServerProtocol → List Call → Nat
  | _, [] => 0
  | p, c :: cs => (if p.sendsBanner c then 1 else 0) + countBanner x v (p.call x v c) cs

/-- The number of calls of a sequence that write the security-type list. -/
def countSecurityTypes (x : Externals) (v : Subclass) : VncServerProtocol → List Call → Nat
  | _, [] => 0
  | p, c :: cs =>
    (if p.sendsSecurityTypes x v c then 1 else 0) + countSecurityTypes x v (p.call x v c) cs

/-- Whether a write request is the raw write of exactly the given bytes. -/
def Written.isRaw (data : QByteArray) : Written → Bool
  | Written.raw bytes => decide (bytes = data)
  | Written.message _ => false

/-- The number of raw writes of exactly the given bytes among the write
requests on a transport. -/
def countWritten (data : QByteArray) (written : List Written) : Nat :=
  written.countP (Written.isRaw data)

/-- A subclass whose authentication strategy and access control add no raw
write of the given bytes to the transport and leave the server-init message
alone. -/
def Subclass.writesNo (v : Subclass) (data : QByteArray) : Prop :=
  (∀ q m, countWritten data (v.processAuthenticationMessage q m).m_socket.written
      ≤ countWritten data q.m_socket.written ∧
    (v.processAuthenticationMessage q m).m_serverInitMessage = q.m_serverInitMessage) ∧
  (∀ q, countWritten data (v.performAccessControl q).m_socket.written
      ≤ countWritten data q.m_socket.written ∧
    (v.performAccessControl q).m_serverInitMessage = q.m_serverInitMessage)

/-! ## The demo connection -/

/-- What `sendFramebufferUpdate` reads of the `DemoServer` between
`lockDataForRead()` and `unlockData()`: the key frame and the buffered
framebuffer update messages. -/
structure DemoServer where
  keyFrame : Int
  framebufferUpdateMessages : List QByteArray

/-- The members of `DemoServerConnection` that `sendFramebufferUpdate` uses. -/
structure DemoServerConnection where
  m_socket : QIODevice
  m_keyFrame : Int
  m_framebufferUpdateMessageIndex : Int

/-- The members as the constructor `DemoServerConnection::DemoServerConnection`
sets them: key frame -1 and message index 0. -/
def DemoServerConnection.create (socket : QIODevice) : DemoServerConnection :=
  { m_socket := socket, m_keyFrame := -1, m_framebufferUpdateMessageIndex := 0 }

/-- The access `framebufferUpdateMessages[index]`, which is defined for
`0 <= index < count` only. -/
def messageAt (messages : List QByteArray) (index : Int) : Option QByteArray :=
  if 0 ≤ index then messages[index.toNat]? else none

/-- The loop `while( m_framebufferUpdateMessageIndex < framebufferUpdateMessageCount )`
of `sendFramebufferUpdate`, for at most `fuel` rounds: the connection and the
flag `sentUpdates` at the end, or `none` when an access is out of range. -/
def DemoServerConnection.sendLoop (messages : List QByteArray) :
    Nat → DemoServerConnection → Bool → Option (DemoServerConnection × Bool)
  | 0, c, sentUpdates => some (c, sentUpdates)
  | fuel + 1, c, sentUpdates =>
    if c.m_framebufferUpdateMessageIndex < (messages.length : Int) then
      match messageAt messages c.m_framebufferUpdateMessageIndex with
      | some message =>
        DemoServerConnection.sendLoop messages fuel
          { c with
            m_socket := c.m_socket.write message
            m_framebufferUpdateMessageIndex := c.m_framebufferUpdateMessageIndex + 1 }
          true
      | none => none
    else some (c, sentUpdates)

/-- The member `DemoServerConnection::sendFramebufferUpdate`: the connection
after the call and whether the call has scheduled itself again by
`QTimer::singleShot`, or `none` when an access is out of range. The loop gets
as many rounds as there are indices from the message index to the count. -/
def DemoServerConnection.sendFramebufferUpdate (c : DemoServerConnection) (server : DemoServer) :
    Option (DemoServerConnection × Bool) :=
  let framebufferUpdateMessages := server.framebufferUpdateMessages
  let framebufferUpdateMessageCount : Int := framebufferUpdateMessages.length
  let c1 :=
    if server.keyFrame ≠ c.m_keyFrame ∨
        c.m_framebufferUpdateMessageIndex > framebufferUpdateMessageCount then
      { c with m_framebufferUpdateMessageIndex := 0, m_keyFrame := server.keyFrame }
    else c
  match DemoServerConnection.sendLoop framebufferUpdateMessages
      (framebufferUpdateMessageCount - c1.m_framebufferUpdateMessageIndex).toNat c1 false with
  | some (c2, sentUpdates) => some (c2, !sentUpdates)
  | none => none

/-- An example of a demo server: key frame 7 and ten buffered messages, the
k-th of which is the single byte k. -/
def exampleDemoServer : DemoServer :=
  { keyFrame := 7
    framebufferUpdateMessages := [[1], [2], [3], [4], [5], [6], [7], [8], [9], [10]] }

/-- An example of a demo connection with an open device, nothing written, and
the given key frame and message index. -/
def exampleDemoConnection (keyFrame index : Int) : DemoServerConnection :=
  { m_socket := { isOpen := true, readBuffer := [], written := [] }
    m_keyFrame := keyFrame
    m_framebufferUpdateMessageIndex := index }

/-! ## Environment strings of the session -/

/-- The library call `QString::split(sep)`, empty parts kept. -/
def QString.split (sep : Nat) : QString → List QString
  | [] => [[]]
  | c :: cs =>
    if c = sep then [] :: QString.split sep cs
    else
      match QString.split sep cs with
      | part :: parts => (c :: part) :: parts
      | [] => [[c]]

/-- The library call `QStringList::join(sep)`. -/
def QStringList.join (sep : Nat) : List QString → QString
  | [] => []
  | [part] => part
  | part :: next :: parts => part ++ sep :: QStringList.join sep (next :: parts)

/-- The map `PlatformSessionFunctions::EnvironmentVariables`, from names to
values, kept as a list with one pair for each name. -/
abbrev EnvironmentVariables := List (QString × QString)

/-- The assignment `environmentVariables[name] = value`. -/
def EnvironmentVariables.assign (m : EnvironmentVariables) (name value : QString) :
    EnvironmentVariables :=
  (name, value) :: m.filter (fun entry => decide (entry.1 ≠ name))

/-- The value that the map holds for a name, if any. -/
def EnvironmentVariables.value (m : EnvironmentVariables) (name : QString) : Option QString :=
  (m.find? (fun entry => decide (entry.1 = name))).map Prod.snd

/-- The body of the loop of `currentSessionEnvironmentVariables` for one
environment string; 61 is the character `=`. -/
def environmentStep (environmentVariables : EnvironmentVariables) (envString : QString) :
    EnvironmentVariables :=
  let envStringParts := QString.split 61 envString
  if envStringParts.length ≥ 2 then
    environmentVariables.assign (envStringParts.headD [])
      (QStringList.join 61 (envStringParts.drop 1))
  else environmentVariables

/-- The member `WindowsSessionFunctions::currentSessionEnvironmentVariables`, as
a function of the environment strings that
`WindowsCoreFunctions::queryProcessEnvironmentVariables` returns. -/
def currentSessionEnvironmentVariables (envStrings : List QString) : EnvironmentVariables :=
  envStrings.foldl environmentStep []

/-! ## Sequences of framebuffer updates -/

/-- A demo connection after calls of `sendFramebufferUpdate`, one for each state
of the server in the list, first to last; `none` when an access was out of
range. -/
def DemoServerConnection.updates (c : DemoServerConnection) :
    List DemoServer → Option DemoServerConnection
  | [] => some c
  | server :: servers =>
    match c.sendFramebufferUpdate server with
    | some (c1, _) => DemoServerConnection.updates c1 servers
    | none => none

/-! ## Wake on LAN -/

/-- The library call `QString::replace(ch, QString())`: every occurrence of the
character is removed. -/
def QString.remove (ch : Nat) (s : QString) : QString := s.filter (fun c => decide (c ≠ ch))

/-- The value of a hexadecimal digit, `none` for every other character. -/
def fromHexDigit (ch : Nat) : Option Nat :=
  if 48 ≤ ch ∧ ch ≤ 57 then some (ch - 48)
  else if 65 ≤ ch ∧ ch ≤ 70 then some (ch - 65 + 10)
  else if 97 ≤ ch ∧ ch ≤ 102 then some (ch - 97 + 10)
  else none

/-- The bytes of a sequence of digit values that is given last digit first: two
digits make a byte, a digit that is left over makes a byte of its own. The bytes
come out last byte first. -/
def hexPairs : List Nat → List Nat
  | [] => []
  | [low] => [low]
  | low :: high :: rest => (high * 16 + low) :: hexPairs rest

/-- The library call `QByteArray::fromHex`: the input is read from its end,
characters that are no hexadecimal digits are skipped. -/
def QByteArray.fromHex (hexEncoded : QByteArray) : QByteArray :=
  (hexPairs (hexEncoded.filterMap fromHexDigit).reverse).reverse

/-- The library call `QByteArray::replace(pos, len, after)` within the array. -/
def QByteArray.replaceAt (ba : QByteArray) (pos len : Nat) (after : QByteArray) : QByteArray :=
  ba.take pos ++ after ++ ba.drop (pos + len)

/-- The size of a MAC address, `MacAddressSize`. -/
def MacAddressSize : Nat := 6

/-- The number of fields of the magic packet, `MagicPacketFieldCount`. -/
def MagicPacketFieldCount : Nat := 17

/-- The datagram that `broadcastWOLPacket` builds: `MacAddressSize *
MagicPacketFieldCount` bytes 0xff, in which the loop for `i` from 1 below
`MagicPacketFieldCount` puts the MAC address at `i * MacAddressSize`. -/
def wolDatagram (macAddressBytes : QByteArray) : QByteArray :=
  (List.range' 1 (MagicPacketFieldCount - 1)).foldl
    (fun datagram i => datagram.replaceAt (i * MacAddressSize) MacAddressSize macAddressBytes)
    (List.replicate (MacAddressSize * MagicPacketFieldCount) 0xff)

/-- A destination of a datagram: `QHostAddress::Broadcast` or another address. -/
inductive QHostAddress where
  | Broadcast
  | address (a : Nat)
  deriving DecidableEq, Repr

/-- One call of `QUdpSocket::writeDatagram`. -/
structure SentDatagram where
  datagram : QByteArray
  host : QHostAddress
  port : Nat
  deriving DecidableEq, Repr

/-- The string after the three `replace` calls that remove the delimiters
`:` (58), `-` (45) and `.` (46). -/
def removeDelimiters (macAddress : QString) : QString :=
  QString.remove 46 (QString.remove 45 (QString.remove 58 macAddress))

/-- The member `PowerControlFeaturePlugin::broadcastWOLPacket`: the result and
the datagrams written, in order. `writeDatagram` gives the return value of
`QUdpSocket::writeDatagram`; `networkInterfaces` holds, for every interface of
`QNetworkInterface::allInterfaces()`, the broadcast address of each of its
address entries, `none` for a null address. -/
def broadcastWOLPacket (writeDatagram : QByteArray → QHostAddress → Nat → Int)
    (networkInterfaces : List (List (Option QHostAddress))) (macAddress : QString) :
    Bool × List SentDatagram :=
  if macAddress.isEmpty then (false, [])
  else
    let macAddress := removeDelimiters macAddress
    let macAddressBytes := QByteArray.fromHex (QString.toUtf8 macAddress)
    if macAddressBytes.length ≠ MacAddressSize then (false, [])
    else
      let datagram := wolDatagram macAddressBytes
      let success := decide (writeDatagram datagram QHostAddress.Broadcast 9 = datagram.length)
      let first : SentDatagram := { datagram := datagram, host := QHostAddress.Broadcast, port := 9 }
      networkInterfaces.foldl
        (fun state networkInterface =>
          networkInterface.foldl
            (fun state broadcast =>
              match broadcast with
              | some host =>
                (state.1 && decide (writeDatagram datagram host 9 = datagram.length),
                 state.2 ++ [{ datagram := datagram, host := host, port := 9 }])
              | none => state)
            state)
        (success, [first])

/-! ## The shell command `run` -/

/-- The results of `CommandLinePluginInterface::RunResult`. -/
inductive RunResult where
  | Unknown
  | Successful
  | Failed
  | InvalidArguments
  | NotEnoughArguments
  | InvalidCommand
  | NotLicensed
  | NoResult
  deriving DecidableEq, Repr

/-- The files that exist, each with its contents. -/
abbrev FileSystem := QString → Option QByteArray

/-- A `QFile`: its name, whether the file exists and what it holds, whether the
device has been opened, and the bytes in the read buffer of the device. -/
structure QFile where
  fileName : QString
  fileExists : Bool
  contents : QByteArray
  isOpen : Bool
  buffer : QByteArray

/-- The constructor `QFile(name)`: the device is not open and has nothing
buffered. -/
def QFile.create (fs : FileSystem) (name : QString) : QFile :=
  { fileName := name
    fileExists := (fs name).isSome
    contents := (fs name).getD []
    isOpen := false
    buffer := [] }

/-- The library call `QIODevice::canReadLine()`: whether the read buffer of an
open device holds a line end (the byte 10). -/
def QFile.canReadLine (f : QFile) : Bool := f.isOpen && f.buffer.contains 10

/-- The library call `QIODevice::readLine()`: the bytes of the buffer up to and
with the first line end; nothing on a device that is not open. -/
def QFile.readLine (f : QFile) : QByteArray × QFile :=
  if f.isOpen then
    let line := f.buffer.takeWhile (fun b => decide (b ≠ 10))
    let rest := f.buffer.dropWhile (fun b => decide (b ≠ 10))
    (line ++ rest.take 1, { f with buffer := rest.drop 1 })
  else ([], f)

/-- The member `ShellCommands::runCommand`: the command is split at every space
(32) and the parts are the arguments of one `QProcess::execute`; `executed`
collects these argument lists. -/
def ShellCommands.runCommand (executed : List (List QString)) (command : QString) :
    List (List QString) :=
  executed ++ [QString.split 32 command]

/-- The loop `while( scriptFile.canReadLine() )` of `handle_run`, for at most
`fuel` rounds. -/
def ShellCommands.runLines : Nat → QFile → List (List QString) → List (List QString)
  | 0, _, executed => executed
  | fuel + 1, scriptFile, executed =>
    if scriptFile.canReadLine then
      ShellCommands.runLines fuel scriptFile.readLine.2
        (ShellCommands.runCommand executed (QString.fromUtf8 scriptFile.readLine.1))
    else executed

/-- The member `ShellCommands::handle_run`: the result and the argument lists of
the commands executed, in order. Every round of the loop takes at least one
byte, so one round more than the file has bytes is enough. -/
def ShellCommands.handle_run (fs : FileSystem) (arguments : List QString) :
    RunResult × List (List QString) :=
  let scriptFile := QFile.create fs (arguments.headD [])
  if scriptFile.fileExists = false then (RunResult.Failed, [])
  else (RunResult.Successful, ShellCommands.runLines (scriptFile.contents.length + 1) scriptFile [])

/-- An example of a file system: the one file `script` with the two lines
`a b` and `c d`. -/
def exampleFileSystem : FileSystem := fun name =>
  if name = QStringLiteral "script" then some (asciiBytes "a b\nc d\n") else none

/-! ## Messages of the demo client -/

/-- The library call `QIODevice::peek(maxSize)`. -/
def QIODevice.peek (d : QIODevice) (maxSize : Nat) : QByteArray := d.readBuffer.take maxSize

/-- The library call `QIODevice::getChar(nullptr)`: one byte is taken off. -/
def QIODevice.getChar (d : QIODevice) : QIODevice :=
  { d with readBuffer := d.readBuffer.drop 1 }

/-- The library call `QIODevice::ungetChar(c)`: the byte is put back in front. -/
def QIODevice.ungetChar (d : QIODevice) (c : Nat) : QIODevice :=
  { d with readBuffer := c :: d.readBuffer }

/-- The message type `rfbSetPixelFormat` of `rfb/rfbproto.h`. -/
def rfbSetPixelFormat : Int := 0

/-- The message type `rfbSetEncodings` of `rfb/rfbproto.h`. -/
def rfbSetEncodings : Int := 2

/-- The message type `rfbFramebufferUpdateRequest` of `rfb/rfbproto.h`. -/
def rfbFramebufferUpdateRequest : Int := 3

/-- The message type `rfbKeyEvent` of `rfb/rfbproto.h`. -/
def rfbKeyEvent : Int := 4

/-- The message type `rfbPointerEvent` of `rfb/rfbproto.h`. -/
def rfbPointerEvent : Int := 5

/-- The size of `rfbSetPixelFormatMsg`. -/
def sz_rfbSetPixelFormatMsg : Nat := 20

/-- The size of `rfbSetEncodingsMsg`: type, padding and the 16-bit number of
encodings. -/
def sz_rfbSetEncodingsMsg : Nat := 4

/-- The size of `rfbFramebufferUpdateRequestMsg`. -/
def sz_rfbFramebufferUpdateRequestMsg : Nat := 10

/-- The size of `rfbKeyEventMsg`. -/
def sz_rfbKeyEventMsg : Nat := 8

/-- The size of `rfbPointerEventMsg`. -/
def sz_rfbPointerEventMsg : Nat := 6

/-- The table `m_rfbClientToServerMessageSizes` as the constructor fills it. -/
def m_rfbClientToServerMessageSizes : List (Int × Nat) :=
  [(rfbSetPixelFormat, sz_rfbSetPixelFormatMsg),
   (rfbFramebufferUpdateRequest, sz_rfbFramebufferUpdateRequestMsg),
   (rfbKeyEvent, sz_rfbKeyEventMsg),
   (rfbPointerEvent, sz_rfbPointerEventMsg)]

/-- A byte as the `char messageType` that `peek` fills: bytes from 128 on are
negative. -/
def toChar (b : Nat) : Int := if b < 128 then (b : Int) else (b : Int) - 256

/-- The member `nEncodings` of the `rfbSetEncodingsMsg` at the head of the
buffer, `qFromBigEndian` applied: the bytes 2 and 3. -/
def nEncodings (header : QByteArray) : Nat := header.getD 2 0 * 256 + header.getD 3 0

/-- The member `DemoServerConnection::receiveClientMessage`: the return value
and the connection after, or `none` when `sendFramebufferUpdate` makes an access
out of range. `rfbMessageType` is `FeatureMessage::RfbMessageType`; the calls
`isReadyForReceive` and `receive` of the `FeatureMessage` are the two passes of
the message codec on the bytes after the type byte. The timer that
`sendFramebufferUpdate` may start is not part of the result. -/
def DemoServerConnection.receiveClientMessage (x : Externals) (rfbMessageType : Int)
    (server : DemoServer) (c : DemoServerConnection) : Option (Bool × DemoServerConnection) :=
  match c.m_socket.peek 1 with
  | [] => some (false, c)
  | first :: _ =>
    let messageType := toChar first
    if messageType = rfbSetEncodings then
      if c.m_socket.bytesAvailable ≥ sz_rfbSetEncodingsMsg then
        let setEncodingsMessage := c.m_socket.peek sz_rfbSetEncodingsMsg
        if setEncodingsMessage.length = sz_rfbSetEncodingsMsg then
          let totalSize := sz_rfbSetEncodingsMsg + nEncodings setEncodingsMessage * 4
          if c.m_socket.bytesAvailable ≥ totalSize then
            some (decide ((c.m_socket.read totalSize).1.length = totalSize),
              { c with m_socket := (c.m_socket.read totalSize).2 })
          else some (false, c)
        else some (false, c)
      else some (false, c)
    else if messageType = rfbMessageType then
      let socket := c.m_socket.getChar
      if VariantArrayMessage.isReadyForReceive x socket then
        match VariantArrayMessage.receive x socket with
        | (true, _, received) => some (true, { c with m_socket := received })
        | (false, _, received) => some (false, { c with m_socket := received.ungetChar first })
      else some (false, { c with m_socket := socket.ungetChar first })
    else
      match m_rfbClientToServerMessageSizes.lookup messageType with
      | none => some (false, { c with m_socket := c.m_socket.close })
      | some size =>
        if c.m_socket.bytesAvailable < size then some (false, c)
        else
          let c1 := { c with m_socket := (c.m_socket.read size).2 }
          if messageType = rfbFramebufferUpdateRequest then
            (c1.sendFramebufferUpdate server).map (fun r => (true, r.1))
          else some (true, c1)

/-- The wording of the specification for one complete client message at the
head of the buffer: the bytes that follow it, or `none` when no complete message
is buffered. A `SetEncodings` message has 4 bytes and 4 more for every
encoding; a feature message is the marker byte and one message of the codec;
the other messages have the size of the table. -/
def completeMessageRest (x : Externals) (rfbMessageType : Int) (buffer : QByteArray) :
    Option QByteArray :=
  match buffer with
  | [] => none
  | first :: body =>
    if toChar first = rfbSetEncodings then
      if 4 ≤ buffer.length ∧ 4 + nEncodings buffer * 4 ≤ buffer.length then
        some (buffer.drop (4 + nEncodings buffer * 4))
      else none
    else if toChar first = rfbMessageType then
      if x.messageReady body = true then
        match x.messageReceive body with
        | (some _, rest) => some rest
        | (none, _) => none
      else none
    else
      match m_rfbClientToServerMessageSizes.lookup (toChar first) with
      | some size => if size ≤ buffer.length then some (buffer.drop size) else none
      | none => none

/-! ## Feature messages and the connection of a worker -/

/-- The identifier of a feature, `Feature::Uid`, kept as the bytes of the UUID. -/
abbrev FeatureUid := QByteArray

/-- Modelled from the spec: the command of a feature message. `FeatureMessage.h`
is not part of the sources, which name the reserved `InitCommand` only; every
other command is kept by its number. -/
inductive FeatureCommand where
  | InitCommand
  | command (number : Int)
  deriving DecidableEq, Repr

/-- Modelled from the spec: the `FeatureEnvelope` of section 3 (`FeatureMessage`):
feature, command and arguments. -/
structure FeatureMessage where
  featureUid : FeatureUid
  command : FeatureCommand
  arguments : List (QString × QVariant)

/-- The constructor `FeatureMessage(featureUid, command)`: a message without
arguments. -/
def FeatureMessage.create (featureUid : FeatureUid) (command : FeatureCommand) :
    FeatureMessage :=
  { featureUid := featureUid, command := command, arguments := [] }

/-- The states of `QAbstractSocket::SocketState` that the worker passes
through. -/
inductive SocketState where
  | UnconnectedState
  | ConnectingState
  | ConnectedState
  deriving DecidableEq, Repr

/-- The members of `FeatureWorkerManagerConnection`, with the socket seen as its
state, the ports handed to `connectToHost` and the messages written to it, and
the timer and the exit of the application as flags. -/
structure FeatureWorkerManagerConnection where
  m_port : Int
  m_featureUid : FeatureUid
  socketState : SocketState
  connectRequests : List Nat
  sent : List FeatureMessage
  timerActive : Bool
  exitRequested : Bool

/-- The conversion of the `int` port to the `quint16` parameter of
`QAbstractSocket::connectToHost`. -/
def toQuint16 (port : Int) : Nat := (port % 65536).toNat

/-- The member `FeatureWorkerManagerConnection::tryConnection`. -/
def FeatureWorkerManagerConnection.tryConnection (c : FeatureWorkerManagerConnection) :
    FeatureWorkerManagerConnection :=
  if c.socketState ≠ SocketState.ConnectedState then
    { c with
      connectRequests := c.connectRequests ++ [toQuint16 c.m_port]
      socketState := SocketState.ConnectingState
      timerActive := true }
  else c

/-- The constructor `FeatureWorkerManagerConnection::FeatureWorkerManagerConnection`;
`featureWorkerManagerPort` is `VeyonCore::config().featureWorkerManagerPort()` and
`sessionId` is `VeyonCore::sessionId()`. -/
def FeatureWorkerManagerConnection.create (featureWorkerManagerPort sessionId : Int)
    (featureUid : FeatureUid) : FeatureWorkerManagerConnection :=
  FeatureWorkerManagerConnection.tryConnection
    { m_port := featureWorkerManagerPort + sessionId
      m_featureUid := featureUid
      socketState := SocketState.UnconnectedState
      connectRequests := []
      sent := []
      timerActive := false
      exitRequested := false }

/-- Modelled from the spec: `FeatureMessage::sendPlain(&m_socket)` writes the
message to the socket; a socket that is not connected takes nothing. -/
def FeatureWorkerManagerConnection.sendPlain (c : FeatureWorkerManagerConnection)
    (message : FeatureMessage) : FeatureWorkerManagerConnection :=
  if c.socketState = SocketState.ConnectedState then { c with sent := c.sent ++ [message] }
  else c

/-- The member `FeatureWorkerManagerConnection::sendMessage`. -/
def FeatureWorkerManagerConnection.sendMessage (c : FeatureWorkerManagerConnection)
    (message : FeatureMessage) : FeatureWorkerManagerConnection :=
  c.sendPlain message

/-- The member `FeatureWorkerManagerConnection::sendInitMessage`. -/
def FeatureWorkerManagerConnection.sendInitMessage (c : FeatureWorkerManagerConnection) :
    FeatureWorkerManagerConnection :=
  FeatureWorkerManagerConnection.sendPlain { c with timerActive := false }
    (FeatureMessage.create c.m_featureUid FeatureCommand.InitCommand)

/-- What happens to the connection of a worker: the socket gets connected or
disconnected, the connect timer fires, or the worker sends a message. -/
inductive WorkerEvent where
  | connected
  | disconnected
  | timeout
  | sendMessage (message : FeatureMessage)

/-- The slots that the constructor connects to the signals: `connected` runs
`sendInitMessage`, `disconnected` lets the application exit, the timer runs
`tryConnection`. -/
def FeatureWorkerManagerConnection.handle (c : FeatureWorkerManagerConnection) :
    WorkerEvent → FeatureWorkerManagerConnection
  | WorkerEvent.connected =>
    FeatureWorkerManagerConnection.sendInitMessage
      { c with socketState := SocketState.ConnectedState }
  | WorkerEvent.disconnected =>
    { c with socketState := SocketState.UnconnectedState, exitRequested := true }
  | WorkerEvent.timeout => c.tryConnection
  | WorkerEvent.sendMessage message => c.sendMessage message

/-! ## The worker manager -/

/-- The structure `FeatureWorkerManager::Worker`: socket, process and pending
messages; socket and process are kept as handles, `none` for a null pointer. -/
structure Worker where
  socket : Option Nat
  process : Option Nat
  pendingMessages : List FeatureMessage

/-- The members of `FeatureWorkerManager`: the map `m_workers` as a list of
pairs, the messages written to worker sockets so far, each with the handle of its
socket, and the number of processes started. -/
structure FeatureWorkerManager where
  m_workers : List (FeatureUid × Worker)
  delivered : List (Nat × FeatureMessage)
  started : Nat

/-- A worker manager as constructed: no workers. -/
def FeatureWorkerManager.create : FeatureWorkerManager :=
  { m_workers := [], delivered := [], started := 0 }

/-- The entry of `m_workers` for a feature, if there is one. -/
def FeatureWorkerManager.worker (m : FeatureWorkerManager) (featureUid : FeatureUid) :
    Option Worker :=
  (m.m_workers.find? (fun entry => decide (entry.1 = featureUid))).map Prod.snd

/-- The assignment `m_workers[featureUid] = worker`. -/
def FeatureWorkerManager.setWorker (m : FeatureWorkerManager) (featureUid : FeatureUid)
    (worker : Worker) : FeatureWorkerManager :=
  { m with m_workers :=
      (featureUid, worker) :: m.m_workers.filter (fun entry => decide (entry.1 ≠ featureUid)) }

/-- Modelled from the spec: `startManagedWorker` of section 4.3
(`startManagedSystemWorker`, whose body is not part of the sources): if no
worker exists for the feature, one is created and its process started. -/
def FeatureWorkerManager.startManagedSystemWorker (m : FeatureWorkerManager)
    (featureUid : FeatureUid) : FeatureWorkerManager :=
  match m.worker featureUid with
  | some _ => m
  | none =>
    FeatureWorkerManager.setWorker { m with started := m.started + 1 } featureUid
      { socket := none, process := some m.started, pendingMessages := [] }

/-- Modelled from the spec: `startUnmanagedWorker` of section 4.3
(`startUnmanagedSessionWorker`): a worker without a process is created for the
feature. -/
def FeatureWorkerManager.startUnmanagedSessionWorker (m : FeatureWorkerManager)
    (featureUid : FeatureUid) : FeatureWorkerManager :=
  m.setWorker featureUid { socket := none, process := none, pendingMessages := [] }

/-- Modelled from the spec: `stopWorker` of section 4.3: the entry is dropped;
nothing happens when there is none. -/
def FeatureWorkerManager.stopWorker (m : FeatureWorkerManager) (featureUid : FeatureUid) :
    FeatureWorkerManager :=
  { m with m_workers := m.m_workers.filter (fun entry => decide (entry.1 ≠ featureUid)) }

/-- Modelled from the spec: `send` of section 4.3 (`sendMessage`): with the
socket of the worker attached the message is sent at once, else it is appended
to the pending messages; nothing happens when the feature has no worker. -/
def FeatureWorkerManager.sendMessage (m : FeatureWorkerManager) (message : FeatureMessage) :
    FeatureWorkerManager :=
  match m.worker message.featureUid with
  | none => m
  | some worker =>
    match worker.socket with
    | some socket => { m with delivered := m.delivered ++ [(socket, message)] }
    | none =>
      m.setWorker message.featureUid
        { worker with pendingMessages := worker.pendingMessages ++ [message] }

/-- Modelled from the spec: `acceptConnection` of section 4.3 once the worker has
announced its feature: the socket is bound into the entry of that feature and
the pending messages are sent in order; nothing happens when the feature has no
worker. -/
def FeatureWorkerManager.acceptConnection (m : FeatureWorkerManager) (socket : Nat)
    (featureUid : FeatureUid) : FeatureWorkerManager :=
  match m.worker featureUid with
  | none => m
  | some worker =>
    FeatureWorkerManager.setWorker
      { m with delivered := m.delivered ++ worker.pendingMessages.map (fun message => (socket, message)) }
      featureUid { worker with socket := some socket, pendingMessages := [] }

/-- Modelled from the spec: `closeConnection` of section 4.3: the socket
reference is cleared, the entry and its process stay. -/
def FeatureWorkerManager.closeConnection (m : FeatureWorkerManager) (socket : Nat) :
    FeatureWorkerManager :=
  { m with m_workers := m.m_workers.map (fun entry =>
      if entry.2.socket = some socket then (entry.1, { entry.2 with socket := none })
      else entry) }

/-- Modelled from the spec: `isRunning` of section 4.3 (`isWorkerRunning`). -/
def FeatureWorkerManager.isWorkerRunning (m : FeatureWorkerManager) (featureUid : FeatureUid) :
    Bool :=
  match m.worker featureUid with
  | some worker => worker.process.isSome || worker.socket.isSome
  | none => false

/-- The operations of the worker manager. -/
inductive ManagerCall where
  | startManagedSystemWorker (featureUid : FeatureUid)
  | startUnmanagedSessionWorker (featureUid : FeatureUid)
  | stopWorker (featureUid : FeatureUid)
  | sendMessage (message : FeatureMessage)
  | acceptConnection (socket : Nat) (featureUid : FeatureUid)
  | closeConnection (socket : Nat)

/-- One operation on the worker manager. -/
def FeatureWorkerManager.call (m : FeatureWorkerManager) : ManagerCall → FeatureWorkerManager
  | ManagerCall.startManagedSystemWorker featureUid => m.startManagedSystemWorker featureUid
  | ManagerCall.startUnmanagedSessionWorker featureUid => m.startUnmanagedSessionWorker featureUid
  | ManagerCall.stopWorker featureUid => m.stopWorker featureUid
  | ManagerCall.sendMessage message => m.sendMessage message
  | ManagerCall.acceptConnection socket featureUid => m.acceptConnection socket featureUid
  | ManagerCall.closeConnection socket => m.closeConnection socket

/-- An example of a demo connection with an open device that holds the given
bytes, at key frame 7 and message index 0. -/
def exampleDemoClient (buffer : QByteArray) : DemoServerConnection :=
  { m_socket := { isOpen := true, readBuffer := buffer, written := [] }
    m_keyFrame := 7
    m_framebufferUpdateMessageIndex := 0 }

/-! ## Base64 -/

/-- The six-bit value of a character of the Base64 alphabet, `none` for every
other character. -/
def fromBase64Digit (ch : Nat) : Option Nat :=
  if 65 ≤ ch ∧ ch ≤ 90 then some (ch - 65)
  else if 97 ≤ ch ∧ ch ≤ 122 then some (ch - 97 + 26)
  else if 48 ≤ ch ∧ ch ≤ 57 then some (ch - 48 + 52)
  else if ch = 43 then some 62
  else if ch = 47 then some 63
  else none

/-- The loop of `QByteArray::fromBase64()` with the default options, which
ignore decoding errors: a character outside the alphabet is skipped; the others
are collected six bits at a time in `buf`, and a byte is written whenever eight
bits are there. -/
def fromBase64_helper (buf nbits : Nat) : QByteArray → QByteArray
  | [] => []
  | ch :: rest =>
    match fromBase64Digit ch with
    | none => fromBase64_helper buf nbits rest
    | some d =>
      if nbits + 6 ≥ 8 then
        (buf * 64 + d) / 2 ^ (nbits + 6 - 8) % 256
          :: fromBase64_helper ((buf * 64 + d) % 2 ^ (nbits + 6 - 8)) (nbits + 6 - 8) rest
      else fromBase64_helper (buf * 64 + d) (nbits + 6) rest

/-- `QByteArray::fromBase64()` with the default options. -/
def QByteArray.fromBase64 (base64 : QByteArray) : QByteArray := fromBase64_helper 0 0 base64

/-! ## JSON values in the local configuration store -/

/-- The values of `QJsonValue`; an array is a list of values and an object a list
of members. -/
inductive QJsonValue where
  | null
  | bool (b : Bool)
  | double (d : Float)
  | string (s : QString)
  | array (items : List QJsonValue)
  | object (members : List (QString × QJsonValue))
  | undefined

/-- The type `QJsonArray`. -/
abbrev QJsonArray := List QJsonValue

/-- The type `QJsonObject`. -/
abbrev QJsonObject := List (QString × QJsonValue)

/-- The library call `QJsonValue::isArray()`. -/
def QJsonValue.isArray : QJsonValue → Bool
  | .array _ => true
  | _ => false

/-- The library call `QJsonValue::isObject()`. -/
def QJsonValue.isObject : QJsonValue → Bool
  | .object _ => true
  | _ => false

/-- The library call `QJsonValue::toArray()`: the array, or an empty array for a
value of another type. -/
def QJsonValue.toArray : QJsonValue → QJsonArray
  | .array items => items
  | _ => []

/-- The library call `QJsonValue::toObject()`: the object, or an empty object for
a value of another type. -/
def QJsonValue.toObject : QJsonValue → QJsonObject
  | .object members => members
  | _ => []

/-- The assignment `jsonObject[key] = value`. -/
def QJsonObject.insert (jsonObject : QJsonObject) (key : QString) (value : QJsonValue) :
    QJsonObject :=
  (key, value) :: jsonObject.filter (fun member => decide (member.1 ≠ key))

/-- The library call `QJsonObject::contains(key)`. -/
def QJsonObject.contains (jsonObject : QJsonObject) (key : QString) : Bool :=
  jsonObject.any (fun member => decide (member.1 = key))

/-- The read access `jsonObject[key]`: the value of the member, or `undefined`
when there is none. -/
def QJsonObject.value (jsonObject : QJsonObject) (key : QString) : QJsonValue :=
  match jsonObject.find? (fun member => decide (member.1 = key)) with
  | some member => member.2
  | none => QJsonValue.undefined

/-- The two calls of the JSON library that the store makes: `toJson` is
`QJsonDocument(jsonObject).toJson(QJsonDocument::Compact)` and `fromJson` is
`QJsonDocument::fromJson(bytes).object()`, which is the empty object when the
bytes are no JSON document or the document is no object. -/
structure JsonLibrary where
  toJson : QJsonObject → QByteArray
  fromJson : QByteArray → QJsonObject

/-- The local `jsonObject` of `serializeJsonValue` at the point where it is
written: an array is stored under the key `a`, an object under the key `o`, and
for a value of another type the object stays empty. -/
def serializeJsonValue.jsonObject (jsonValue : QJsonValue) : QJsonObject :=
  if jsonValue.isArray then QJsonObject.insert [] (QStringLiteral "a") jsonValue
  else if jsonValue.isObject then QJsonObject.insert [] (QStringLiteral "o") jsonValue
  else []

/-- The group `captured(1)` of a match of the pattern `^@JsonValue(\(.*\))$`
in a string, `none` without a match. The pattern asks for `@JsonValue` at the
start, then the group, which is an opening parenthesis, any characters other
than a newline and a closing parenthesis, and then the end of the string, which
`$` also finds in front of a newline that ends the string. -/
def jsonValueRX_captured1 (stringValue : QString) : Option QString :=
  if (QStringLiteral "@JsonValue").isPrefixOf stringValue then
    let rest := stringValue.drop (QStringLiteral "@JsonValue").length
    let group := if rest.getLast? = some 10 then rest.dropLast else rest
    match group with
    | 40 :: body =>
      if body.getLast? = some 41 ∧ 10 ∉ body.dropLast then some group else none
    | _ => none
  else none

/-- The value that `loadSettingsTree` hands to `Object::setValue`: a JSON array,
a JSON object, or the stored value as `QSettings` has it. -/
inductive LoadedValue where
  | jsonArray (items : QJsonArray)
  | jsonObject (members : QJsonObject)
  | stored (value : QString)

/-- The body of the loop of `loadSettingsTree` over the child keys, for the
stored string of one key: the value that is set, or `none` in the branch that
only logs `trying to load unknown JSON value type!`. -/
def loadValue (lib : JsonLibrary) (stringValue : QString) : Option LoadedValue :=
  match jsonValueRX_captured1 stringValue with
  | some captured =>
    let jsonValue := lib.fromJson (QByteArray.fromBase64 (QString.toUtf8 captured))
    if jsonValue.contains (QStringLiteral "a") then
      some (LoadedValue.jsonArray (jsonValue.value (QStringLiteral "a")).toArray)
    else if jsonValue.contains (QStringLiteral "o") then
      some (LoadedValue.jsonObject (jsonValue.value (QStringLiteral "o")).toObject)
    else none
  | none => some (LoadedValue.stored stringValue)

/-- One call `obj->setValue( key, value, parentKey )`. -/
structure SetValue where
  key : QString
  value : LoadedValue
  parentKey : QString

/-- What `QSettings` shows of a group: its child groups and its child keys with
their stored strings. -/
inductive QSettings where
  | group (childGroups : List (QString × QSettings)) (childKeys : List (QString × QString))

/-- The loop of `loadSettingsTree` over the child keys. -/
def loadChildKeys (lib : JsonLibrary) (parentKey : QString) :
    List (QString × QString) → List SetValue
  | [] => []
  | (k, stringValue) :: rest =>
    match loadValue lib stringValue with
    | some value =>
      { key := k, value := value, parentKey := parentKey } :: loadChildKeys lib parentKey rest
    | none => loadChildKeys lib parentKey rest

mutual
/-- The function `loadSettingsTree` of `LocalStore.cpp`, as the calls of
`Object::setValue` that it makes, in order. -/
def loadSettingsTree (lib : JsonLibrary) : QSettings → QString → List SetValue
  | QSettings.group childGroups childKeys, parentKey =>
    loadChildGroups lib parentKey childGroups ++ loadChildKeys lib parentKey childKeys
/-- The loop of `loadSettingsTree` over the child groups. -/
def loadChildGroups (lib : JsonLibrary) (parentKey : QString) :
    List (QString × QSettings) → List SetValue
  | [] => []
  | (g, s) :: rest =>
    loadSettingsTree lib s
        (parentKey ++ (if parentKey.isEmpty then [] else QStringLiteral "/") ++ g)
      ++ loadChildGroups lib parentKey rest
end

/-! ## An example of a JSON library -/

mutual
/-- The compact text of a JSON value in the example library: null, booleans,
strings without escapes, arrays and objects; numbers are not covered and are
written as `null`. -/
def exampleWriteValue : QJsonValue → QByteArray
  | .null => asciiBytes "null"
  | .bool true => asciiBytes "true"
  | .bool false => asciiBytes "false"
  | .double _ => asciiBytes "null"
  | .string s => 34 :: QString.toUtf8 s ++ [34]
  | .array items => 91 :: exampleWriteItems items ++ [93]
  | .object members => 123 :: exampleWriteMembers members ++ [125]
  | .undefined => asciiBytes "null"
/-- The items of an array, separated by commas. -/
def exampleWriteItems : List QJsonValue → QByteArray
  | [] => []
  | item :: rest =>
    exampleWriteValue item ++ (if rest.isEmpty then [] else [44]) ++ exampleWriteItems rest
/-- The members of an object, separated by commas. -/
def exampleWriteMembers : List (QString × QJsonValue) → QByteArray
  | [] => []
  | (key, value) :: rest =>
    34 :: QString.toUtf8 key ++ [34, 58] ++ exampleWriteValue value
      ++ (if rest.isEmpty then [] else [44]) ++ exampleWriteMembers rest
end

/-- The text up to the closing quotation mark of a string, and what follows the
mark. -/
def exampleReadString (input : QByteArray) : Option (QString × QByteArray) :=
  match input.dropWhile (fun b => decide (b ≠ 34)) with
  | _ :: rest => some (QString.fromUtf8 (input.takeWhile (fun b => decide (b ≠ 34))), rest)
  | [] => none

mutual
/-- The reader of the example library for one value, with what follows it. -/
def exampleReadValue : Nat → QByteArray → Option (QJsonValue × QByteArray)
  | 0, _ => none
  | fuel + 1, input =>
    match input with
    | 110 :: 117 :: 108 :: 108 :: rest => some (QJsonValue.null, rest)
    | 116 :: 114 :: 117 :: 101 :: rest => some (QJsonValue.bool true, rest)
    | 102 :: 97 :: 108 :: 115 :: 101 :: rest => some (QJsonValue.bool false, rest)
    | 34 :: rest => (exampleReadString rest).map (fun r => (QJsonValue.string r.1, r.2))
    | 91 :: 93 :: rest => some (QJsonValue.array [], rest)
    | 91 :: rest => (exampleReadItems fuel rest).map (fun r => (QJsonValue.array r.1, r.2))
    | 123 :: 125 :: rest => some (QJsonValue.object [], rest)
    | 123 :: rest => (exampleReadMembers fuel rest).map (fun r => (QJsonValue.object r.1, r.2))
    | _ => none
/-- The reader for the items of an array that is not empty, up to the closing
bracket. -/
def exampleReadItems : Nat → QByteArray → Option (List QJsonValue × QByteArray)
  | 0, _ => none
  | fuel + 1, input =>
    match exampleReadValue fuel input with
    | some (item, 44 :: rest) =>
      (exampleReadItems fuel rest).map (fun r => (item :: r.1, r.2))
    | some (item, 93 :: rest) => some ([item], rest)
    | _ => none
/-- The reader for the members of an object that is not empty, up to the
closing brace. -/
def exampleReadMembers : Nat → QByteArray → Option (List (QString × QJsonValue) × QByteArray)
  | 0, _ => none
  | fuel + 1, input =>
    match input with
    | 34 :: afterQuote =>
      match exampleReadString afterQuote with
      | some (key, 58 :: afterColon) =>
        match exampleReadValue fuel afterColon with
        | some (value, 44 :: rest) =>
          (exampleReadMembers fuel rest).map (fun r => ((key, value) :: r.1, r.2))
        | some (value, 125 :: rest) => some ([(key, value)], rest)
        | _ => none
      | _ => none
    | _ => none
end

/-- The constant `VariantStream::MaxByteArraySize`. -/
def VariantStream.MaxByteArraySize : Nat := 16 * 1024 * 1024

/-- The constant `VariantStream::MaxStringSize`. -/
def VariantStream.MaxStringSize : Nat := 64 * 1024

/-- The constant `VariantStream::MaxContainerSize`. -/
def VariantStream.MaxContainerSize : Nat := 1024

/-- The constant `VariantStream::MaxCheckRecursionDepth`. -/
def VariantStream.MaxCheckRecursionDepth : Nat := 3

/-- The two bytes of a UTF-16 code unit, or the four bytes of a surrogate pair,
for one code point, high byte first. -/
def encodeUtf16 (cp : Nat) : QByteArray :=
  if cp < 0x10000 then [cp / 256, cp % 256]
  else
    [(0xD800 + (cp - 0x10000) / 1024) / 256, (0xD800 + (cp - 0x10000) / 1024) % 256,
     (0xDC00 + (cp - 0x10000) % 1024) / 256, (0xDC00 + (cp - 0x10000) % 1024) % 256]

/-- The UTF-16 code units of a string as bytes, high byte first: the data of a
`QString` in a `QDataStream`. -/
def QString.toUtf16 (s : QString) : QByteArray := s.flatMap encodeUtf16

/-- The code units of big-endian UTF-16 data; a single byte at the end is
dropped. -/
def utf16Units : QByteArray → List Nat
  | high :: low :: rest => (high * 256 + low) :: utf16Units rest
  | _ => []

/-- The code points of UTF-16 code units, with the high surrogate that is
waiting for its low surrogate, if there is one: a high surrogate followed by a
low surrogate is one code point, every other unit is taken as it is. -/
def decodeUtf16 : Option Nat → List Nat → QString
  | none, [] => []
  | some high, [] => [high]
  | none, u :: rest =>
    if 0xD800 ≤ u ∧ u < 0xDC00 then decodeUtf16 (some u) rest
    else u :: decodeUtf16 none rest
  | some high, u :: rest =>
    if 0xDC00 ≤ u ∧ u < 0xE000 then
      (0x10000 + (high - 0xD800) * 1024 + (u - 0xDC00)) :: decodeUtf16 none rest
    else if 0xD800 ≤ u ∧ u < 0xDC00 then high :: decodeUtf16 (some u) rest
    else high :: u :: decodeUtf16 none rest

/-- The string of big-endian UTF-16 data: the data of a `QString` read from a
`QDataStream`. -/
def QString.fromUtf16 (data : QByteArray) : QString := decodeUtf16 none (utf16Units data)

/-- Modelled from the spec: a `quint32` read from a `QDataStream`, high byte
first, with the bytes that follow; `none` when fewer than four bytes are
there. -/
def readUInt32 : QByteArray → Option (Nat × QByteArray)
  | b3 :: b2 :: b1 :: b0 :: rest => some (qFromBigEndian32 [b3, b2, b1, b0], rest)
  | _ => none

/-- The bytes of a `qint32` in a `QDataStream`: the two's complement, high byte
first. -/
def writeInt32 (n : Int) : QByteArray := qToBigEndian32 (n % 4294967296).toNat

/-- The `qint32` of an unsigned 32-bit pattern. -/
def toInt32 (u : Nat) : Int := if u < 2147483648 then (u : Int) else (u : Int) - 4294967296

/-- The bytes of a `qint64` in a `QDataStream`: the two's complement, high byte
first. -/
def writeInt64 (n : Int) : QByteArray :=
  qToBigEndian32 ((n % 18446744073709551616).toNat / 4294967296)
    ++ qToBigEndian32 ((n % 18446744073709551616).toNat % 4294967296)

/-- The `qint64` of an unsigned 64-bit pattern. -/
def toInt64 (u : Nat) : Int :=
  if u < 9223372036854775808 then (u : Int) else (u : Int) - 18446744073709551616

/-- A `qint32` read from a `QDataStream`. -/
def readInt32 (input : QByteArray) : Option (Int × QByteArray) :=
  (readUInt32 input).map (fun r => (toInt32 r.1, r.2))

/-- A `qint64` read from a `QDataStream`. -/
def readInt64 (input : QByteArray) : Option (Int × QByteArray) :=
  match readUInt32 input with
  | some (high, rest) =>
    (readUInt32 rest).map (fun r => (toInt64 (high * 4294967296 + r.1), r.2))
  | none => none

/-- The type numbers of `QMetaType` for the kinds of value that the stream
carries. -/
def QMetaType.Bool : Nat := 1

/-- The type number of `int`. -/
def QMetaType.Int : Nat := 2

/-- The type number of `qlonglong`. -/
def QMetaType.LongLong : Nat := 4

/-- The type number of `QVariantMap`. -/
def QMetaType.QVariantMap : Nat := 8

/-- The type number of `QVariantList`. -/
def QMetaType.QVariantList : Nat := 9

/-- The type number of `QString`. -/
def QMetaType.QString : Nat := 10

/-- The type number of `QStringList`. -/
def QMetaType.QStringList : Nat := 11

/-- The type number of `QByteArray`. -/
def QMetaType.QByteArray : Nat := 12

/-- The type number of `QRect`. -/
def QMetaType.QRect : Nat := 19

/-- The type number of `QUuid`. -/
def QMetaType.QUuid : Nat := 30

/-- The first type number of the user types. -/
def QMetaType.User : Nat := 1024

/-- Modelled from the spec: a string in the stream: the number of bytes of its
UTF-16 data as a `quint32`, then the data. -/
def writeString (s : QString) : QByteArray :=
  qToBigEndian32 (QString.toUtf16 s).length ++ QString.toUtf16 s

/-- Modelled from the spec: a byte payload in the stream: its length as a
`quint32`, then the bytes. -/
def writeByteArray (b : QByteArray) : QByteArray := qToBigEndian32 b.length ++ b

/-- Modelled from the spec: a string list in the stream: the number of strings
as a `quint32`, then the strings. -/
def writeStringList (l : List QString) : QByteArray :=
  qToBigEndian32 l.length ++ l.flatMap writeString

mutual
/-- Modelled from the spec: the bytes of a value in the stream, `encode` of
section 4.2 (`m_dataStream << v`; `VariantStream.cpp` is not part of the
sources): the type number as a `quint32`, the null flag, and the data of the
value. A rectangle is written as left, top, right and bottom; a list as the
number of its items and the items; a map as the number of its entries and for
each the key and the value. An invalid value has the type number 0 and the null
flag set, and an authentication type is a value of a user type. -/
def writeVariant : QVariant → QByteArray
  | .invalid => qToBigEndian32 0 ++ [1]
  | .bool b => qToBigEndian32 QMetaType.Bool ++ [0] ++ [if b then 1 else 0]
  | .int n => qToBigEndian32 QMetaType.Int ++ [0] ++ writeInt32 n
  | .longLong n => qToBigEndian32 QMetaType.LongLong ++ [0] ++ writeInt64 n
  | .rect x y w h =>
    qToBigEndian32 QMetaType.QRect ++ [0]
      ++ (writeInt32 x ++ writeInt32 y ++ writeInt32 (x + w - 1) ++ writeInt32 (y + h - 1))
  | .string s => qToBigEndian32 QMetaType.QString ++ [0] ++ writeString s
  | .stringList l => qToBigEndian32 QMetaType.QStringList ++ [0] ++ writeStringList l
  | .uuid u => qToBigEndian32 QMetaType.QUuid ++ [0] ++ u
  | .byteArray b => qToBigEndian32 QMetaType.QByteArray ++ [0] ++ writeByteArray b
  | .authType _ => qToBigEndian32 QMetaType.User ++ [0]
  | .list l =>
    qToBigEndian32 QMetaType.QVariantList ++ [0] ++ (qToBigEndian32 l.length ++ writeVariants l)
  | .map m =>
    qToBigEndian32 QMetaType.QVariantMap ++ [0] ++ (qToBigEndian32 m.length ++ writeEntries m)
/-- The items of a list, one after the other. -/
def writeVariants : List QVariant → QByteArray
  | [] => []
  | v :: vs => writeVariant v ++ writeVariants vs
/-- The entries of a map, one after the other, each as key and value. -/
def writeEntries : List (QString × QVariant) → QByteArray
  | [] => []
  | (k, v) :: rest => writeString k ++ (writeVariant v ++ writeEntries rest)
end

/-- A check of the check pass for data of a fixed size: the bytes that follow
them, or `none` when they are not all there. -/
def checkFixed (size : Nat) (input : QByteArray) : Option QByteArray :=
  if input.length < size then none else some (input.drop size)

/-- Modelled from the spec: `checkBool`. -/
def VariantStream.checkBool (input : QByteArray) : Option QByteArray := checkFixed 1 input

/-- Modelled from the spec: `checkInt`. -/
def VariantStream.checkInt (input : QByteArray) : Option QByteArray := checkFixed 4 input

/-- Modelled from the spec: `checkLong`. -/
def VariantStream.checkLong (input : QByteArray) : Option QByteArray := checkFixed 8 input

/-- Modelled from the spec: `checkRect`. -/
def VariantStream.checkRect (input : QByteArray) : Option QByteArray := checkFixed 16 input

/-- Modelled from the spec: `checkUuid`. -/
def VariantStream.checkUuid (input : QByteArray) : Option QByteArray := checkFixed 16 input

/-- Modelled from the spec: `checkString`: the length is read, a null string
(length `0xffffffff`) is accepted, a length above `MaxStringSize` is refused,
and the data have to be there. The result is the bytes that follow the string,
or `none` when the check fails. -/
def VariantStream.checkString (input : QByteArray) : Option QByteArray :=
  match readUInt32 input with
  | some (len, rest) =>
    if len = 0xffffffff then some rest
    else if len > VariantStream.MaxStringSize then none
    else if rest.length < len then none
    else some (rest.drop len)
  | none => none

/-- Modelled from the spec: `checkByteArray`: as `checkString`, with
`MaxByteArraySize`. -/
def VariantStream.checkByteArray (input : QByteArray) : Option QByteArray :=
  match readUInt32 input with
  | some (len, rest) =>
    if len = 0xffffffff then some rest
    else if len > VariantStream.MaxByteArraySize then none
    else if rest.length < len then none
    else some (rest.drop len)
  | none => none

/-- A check repeated a number of times, each on what the one before left; it
fails as soon as one of them fails. -/
def checkRepeated (check : QByteArray → Option QByteArray) : Nat → QByteArray → Option QByteArray
  | 0, input => some input
  | count + 1, input =>
    match check input with
    | some rest => checkRepeated check count rest
    | none => none

/-- Modelled from the spec: `checkStringList`: the number of strings must not
exceed `MaxContainerSize`, and every string is checked. -/
def VariantStream.checkStringList (input : QByteArray) : Option QByteArray :=
  match readUInt32 input with
  | some (count, rest) =>
    if count > VariantStream.MaxContainerSize then none
    else checkRepeated VariantStream.checkString count rest
  | none => none

/-- Modelled from the spec: `checkVariantList(depth)`, with the check of an
item at `depth + 1` as an argument: the number of items must not exceed
`MaxContainerSize`, and every item is checked. -/
def VariantStream.checkVariantList (checkItem : QByteArray → Option QByteArray)
    (input : QByteArray) : Option QByteArray :=
  match readUInt32 input with
  | some (count, rest) =>
    if count > VariantStream.MaxContainerSize then none
    else checkRepeated checkItem count rest
  | none => none

/-- Modelled from the spec: `checkVariantMap(depth)`, with the check of a value
at `depth + 1` as an argument: the number of entries must not exceed
`MaxContainerSize`, and of every entry the key is checked as a string and then
the value. -/
def VariantStream.checkVariantMap (checkItem : QByteArray → Option QByteArray)
    (input : QByteArray) : Option QByteArray :=
  match readUInt32 input with
  | some (count, rest) =>
    if count > VariantStream.MaxContainerSize then none
    else
      checkRepeated (fun entry =>
        match VariantStream.checkString entry with
        | some value => checkItem value
        | none => none) count rest
  | none => none

/-- Modelled from the spec: the check pass of section 4.2, `checkVariant(depth)`:
the first argument is the number of levels that are still allowed, which is
`MaxCheckRecursionDepth + 1 - depth`, so that it is 0 exactly when `depth`
exceeds `MaxCheckRecursionDepth`, where the check fails. Otherwise the type
number and the null flag are read and the data are checked by the kind of the
value; a type number that is none of the kinds fails. The result is the bytes
that follow the value. -/
def VariantStream.checkVariant : Nat → QByteArray → Option QByteArray
  | 0, _ => none
  | levels + 1, input =>
    match readUInt32 input with
    | some (typeId, _ :: rest) =>
      if typeId = QMetaType.Bool then VariantStream.checkBool rest
      else if typeId = QMetaType.QByteArray then VariantStream.checkByteArray rest
      else if typeId = QMetaType.Int then VariantStream.checkInt rest
      else if typeId = QMetaType.LongLong then VariantStream.checkLong rest
      else if typeId = QMetaType.QRect then VariantStream.checkRect rest
      else if typeId = QMetaType.QString then VariantStream.checkString rest
      else if typeId = QMetaType.QStringList then VariantStream.checkStringList rest
      else if typeId = QMetaType.QUuid then VariantStream.checkUuid rest
      else if typeId = QMetaType.QVariantList then
        VariantStream.checkVariantList (VariantStream.checkVariant levels) rest
      else if typeId = QMetaType.QVariantMap then
        VariantStream.checkVariantMap (VariantStream.checkVariant levels) rest
      else none
    | _ => none

/-- A string read from the stream, with the bytes that follow it; a null string
is read as the empty string. -/
def readString (input : QByteArray) : Option (QString × QByteArray) :=
  match readUInt32 input with
  | some (len, rest) =>
    if len = 0xffffffff then some ([], rest)
    else if rest.length < len then none
    else some (QString.fromUtf16 (rest.take len), rest.drop len)
  | none => none

/-- A byte payload read from the stream, with the bytes that follow it. -/
def readByteArray (input : QByteArray) : Option (QByteArray × QByteArray) :=
  match readUInt32 input with
  | some (len, rest) =>
    if len = 0xffffffff then some ([], rest)
    else if rest.length < len then none
    else some (rest.take len, rest.drop len)
  | none => none

/-- A reader repeated a number of times, each on what the one before left. -/
def readRepeated {α : Type} (read : QByteArray → Option (α × QByteArray)) :
    Nat → QByteArray → Option (List α × QByteArray)
  | 0, input => some ([], input)
  | count + 1, input =>
    match read input with
    | some (item, rest) =>
      match readRepeated read count rest with
      | some (items, rest2) => some (item :: items, rest2)
      | none => none
    | none => none

/-- Modelled from the spec: the materialize pass of section 4.2
(`m_dataStream >> v`) with the bytes that follow the value, or `none` when the
bytes are no value. The first argument bounds the levels of lists and maps
within each other; the pass itself has no such bound, and `read` gives it more
levels than there are bytes. -/
def readVariant : Nat → QByteArray → Option (QVariant × QByteArray)
  | 0, _ => none
  | levels + 1, input =>
    match readUInt32 input with
    | some (typeId, _ :: rest) =>
      if typeId = QMetaType.Bool then
        match rest with
        | b :: rest1 => some (QVariant.bool (decide (b ≠ 0)), rest1)
        | [] => none
      else if typeId = QMetaType.Int then
        (readInt32 rest).map (fun r => (QVariant.int r.1, r.2))
      else if typeId = QMetaType.LongLong then
        (readInt64 rest).map (fun r => (QVariant.longLong r.1, r.2))
      else if typeId = QMetaType.QRect then
        match readInt32 rest with
        | some (x1, rest1) =>
          match readInt32 rest1 with
          | some (y1, rest2) =>
            match readInt32 rest2 with
            | some (x2, rest3) =>
              (readInt32 rest3).map
                (fun r => (QVariant.rect x1 y1 (x2 - x1 + 1) (r.1 - y1 + 1), r.2))
            | none => none
          | none => none
        | none => none
      else if typeId = QMetaType.QString then
        (readString rest).map (fun r => (QVariant.string r.1, r.2))
      else if typeId = QMetaType.QStringList then
        match readUInt32 rest with
        | some (count, rest1) =>
          (readRepeated readString count rest1).map (fun r => (QVariant.stringList r.1, r.2))
        | none => none
      else if typeId = QMetaType.QUuid then
        if rest.length < 16 then none else some (QVariant.uuid (rest.take 16), rest.drop 16)
      else if typeId = QMetaType.QByteArray then
        (readByteArray rest).map (fun r => (QVariant.byteArray r.1, r.2))
      else if typeId = QMetaType.QVariantList then
        match readUInt32 rest with
        | some (count, rest1) =>
          (readRepeated (readVariant levels) count rest1).map
            (fun r => (QVariant.list r.1, r.2))
        | none => none
      else if typeId = QMetaType.QVariantMap then
        match readUInt32 rest with
        | some (count, rest1) =>
          (readRepeated (fun entry =>
            match readString entry with
            | some (k, value) => (readVariant levels value).map (fun r => ((k, r.1), r.2))
            | none => none) count rest1).map (fun r => (QVariant.map r.1, r.2))
        | none => none
      else none
    | _ => none

/-- Modelled from the spec: `VariantStream::read()`, `decode` of section 4.2, on
the device of the stream: the check pass runs at depth 0 and consumes nothing;
when it fails the result is an invalid value and the device is as it was, and
only when it passes does the materialize pass take the bytes of the value off
the device. -/
def VariantStream.read (d : QIODevice) : QVariant × QIODevice :=
  match VariantStream.checkVariant (VariantStream.MaxCheckRecursionDepth + 1) d.readBuffer with
  | none => (QVariant.invalid, d)
  | some _ =>
    match readVariant (d.readBuffer.length + 1) d.readBuffer with
    | some (v, rest) => (v, { d with readBuffer := rest })
    | none => (QVariant.invalid, d)

/-- Modelled from the spec: `VariantStream::write(v)`: the bytes of the value
are written to the device. -/
def VariantStream.write (d : QIODevice) (v : QVariant) : QIODevice :=
  d.write (writeVariant v)

/-- A string that a `QString` can hold and the stream can carry: every code
point is a Unicode scalar value, and the UTF-16 data are shorter than
`0xffffffff` bytes. -/
def representableString (s : QString) : Bool :=
  s.all (fun c => decide (c < 0xD800) || (decide (0xE000 ≤ c) && decide (c < 0x110000)))
    && decide ((QString.toUtf16 s).length < 0xffffffff)

/-- A number in the range of a signed 32-bit integer. -/
def isInt32 (n : Int) : Bool := decide (-2147483648 ≤ n) && decide (n < 2147483648)

/-- A number in the range of a signed 64-bit integer. -/
def isInt64 (n : Int) : Bool :=
  decide (-9223372036854775808 ≤ n) && decide (n < 9223372036854775808)

mutual
/-- A `Value` of section 3 as its types can hold it: a bool, a 32-bit or 64-bit
integer in its range, a rectangle of 32-bit coordinates, a string, a string
list, an identifier of 16 bytes, a byte payload, a list of values or a map of
values, every length below 2^32. Invalid values and authentication types are no
such values. -/
def QVariant.representable : QVariant → Bool
  | .invalid => false
  | .bool _ => true
  | .int n => isInt32 n
  | .longLong n => isInt64 n
  | .rect x y w h => isInt32 x && isInt32 y && isInt32 (x + w - 1) && isInt32 (y + h - 1)
  | .string s => representableString s
  | .stringList l => decide (l.length < 4294967296) && l.all representableString
  | .uuid u => decide (u.length = 16)
  | .byteArray b => decide (b.length < 0xffffffff)
  | .authType _ => false
  | .list l => decide (l.length < 4294967296) && QVariant.representableList l
  | .map m => decide (m.length < 4294967296) && QVariant.representableEntries m
/-- Every item of a list is representable. -/
def QVariant.representableList : List QVariant → Bool
  | [] => true
  | v :: vs => QVariant.representable v && QVariant.representableList vs
/-- Every key and every value of a map is representable. -/
def QVariant.representableEntries : List (QString × QVariant) → Bool
  | [] => true
  | (k, v) :: rest =>
    representableString k && (QVariant.representable v && QVariant.representableEntries rest)
end

/-- The size bound of a string: its UTF-16 data have at most `MaxStringSize`
bytes. -/
def withinStringSize (s : QString) : Bool :=
  decide ((QString.toUtf16 s).length ≤ VariantStream.MaxStringSize)

mutual
/-- The size bounds of section 3 for a value and everything in it: a string has
at most `MaxStringSize` bytes, a byte payload at most `MaxByteArraySize` bytes,
and a string list, a list or a map at most `MaxContainerSize` elements. -/
def QVariant.withinSizes : QVariant → Bool
  | .string s => withinStringSize s
  | .stringList l =>
    decide (l.length ≤ VariantStream.MaxContainerSize) && l.all withinStringSize
  | .byteArray b => decide (b.length ≤ VariantStream.MaxByteArraySize)
  | .list l =>
    decide (l.length ≤ VariantStream.MaxContainerSize) && QVariant.withinSizesList l
  | .map m =>
    decide (m.length ≤ VariantStream.MaxContainerSize) && QVariant.withinSizesEntries m
  | _ => true
/-- The size bounds for every item of a list. -/
def QVariant.withinSizesList : List QVariant → Bool
  | [] => true
  | v :: vs => QVariant.withinSizes v && QVariant.withinSizesList vs
/-- The size bounds for every key and value of a map. -/
def QVariant.withinSizesEntries : List (QString × QVariant) → Bool
  | [] => true
  | (k, v) :: rest =>
    withinStringSize k && (QVariant.withinSizes v && QVariant.withinSizesEntries rest)
end

mutual
/-- The nesting depth of a value: the number of lists and maps around the
innermost value in it; a value that is no list or map, and a list or map
without elements, has depth 0. -/
def QVariant.nesting : QVariant → Nat
  | .list l => QVariant.nestingList l
  | .map m => QVariant.nestingEntries m
  | _ => 0
/-- One more than the greatest nesting depth of the items of a list, 0 for the
empty list. -/
def QVariant.nestingList : List QVariant → Nat
  | [] => 0
  | v :: vs => max (QVariant.nesting v + 1) (QVariant.nestingList vs)
/-- One more than the greatest nesting depth of the values of a map, 0 for the
empty map. -/
def QVariant.nestingEntries : List (QString × QVariant) → Nat
  | [] => 0
  | (_, v) :: rest => max (QVariant.nesting v + 1) (QVariant.nestingEntries rest)
end

/-- A value within the bounds of section 3: the size bounds hold and the nesting
depth is at most `MaxCheckRecursionDepth`. -/
def QVariant.withinBounds (v : QVariant) : Bool :=
  QVariant.withinSizes v && decide (QVariant.nesting v ≤ VariantStream.MaxCheckRecursionDepth)

/-- An example of a value within the bounds: a map with a list in it. -/
def exampleVariant : QVariant :=
  QVariant.map
    [(QStringLiteral "id", QVariant.uuid [1, 2, 3, 4, 5, 6, 7, 8, 9, 10, 11, 12, 13, 14, 15, 16]),
     (QStringLiteral "args",
        QVariant.list [QVariant.int (-2), QVariant.string (QStringLiteral "ab"),
          QVariant.rect 1 2 640 480, QVariant.bool true])]

/-- An example of a value beyond the bounds: five lists within each other. -/
def exampleDeepVariant : QVariant :=
  QVariant.list [QVariant.list [QVariant.list [QVariant.list [QVariant.list []]]]]

/-! ## Facts about the decoder and the pattern -/

theorem decodeUtf8At_some {b : Nat} {rest : QByteArray} {cp n : Nat}
    (h : decodeUtf8At b rest = some (cp, n)) :
    n ≤ rest.length ∧ (n = 0 → b < 0x80 ∧ cp = b) := by
  unfold decodeUtf8At at h
  split_ifs at h with h1 h2 h3 h4
  · simp only [Option.some.injEq, Prod.mk.injEq] at h
    obtain ⟨rfl, rfl⟩ := h
    exact ⟨Nat.zero_le _, fun _ => ⟨h1, rfl⟩⟩
  · split at h
    · try dsimp only at h
      split_ifs at h
      simp only [Option.some.injEq, Prod.mk.injEq] at h
      obtain ⟨-, rfl⟩ := h
      simp
    · simp at h
  · split at h
    · try dsimp only at h
      split_ifs at h
      simp only [Option.some.injEq, Prod.mk.injEq] at h
      obtain ⟨-, rfl⟩ := h
      simp
    · simp at h
  · split at h
    · try dsimp only at h
      split_ifs at h
      simp only [Option.some.injEq, Prod.mk.injEq] at h
      obtain ⟨-, rfl⟩ := h
      simp
    · simp at h

theorem decodeUtf8_length (bs : QByteArray) :
    ∀ k, (decodeUtf8 k bs).length ≤ bs.length - k := by
  induction bs with
  | nil => intro k; simp [decodeUtf8]
  | cons b rest ih =>
    intro k
    cases k with
    | succ k => simpa [decodeUtf8] using ih k
    | zero =>
      simp only [decodeUtf8]
      split
      · next cp n h =>
        have hn := (decodeUtf8At_some h).1
        have := ih n
        simp only [List.length_cons]
        omega
      · have := ih 0
        simp only [List.length_cons]
        omega

theorem decodeUtf8_full (bs : QByteArray) :
    (decodeUtf8 0 bs).length = bs.length → decodeUtf8 0 bs = bs.map decodeSingle := by
  induction bs with
  | nil => intro _; simp [decodeUtf8]
  | cons b rest ih =>
    intro hlen
    simp only [decodeUtf8] at hlen ⊢
    cases h : decodeUtf8At b rest with
    | some p =>
      obtain ⟨cp, n⟩ := p
      simp only [h] at hlen ⊢
      have hn := decodeUtf8At_some h
      have hl := decodeUtf8_length rest n
      simp only [List.length_cons] at hlen
      have hn0 : n = 0 := by omega
      subst hn0
      obtain ⟨hb, rfl⟩ := hn.2 rfl
      simp only [List.map_cons]
      rw [ih (by simpa using hlen)]
      simp [decodeSingle, hb]
    | none =>
      simp only [h] at hlen ⊢
      simp only [List.length_cons, Nat.add_right_cancel_iff] at hlen
      simp only [List.map_cons]
      rw [ih hlen]
      have hb : ¬ b < 0x80 := by
        intro hb
        simp [decodeUtf8At, hb] at h
      simp [decodeSingle, hb]

theorem QString.fromUtf8_length (ba : QByteArray) : (QString.fromUtf8 ba).length ≤ ba.length := by
  unfold QString.fromUtf8
  split
  · next rest =>
    have := decodeUtf8_length rest 0
    simp only [List.length_cons]
    omega
  · have := decodeUtf8_length ba 0
    omega

theorem QString.fromUtf8_full (ba : QByteArray)
    (h : (QString.fromUtf8 ba).length = ba.length) :
    QString.fromUtf8 ba = ba.map decodeSingle := by
  unfold QString.fromUtf8 at h ⊢
  split at h
  · next rest =>
    have := decodeUtf8_length rest 0
    simp only [List.length_cons] at h
    omega
  · exact decodeUtf8_full ba h

theorem matchHere_length {rx : List RxAtom} :
    ∀ {s : QString}, matchHere rx s = true → rx.length ≤ s.length := by
  induction rx with
  | nil => intro s _; simp
  | cons a as ih =>
    intro s h
    cases s with
    | nil => simp [matchHere] at h
    | cons x xs =>
      simp only [matchHere, Bool.and_eq_true] at h
      have := ih h.2
      simp only [List.length_cons]
      omega

theorem hasMatch_short {rx : List RxAtom} :
    ∀ {s : QString}, s.length < rx.length → hasMatch rx s = false := by
  intro s
  induction s with
  | nil =>
    intro h
    cases hm : hasMatch rx [] with
    | false => rfl
    | true =>
      simp only [hasMatch] at hm
      have := matchHere_length hm
      omega
  | cons x xs ih =>
    intro h
    simp only [List.length_cons] at h
    simp only [hasMatch, Bool.or_eq_false_iff]
    refine ⟨?_, ih (by omega)⟩
    cases hm : matchHere rx (x :: xs) with
    | false => rfl
    | true =>
      have := matchHere_length hm
      simp only [List.length_cons] at this
      omega

theorem hasMatch_exact {rx : List RxAtom} {s : QString} (h : s.length = rx.length)
    (hrx : rx ≠ []) : hasMatch rx s = matchHere rx s := by
  cases s with
  | nil =>
    cases rx with
    | nil => exact absurd rfl hrx
    | cons a as => simp at h
  | cons x xs =>
    simp only [List.length_cons] at h
    simp only [hasMatch]
    rw [hasMatch_short (by omega)]
    simp

theorem accepts_lit_decodeSingle {c : Nat} (hc : c < 0x80) (b : Nat) :
    (RxAtom.lit c).accepts (decodeSingle b) = decide (b = c) := by
  unfold RxAtom.accepts decodeSingle replacementCharacter
  split_ifs with hb
  · rfl
  · have h1 : (0xFFFD : Nat) ≠ c := by omega
    have h2 : b ≠ c := by omega
    simp [h1, h2]

theorem accepts_digit_decodeSingle (b : Nat) :
    RxAtom.digit.accepts (decodeSingle b) = (decide (48 ≤ b) && decide (b ≤ 57)) := by
  unfold RxAtom.accepts decodeSingle replacementCharacter
  split_ifs with hb
  · rfl
  · have h1 : ¬ b ≤ 57 := by omega
    simp [h1]

theorem length_twelve {α : Type} {l : List α} (h : l.length = 12) :
    ∃ a b c d e f g h i j k m, l = [a, b, c, d, e, f, g, h, i, j, k, m] := by
  match l, h with
  | [a, b, c, d, e, f, g, h, i, j, k, m], _ => exact ⟨a, b, c, d, e, f, g, h, i, j, k, m, rfl⟩

theorem matchHere_map_decodeSingle {ba : QByteArray} (h : ba.length = 12) :
    matchHere rfbRX (ba.map decodeSingle) = isRfbVersionReply ba := by
  obtain ⟨a, b, c, d, e, f, g, h, i, j, k, m, rfl⟩ := length_twelve h
  simp only [List.map_cons, List.map_nil, rfbRX, matchHere, isRfbVersionReply,
    accepts_digit_decodeSingle, accepts_lit_decodeSingle (by decide : 82 < 0x80),
    accepts_lit_decodeSingle (by decide : 70 < 0x80),
    accepts_lit_decodeSingle (by decide : 66 < 0x80),
    accepts_lit_decodeSingle (by decide : 32 < 0x80),
    accepts_lit_decodeSingle (by decide : 46 < 0x80),
    accepts_lit_decodeSingle (by decide : 10 < 0x80), Bool.and_true, Bool.and_assoc]

theorem isRfbVersionReply_ascii {ba : QByteArray} (h : isRfbVersionReply ba = true) :
    ba.length = 12 ∧ decodeUtf8 0 ba = ba ∧ QString.fromUtf8 ba = ba := by
  unfold isRfbVersionReply at h
  split at h
  · next r f b sp d1 d2 d3 dot d4 d5 d6 nl =>
    simp only [Bool.and_eq_true, decide_eq_true_eq] at h
    obtain ⟨⟨⟨⟨⟨⟨⟨⟨⟨⟨⟨rfl, rfl⟩, rfl⟩, rfl⟩, h1⟩, h2⟩, h3⟩, rfl⟩, h4⟩, h5⟩, h6⟩, rfl⟩ := h
    have e1 : d1 < 0x80 := by omega
    have e2 : d2 < 0x80 := by omega
    have e3 : d3 < 0x80 := by omega
    have e4 : d4 < 0x80 := by omega
    have e5 : d5 < 0x80 := by omega
    have e6 : d6 < 0x80 := by omega
    have key : decodeUtf8 0 [82, 70, 66, 32, d1, d2, d3, 46, d4, d5, d6, 10]
        = [82, 70, 66, 32, d1, d2, d3, 46, d4, d5, d6, 10] := by
      simp [decodeUtf8, decodeUtf8At, e1, e2, e3, e4, e5, e6]
    refine ⟨rfl, key, ?_⟩
    unfold QString.fromUtf8
    exact key
  · simp at h

/-- The check of `readProtocol` on a reply of twelve bytes is the pattern of the
specification: decoding as UTF-8 and searching for the pattern at any offset
accepts exactly the replies `"RFB ddd.ddd\n"`. -/
theorem hasMatch_fromUtf8_eq {ba : QByteArray} (h : ba.length = 12) :
    hasMatch rfbRX (QString.fromUtf8 ba) = isRfbVersionReply ba := by
  have hle := QString.fromUtf8_length ba
  by_cases hfull : (QString.fromUtf8 ba).length = ba.length
  · rw [hasMatch_exact (by rw [hfull, h]; rfl) (by decide), QString.fromUtf8_full ba hfull]
    exact matchHere_map_decodeSingle h
  · rw [hasMatch_short (by rw [show rfbRX.length = 12 from rfl]; omega)]
    cases hr : isRfbVersionReply ba with
    | false => rfl
    | true =>
      have := (isRfbVersionReply_ascii hr).2.2
      rw [this] at hfull
      exact absurd rfl hfull

/-! ## The handshake -/

theorem foldl_write (l : List RfbVeyonAuthType) :
    ∀ m : VariantArrayMessage,
      (l.foldl (fun m authType => m.write (QVariant.authType authType)) m).values
        = m.values ++ l.map QVariant.authType := by
  induction l with
  | nil => intro m; simp
  | cons t ts ih =>
    intro m
    simp only [List.foldl_cons, List.map_cons]
    rw [ih]
    simp [VariantArrayMessage.write]

theorem sendAuthenticationTypes_eq (v : Subclass) (p : VncServerProtocol) :
    p.sendAuthenticationTypes v = (true, { p with m_socket := { p.m_socket with
      written := p.m_socket.written ++ [Written.message
        (QVariant.int (v.supportedAuthTypes p).length
          :: (v.supportedAuthTypes p).map QVariant.authType)] } }) := by
  simp only [VncServerProtocol.sendAuthenticationTypes, VariantArrayMessage.send, foldl_write]
  simp [VariantArrayMessage.write]

theorem readProtocol_eq (x : Externals) (p : VncServerProtocol)
    (hn : p.m_socket.bytesAvailable = 12) :
    p.readProtocol x =
      if isRfbVersionReply p.m_socket.readBuffer = true then
        (true, { p with
          m_socket := { p.m_socket with
            readBuffer := []
            written := p.m_socket.written ++ [Written.raw [1, x.rfbSecTypeVeyon]] }
          m_client := { p.m_client with protocolState := State.SecurityInit } })
      else
        (false, { p with m_socket := { p.m_socket with isOpen := false, readBuffer := [] } }) := by
  have hlen : p.m_socket.readBuffer.length = 12 := hn
  have hm := hasMatch_fromUtf8_eq hlen
  simp only [VncServerProtocol.readProtocol, QIODevice.read, sz_rfbProtocolVersionMsg, hn,
    if_true]
  have htake : List.take 12 p.m_socket.readBuffer = p.m_socket.readBuffer :=
    List.take_of_length_le (by omega)
  have hdrop : List.drop 12 p.m_socket.readBuffer = [] :=
    List.drop_of_length_le (by omega)
  simp only [htake, hdrop, hlen, hm, ne_eq, not_true_eq_false, if_false]
  cases hr : isRfbVersionReply p.m_socket.readBuffer <;>
    simp [VncServerProtocol.socketClose, QIODevice.close, VncServerProtocol.sendSecurityTypes,
      VncServerProtocol.socketWrite, QIODevice.write, VncServerProtocol.setState]

/-- C2: in state Protocol with exactly 12 bytes buffered, `read()` returns true
(and the state becomes SecurityInit) if and only if the bytes are `"RFB "`, three
digits, `"."`, three digits and `"\n"`; in that case the 12 bytes are consumed,
the state is SecurityInit and exactly the bytes `[1, rfbSecTypeVeyon]` are
written. -/
theorem C2_readProtocol_accepts (x : Externals) (v : Subclass) (p : VncServerProtocol)
    (hs : p.state = State.Protocol) (hn : p.m_socket.bytesAvailable = 12) :
    ((p.read x v).1 = true ↔ isRfbVersionReply p.m_socket.readBuffer = true) ∧
    ((p.read x v).2.state = State.SecurityInit ↔ isRfbVersionReply p.m_socket.readBuffer = true) ∧
    (isRfbVersionReply p.m_socket.readBuffer = true →
      p.read x v = (true, { p with
        m_socket := { p.m_socket with
          readBuffer := []
          written := p.m_socket.written ++ [Written.raw [1, x.rfbSecTypeVeyon]] }
        m_client := { p.m_client with protocolState := State.SecurityInit } })) := by
  have hread : p.read x v = p.readProtocol x := by
    simp only [VncServerProtocol.read, hs]
  rw [hread, readProtocol_eq x p hn]
  have hs2 : p.m_client.protocolState = State.Protocol := hs
  cases hr : isRfbVersionReply p.m_socket.readBuffer <;>
    simp [VncServerProtocol.state, hs2]

/-- C4, as the code has it: for a reply of 12 bytes that is not of the form
`"RFB ddd.ddd\n"`, `read()` in state Protocol closes the transport, discards the
reply, writes nothing and returns false; the protocol state stays Protocol. -/
theorem C4_readProtocol_rejects (x : Externals) (v : Subclass) (p : VncServerProtocol)
    (hs : p.state = State.Protocol) (hn : p.m_socket.bytesAvailable = 12)
    (hbad : isRfbVersionReply p.m_socket.readBuffer = false) :
    p.read x v
      = (false, { p with m_socket := { p.m_socket with isOpen := false, readBuffer := [] } }) ∧
    (p.read x v).2.state = State.Protocol ∧
    (p.read x v).2.m_socket.isOpen = false ∧
    (p.read x v).2.m_socket.written = p.m_socket.written := by
  have hread : p.read x v = p.readProtocol x := by
    simp only [VncServerProtocol.read, hs]
  rw [hread, readProtocol_eq x p hn]
  have hs2 : p.m_client.protocolState = State.Protocol := hs
  simp [hbad, VncServerProtocol.state, hs2]
theorem receiveSecurityTypeResponse_eq (x : Externals) (v : Subclass) (p : VncServerProtocol)
    (b : Nat) (rest : QByteArray) (hbuf : p.m_socket.readBuffer = b :: rest) :
    p.receiveSecurityTypeResponse x v =
      if b = x.rfbSecTypeVeyon then
        ({ p with
            m_socket := { p.m_socket with readBuffer := rest }
            m_client := { p.m_client with protocolState := State.AuthenticationTypes }
          } : VncServerProtocol).sendAuthenticationTypes v
      else
        (false, { p with m_socket := { p.m_socket with isOpen := false, readBuffer := [] } }) := by
  simp only [VncServerProtocol.receiveSecurityTypeResponse, QIODevice.bytesAvailable,
    QIODevice.read, hbuf]
  by_cases hb : b = x.rfbSecTypeVeyon <;>
    simp [hb, VncServerProtocol.socketClose, QIODevice.close, VncServerProtocol.setState]

/-- C3, as the code has it: for every byte other than the advertised security
type, `read()` in state SecurityInit closes the transport, writes nothing and
returns false; the protocol state stays SecurityInit. -/
theorem C3_securityType_rejected (x : Externals) (v : Subclass) (p : VncServerProtocol)
    (b : Nat) (rest : QByteArray) (hs : p.state = State.SecurityInit)
    (hbuf : p.m_socket.readBuffer = b :: rest) (hb : b ≠ x.rfbSecTypeVeyon) :
    p.read x v
      = (false, { p with m_socket := { p.m_socket with isOpen := false, readBuffer := [] } }) ∧
    (p.read x v).2.state = State.SecurityInit ∧
    (p.read x v).2.m_socket.isOpen = false ∧
    (p.read x v).2.m_socket.written = p.m_socket.written := by
  have hread : p.read x v = p.receiveSecurityTypeResponse x v := by
    simp only [VncServerProtocol.read, hs]
  have hs2 : p.m_client.protocolState = State.SecurityInit := hs
  rw [hread, receiveSecurityTypeResponse_eq x v p b rest hbuf]
  simp [hb, VncServerProtocol.state, hs2]

/-- C5: in state SecurityInit with the advertised security type as the first
buffered byte, `read()` consumes that byte, sets the state to
AuthenticationTypes and sends one message: the number of supported
authentication types followed by each of them in the order of
`supportedAuthTypes()`; it returns true. -/
theorem C5_securityType_accepted (x : Externals) (v : Subclass) (p : VncServerProtocol)
    (b : Nat) (rest : QByteArray) (hs : p.state = State.SecurityInit)
    (hbuf : p.m_socket.readBuffer = b :: rest) (hb : b = x.rfbSecTypeVeyon) :
    p.read x v = (true,
      { p with
        m_socket := { p.m_socket with
          readBuffer := rest
          written := p.m_socket.written ++ [Written.message
            (QVariant.int
                (v.supportedAuthTypes { p with
                  m_socket := { p.m_socket with readBuffer := rest }
                  m_client := { p.m_client with protocolState := State.AuthenticationTypes }
                }).length
              :: (v.supportedAuthTypes { p with
                  m_socket := { p.m_socket with readBuffer := rest }
                  m_client := { p.m_client with protocolState := State.AuthenticationTypes }
                }).map QVariant.authType)] }
        m_client := { p.m_client with protocolState := State.AuthenticationTypes } }) := by
  have hread : p.read x v = p.receiveSecurityTypeResponse x v := by
    simp only [VncServerProtocol.read, hs]
  rw [hread, receiveSecurityTypeResponse_eq x v p b rest hbuf, if_pos hb,
    sendAuthenticationTypes_eq]

/-- What `processAuthentication` does once the strategy has run and left the
object as `q`. -/
theorem processAuthentication_eq (v : Subclass) (p : VncServerProtocol)
    (message : VariantArrayMessage) :
    p.processAuthentication v message =
      if (v.processAuthenticationMessage p message).m_client.authState = AuthState.Successful then
        (true, { v.processAuthenticationMessage p message with
          m_socket := { (v.processAuthenticationMessage p message).m_socket with
            written := (v.processAuthenticationMessage p message).m_socket.written
              ++ [Written.raw [0, 0, 0, 0]] }
          m_client := { (v.processAuthenticationMessage p message).m_client with
            protocolState := State.AccessControl } })
      else if (v.processAuthenticationMessage p message).m_client.authState = AuthState.Failed then
        (false, { v.processAuthenticationMessage p message with
          m_socket := { (v.processAuthenticationMessage p message).m_socket with
            isOpen := false, readBuffer := [] } })
      else (false, v.processAuthenticationMessage p message) := by
  unfold VncServerProtocol.processAuthentication
  cases h : (v.processAuthenticationMessage p message).m_client.authState <;>
    simp [h, VncServerProtocol.socketWrite, QIODevice.write, VncServerProtocol.setState,
      VncServerProtocol.socketClose, QIODevice.close, qToBigEndian32, rfbVncAuthOK]

theorem receiveAuthenticationTypeResponse_eq (x : Externals) (v : Subclass)
    (p : VncServerProtocol) (values : List QVariant) (rest : QByteArray)
    (hready : x.messageReady p.m_socket.readBuffer = true)
    (hrecv : x.messageReceive p.m_socket.readBuffer = (some values, rest)) :
    p.receiveAuthenticationTypeResponse x v =
      if (VariantArrayMessage.read { values := values }).1.toAuthType
          ∈ v.supportedAuthTypes { p with m_socket := { p.m_socket with readBuffer := rest } } then
        (false, (VncServerProtocol.processAuthentication v
          { p with
            m_socket := { p.m_socket with
              readBuffer := rest
              written := p.m_socket.written ++ [Written.message []] }
            m_client := { p.m_client with
              protocolState := State.Authenticating
              authType := (VariantArrayMessage.read { values := values }).1.toAuthType
              username := (VariantArrayMessage.read
                (VariantArrayMessage.read { values := values }).2).1.toQString } }
          { values := [] }).2)
      else
        (false, { p with m_socket := { p.m_socket with isOpen := false, readBuffer := [] } }) := by
  simp only [VncServerProtocol.receiveAuthenticationTypeResponse,
    VariantArrayMessage.isReadyForReceive, hready, VariantArrayMessage.receive, hrecv, if_true]
  by_cases hmem : (VariantArrayMessage.read { values := values }).1.toAuthType
      ∈ v.supportedAuthTypes { p with m_socket := { p.m_socket with readBuffer := rest } }
  · simp [hmem, VncServerProtocol.setState, VariantArrayMessage.send]
  · simp [hmem, VncServerProtocol.socketClose, QIODevice.close]

/-- C6, as the code has it: in state AuthenticationTypes, for every received
selection message whose chosen authentication type is not supported, `read()`
closes the transport and returns false; the client record (authentication type,
username, protocol state AuthenticationTypes) is unchanged, nothing is written
and the result does not depend on the authentication strategy. -/
theorem C6_authType_rejected (x : Externals) (v : Subclass) (p : VncServerProtocol)
    (values : List QVariant) (rest : QByteArray)
    (hs : p.state = State.AuthenticationTypes)
    (hready : x.messageReady p.m_socket.readBuffer = true)
    (hrecv : x.messageReceive p.m_socket.readBuffer = (some values, rest))
    (hno : (VariantArrayMessage.read { values := values }).1.toAuthType
      ∉ v.supportedAuthTypes { p with m_socket := { p.m_socket with readBuffer := rest } }) :
    p.read x v
      = (false, { p with m_socket := { p.m_socket with isOpen := false, readBuffer := [] } }) ∧
    (p.read x v).2.m_client = p.m_client ∧
    (p.read x v).2.state = State.AuthenticationTypes ∧
    (p.read x v).2.m_socket.isOpen = false ∧
    (p.read x v).2.m_socket.written = p.m_socket.written := by
  have hread : p.read x v = p.receiveAuthenticationTypeResponse x v := by
    simp only [VncServerProtocol.read, hs]
  have hs2 : p.m_client.protocolState = State.AuthenticationTypes := hs
  rw [hread, receiveAuthenticationTypeResponse_eq x v p values rest hready hrecv, if_neg hno]
  simp [VncServerProtocol.state, hs2]

/-- C7: in state AuthenticationTypes, for every received selection message
whose chosen authentication type is supported, `read()` records that type and
the username, sets the state to Authenticating, writes one empty
acknowledgement message and then runs the authentication strategy once, on an
empty message: the result of `read()` is what `processAuthentication` makes of
the strategy's result, so a strategy that answers Successful leaves the session
in AccessControl with the success code written. -/
theorem C7_authType_accepted (x : Externals) (v : Subclass) (p : VncServerProtocol)
    (values : List QVariant) (rest : QByteArray)
    (hs : p.state = State.AuthenticationTypes)
    (hready : x.messageReady p.m_socket.readBuffer = true)
    (hrecv : x.messageReceive p.m_socket.readBuffer = (some values, rest))
    (hyes : (VariantArrayMessage.read { values := values }).1.toAuthType
      ∈ v.supportedAuthTypes { p with m_socket := { p.m_socket with readBuffer := rest } }) :
    let recorded : VncServerProtocol := { p with
      m_socket := { p.m_socket with
        readBuffer := rest
        written := p.m_socket.written ++ [Written.message []] }
      m_client := { p.m_client with
        protocolState := State.Authenticating
        authType := (VariantArrayMessage.read { values := values }).1.toAuthType
        username := (VariantArrayMessage.read
          (VariantArrayMessage.read { values := values }).2).1.toQString } }
    let q := v.processAuthenticationMessage recorded { values := [] }
    (p.read x v).1 = false ∧
    (q.m_client.authState = AuthState.Successful →
      (p.read x v).2 = { q with
        m_socket := { q.m_socket with written := q.m_socket.written ++ [Written.raw [0, 0, 0, 0]] }
        m_client := { q.m_client with protocolState := State.AccessControl } }) ∧
    (q.m_client.authState = AuthState.Failed →
      (p.read x v).2 = { q with m_socket := { q.m_socket with isOpen := false, readBuffer := [] } }) ∧
    (q.m_client.authState ≠ AuthState.Successful → q.m_client.authState ≠ AuthState.Failed →
      (p.read x v).2 = q) := by
  have hread : p.read x v = p.receiveAuthenticationTypeResponse x v := by
    simp only [VncServerProtocol.read, hs]
  intro recorded q
  rw [hread, receiveAuthenticationTypeResponse_eq x v p values rest hready hrecv, if_pos hyes,
    processAuthentication_eq]
  refine ⟨rfl, ?_, ?_, ?_⟩
  · intro h
    simp [q, recorded] at h
    simp [q, recorded, h]
  · intro h
    simp [q, recorded] at h
    simp [q, recorded, h]
  · intro h1 h2
    simp [q, recorded] at h1 h2
    simp [q, recorded, h1, h2]

/-- C8, as the code has it: `processAuthentication` writes the four bytes
00 00 00 00 and sets the state to AccessControl if and only if the strategy left
the authentication state at Successful; when it is Failed nothing is written and
the transport is closed, the protocol state staying as the strategy left it. -/
theorem C8_processAuthentication (v : Subclass) (p : VncServerProtocol)
    (message : VariantArrayMessage) :
    ((p.processAuthentication v message).2.m_socket.written
        = (v.processAuthenticationMessage p message).m_socket.written ++ [Written.raw [0, 0, 0, 0]]
      ↔ (v.processAuthenticationMessage p message).m_client.authState = AuthState.Successful) ∧
    ((v.processAuthenticationMessage p message).m_client.authState = AuthState.Successful →
      p.processAuthentication v message =
        (true, { v.processAuthenticationMessage p message with
          m_socket := { (v.processAuthenticationMessage p message).m_socket with
            written := (v.processAuthenticationMessage p message).m_socket.written
              ++ [Written.raw [0, 0, 0, 0]] }
          m_client := { (v.processAuthenticationMessage p message).m_client with
            protocolState := State.AccessControl } })) ∧
    ((v.processAuthenticationMessage p message).m_client.authState ≠ AuthState.Successful →
      (p.processAuthentication v message).1 = false ∧
      (p.processAuthentication v message).2.m_socket.written
        = (v.processAuthenticationMessage p message).m_socket.written ∧
      (p.processAuthentication v message).2.state
        = (v.processAuthenticationMessage p message).state) ∧
    ((v.processAuthenticationMessage p message).m_client.authState = AuthState.Failed →
      p.processAuthentication v message =
        (false, { v.processAuthenticationMessage p message with
          m_socket := { (v.processAuthenticationMessage p message).m_socket with
            isOpen := false, readBuffer := [] } })) := by
  rw [processAuthentication_eq]
  by_cases h1 : (v.processAuthenticationMessage p message).m_client.authState = AuthState.Successful
  · simp [h1]
  · by_cases h2 : (v.processAuthenticationMessage p message).m_client.authState = AuthState.Failed
    · simp [h2, VncServerProtocol.state]
    · simp [h1, h2, VncServerProtocol.state]

/-- C9: in state Authenticating, when a message is received and the strategy
leaves the authentication state at neither Successful nor Failed, `read()`
returns false and the object is exactly as the strategy left it: the handshake
layer writes nothing, and does not touch the protocol state or the open flag of
the transport, so a strategy that keeps them leaves the session in Authenticating
with an open transport. -/
theorem C9_challenge_waits (x : Externals) (v : Subclass) (p : VncServerProtocol)
    (values : List QVariant) (rest : QByteArray)
    (hs : p.state = State.Authenticating)
    (hready : x.messageReady p.m_socket.readBuffer = true)
    (hrecv : x.messageReceive p.m_socket.readBuffer = (some values, rest))
    (h1 : (v.processAuthenticationMessage
      { p with m_socket := { p.m_socket with readBuffer := rest } }
      { values := values }).m_client.authState ≠ AuthState.Successful)
    (h2 : (v.processAuthenticationMessage
      { p with m_socket := { p.m_socket with readBuffer := rest } }
      { values := values }).m_client.authState ≠ AuthState.Failed) :
    p.read x v = (false, v.processAuthenticationMessage
      { p with m_socket := { p.m_socket with readBuffer := rest } } { values := values }) ∧
    ((v.processAuthenticationMessage
        { p with m_socket := { p.m_socket with readBuffer := rest } }
        { values := values }).state = State.Authenticating →
      (p.read x v).2.state = State.Authenticating) ∧
    ((v.processAuthenticationMessage
        { p with m_socket := { p.m_socket with readBuffer := rest } }
        { values := values }).m_socket.isOpen = true →
      (p.read x v).2.m_socket.isOpen = true) ∧
    ((v.processAuthenticationMessage
        { p with m_socket := { p.m_socket with readBuffer := rest } }
        { values := values }).m_socket.written = p.m_socket.written →
      (p.read x v).2.m_socket.written = p.m_socket.written) := by
  have hread : p.read x v = p.receiveAuthenticationMessage x v := by
    simp only [VncServerProtocol.read, hs]
  have heq : p.read x v = (false, v.processAuthenticationMessage
      { p with m_socket := { p.m_socket with readBuffer := rest } } { values := values }) := by
    rw [hread]
    simp only [VncServerProtocol.receiveAuthenticationMessage,
      VariantArrayMessage.isReadyForReceive, hready, VariantArrayMessage.receive, hrecv, if_true]
    rw [processAuthentication_eq, if_neg h1, if_neg h2]
  rw [heq]
  exact ⟨rfl, fun h => h, fun h => h, fun h => h⟩

/-- C10: when access control answers Pending or Waiting on its first evaluation
(leaving protocol state and transport alone) and Successful on the second, the
first `read()` in state AccessControl returns false, leaves the state at
AccessControl and the transport untouched, and the second `read()` returns true
and reaches FramebufferInit. -/
theorem C10_accessControl_pending (x : Externals) (v : Subclass) (p : VncServerProtocol)
    (hs : p.state = State.AccessControl)
    (hfirst : (v.performAccessControl p).m_client.accessControlState = AccessControlState.Pending
      ∨ (v.performAccessControl p).m_client.accessControlState = AccessControlState.Waiting)
    (hstate : (v.performAccessControl p).state = p.state)
    (hsocket : (v.performAccessControl p).m_socket = p.m_socket)
    (hsecond : (v.performAccessControl (v.performAccessControl p)).m_client.accessControlState
      = AccessControlState.Successful) :
    p.read x v = (false, v.performAccessControl p) ∧
    (p.read x v).2.state = State.AccessControl ∧
    (p.read x v).2.state ≠ State.FramebufferInit ∧
    (p.read x v).2.m_socket = p.m_socket ∧
    (p.read x v).2.read x v
      = (true, (v.performAccessControl (v.performAccessControl p)).setState State.FramebufferInit) ∧
    ((p.read x v).2.read x v).2.state = State.FramebufferInit := by
  have h1 : p.read x v = (false, v.performAccessControl p) := by
    simp only [VncServerProtocol.read, hs, VncServerProtocol.processAccessControl]
    rcases hfirst with h | h <;> simp [h]
  have hs1 : (v.performAccessControl p).state = State.AccessControl := by rw [hstate, hs]
  have h2 : (v.performAccessControl p).read x v
      = (true, (v.performAccessControl (v.performAccessControl p)).setState
          State.FramebufferInit) := by
    simp only [VncServerProtocol.read, hs1, VncServerProtocol.processAccessControl, hsecond]
  rw [h1]
  refine ⟨rfl, hs1, ?_, hsocket, h2, ?_⟩
  · simp [hs1]
  · rw [h2]
    rfl

theorem banner_matches :
    hasMatch rfbRX (QString.fromUtf8 (asciiBytes "RFB 003.008\n")) = true := by decide

/-- C1: a demo session that is started and then reads, in this order, the banner
`"RFB 003.008\n"`, the advertised security type, the selection message
`{Token, "alice"}`, a message with the configured token and one byte of client
init, ends in state Running, and has written exactly: the banner, the list
`[1, rfbSecTypeVeyon]`, the message `[1, Token]` of authentication types, the
empty acknowledgement, the success code 00 00 00 00 and the server-init
message. -/
theorem C1_demo_handshake (x : Externals) (token selection tokenMessage serverInit : QByteArray)
    (shared : Nat)
    (hsel_ready : x.messageReady selection = true)
    (hsel : x.messageReceive selection
      = (some [QVariant.authType RfbVeyonAuthType.Token,
          QVariant.string (QStringLiteral "alice")], []))
    (htok_ready : x.messageReady tokenMessage = true)
    (htok : x.messageReceive tokenMessage = (some [QVariant.byteArray token], []))
    (hinit : serverInit ≠ []) :
    (((newSession serverInit).start.run x (DemoServerProtocol token)
        [Step.arrive (asciiBytes "RFB 003.008\n"), Step.read,
         Step.arrive [x.rfbSecTypeVeyon], Step.read,
         Step.arrive selection, Step.read,
         Step.arrive tokenMessage, Step.read, Step.read,
         Step.arrive [shared], Step.read]).state = State.Running) ∧
    ((newSession serverInit).start.run x (DemoServerProtocol token)
        [Step.arrive (asciiBytes "RFB 003.008\n"), Step.read,
         Step.arrive [x.rfbSecTypeVeyon], Step.read,
         Step.arrive selection, Step.read,
         Step.arrive tokenMessage, Step.read, Step.read,
         Step.arrive [shared], Step.read]).m_socket.written
      = [Written.raw (asciiBytes "RFB 003.008\n"),
         Written.raw [1, x.rfbSecTypeVeyon],
         Written.message [QVariant.int 1, QVariant.authType RfbVeyonAuthType.Token],
         Written.message [],
         Written.raw [0, 0, 0, 0],
         Written.raw serverInit] := by
  have hbanner : rfbProtocolVersionFormat 3 8 = asciiBytes "RFB 003.008\n" := by decide
  have hb12 : (asciiBytes "RFB 003.008\n").length = 12 := by decide
  have htake : List.take 12 (asciiBytes "RFB 003.008\n") = asciiBytes "RFB 003.008\n" := by
    decide
  have hdrop : List.drop 12 (asciiBytes "RFB 003.008\n") = [] := by decide
  have hempty : (serverInit.isEmpty = false) := by
    cases serverInit with
    | nil => exact absurd rfl hinit
    | cons a l => rfl
  simp [VncServerProtocol.run, VncServerProtocol.step, newSession, VncServerProtocol.create,
    VncServerProtocol.setServerInitMessage, VncServerProtocol.start, VncServerProtocol.state,
    VncServerProtocol.setState, VncServerProtocol.socketWrite, QIODevice.write, hbanner,
    sz_rfbProtocolVersionMsg, htake, hdrop, hb12, QIODevice.arrive, VncServerProtocol.read,
    VncServerProtocol.readProtocol, QIODevice.bytesAvailable, QIODevice.read, banner_matches,
    VncServerProtocol.sendSecurityTypes, VncServerProtocol.receiveSecurityTypeResponse,
    sendAuthenticationTypes_eq, VncServerProtocol.receiveAuthenticationTypeResponse,
    VariantArrayMessage.isReadyForReceive, VariantArrayMessage.receive, hsel_ready, hsel,
    htok_ready, htok, VariantArrayMessage.read, QVariant.toAuthType, QVariant.toQString,
    DemoServerProtocol, DemoServerProtocol.supportedAuthTypes, VariantArrayMessage.send,
    VncServerProtocol.processAuthentication, DemoServerProtocol.processAuthenticationMessage,
    DemoServerProtocol.performTokenAuthentication, QVariant.toByteArray,
    VncServerProtocol.receiveAuthenticationMessage, qToBigEndian32, rfbVncAuthOK,
    VncServerProtocol.processAccessControl, DemoServerProtocol.performAccessControl,
    VncServerProtocol.processFramebufferInit, sz_rfbClientInitMsg, hempty]

/-! ## Closed instances -/

/-- The hypotheses of C1 hold for the example framing, the token `[115, 51, 99]`
and a server-init message of four bytes, and the session ends in Running. -/
theorem C1_demo_handshake_witness :
    exampleExternals.messageReady [8, 1, 2, 5, 97, 108, 105, 99, 101] = true ∧
    exampleExternals.messageReady [5, 3, 3, 115, 51, 99] = true ∧
    ((newSession [0, 1, 0, 1]).start.run exampleExternals (DemoServerProtocol [115, 51, 99])
        [Step.arrive (asciiBytes "RFB 003.008\n"), Step.read,
         Step.arrive [exampleExternals.rfbSecTypeVeyon], Step.read,
         Step.arrive [8, 1, 2, 5, 97, 108, 105, 99, 101], Step.read,
         Step.arrive [5, 3, 3, 115, 51, 99], Step.read, Step.read,
         Step.arrive [1], Step.read]).state = State.Running :=
  ⟨rfl, rfl,
    (C1_demo_handshake exampleExternals [115, 51, 99] [8, 1, 2, 5, 97, 108, 105, 99, 101]
      [5, 3, 3, 115, 51, 99] [0, 1, 0, 1] 1 rfl rfl rfl rfl (by decide)).1⟩

/-- The banner `"RFB 003.008\n"` in state Protocol is accepted. -/
theorem C2_readProtocol_accepts_witness :
    (sessionIn State.Protocol (asciiBytes "RFB 003.008\n")).state = State.Protocol ∧
    (sessionIn State.Protocol (asciiBytes "RFB 003.008\n")).m_socket.bytesAvailable = 12 ∧
    ((sessionIn State.Protocol (asciiBytes "RFB 003.008\n")).read exampleExternals
      (DemoServerProtocol [])).1 = true :=
  ⟨rfl, rfl,
    (C2_readProtocol_accepts exampleExternals (DemoServerProtocol [])
      (sessionIn State.Protocol (asciiBytes "RFB 003.008\n")) rfl rfl).1.2 (by decide)⟩

/-- C3 fails as stated: after the byte 1, which is not the advertised security
type 40, the protocol state is still SecurityInit and not Close. -/
theorem C3_counterexample :
    (1 : Nat) ≠ exampleExternals.rfbSecTypeVeyon ∧
    (sessionIn State.SecurityInit [1]).state = State.SecurityInit ∧
    ((sessionIn State.SecurityInit [1]).read exampleExternals (DemoServerProtocol [])).2.state
      ≠ State.Close := by
  decide

/-- The byte 1 in state SecurityInit closes the transport. -/
theorem C3_securityType_rejected_witness :
    (sessionIn State.SecurityInit [1]).m_socket.isOpen = true ∧
    ((sessionIn State.SecurityInit [1]).read exampleExternals
      (DemoServerProtocol [])).2.m_socket.isOpen = false :=
  ⟨rfl,
    (C3_securityType_rejected exampleExternals (DemoServerProtocol [])
      (sessionIn State.SecurityInit [1]) 1 [] rfl rfl (by decide)).2.2.1⟩

/-- C4 fails as stated: after the 12 bytes `"HTTP/1.1 200"`, which are not of the
form `"RFB ddd.ddd\n"`, the protocol state is still Protocol and not Close. -/
theorem C4_counterexample :
    (sessionIn State.Protocol (asciiBytes "HTTP/1.1 200")).m_socket.bytesAvailable = 12 ∧
    isRfbVersionReply (asciiBytes "HTTP/1.1 200") = false ∧
    ((sessionIn State.Protocol (asciiBytes "HTTP/1.1 200")).read exampleExternals
      (DemoServerProtocol [])).2.state ≠ State.Close := by
  decide

/-- The reply `"HTTP/1.1 200"` in state Protocol closes the transport. -/
theorem C4_readProtocol_rejects_witness :
    (sessionIn State.Protocol (asciiBytes "HTTP/1.1 200")).m_socket.isOpen = true ∧
    ((sessionIn State.Protocol (asciiBytes "HTTP/1.1 200")).read exampleExternals
      (DemoServerProtocol [])).2.m_socket.isOpen = false :=
  ⟨rfl,
    (C4_readProtocol_rejects exampleExternals (DemoServerProtocol [])
      (sessionIn State.Protocol (asciiBytes "HTTP/1.1 200")) rfl rfl (by decide)).2.2.1⟩

/-- The security type 40 in state SecurityInit is accepted by the demo server. -/
theorem C5_securityType_accepted_witness :
    ((sessionIn State.SecurityInit [40]).read exampleExternals (DemoServerProtocol [])).1 = true ∧
    ((sessionIn State.SecurityInit [40]).read exampleExternals
      (DemoServerProtocol [])).2.state = State.AuthenticationTypes :=
  ⟨congrArg Prod.fst
      (C5_securityType_accepted exampleExternals (DemoServerProtocol [])
        (sessionIn State.SecurityInit [40]) 40 [] rfl rfl rfl),
    rfl⟩

/-- C6 fails as stated: after the selection `{other 3, "bob"}`, which the demo
server does not support, the protocol state is still AuthenticationTypes and not
Close. -/
theorem C6_counterexample :
    (VariantArrayMessage.read
      { values := (exampleExternals.messageReceive [7, 4, 3, 2, 3, 98, 111, 98]).1.getD [] }
      ).1.toAuthType ∉ DemoServerProtocol.supportedAuthTypes ∧
    ((sessionIn State.AuthenticationTypes [7, 4, 3, 2, 3, 98, 111, 98]).read exampleExternals
      (DemoServerProtocol [])).2.state ≠ State.Close := by
  decide

/-- The selection `{other 3, "bob"}` closes the transport of a demo session. -/
theorem C6_authType_rejected_witness :
    ((sessionIn State.AuthenticationTypes [7, 4, 3, 2, 3, 98, 111, 98]).read exampleExternals
      (DemoServerProtocol [])).2.m_socket.isOpen = false :=
  (C6_authType_rejected exampleExternals (DemoServerProtocol [])
    (sessionIn State.AuthenticationTypes [7, 4, 3, 2, 3, 98, 111, 98])
    [QVariant.authType (RfbVeyonAuthType.other 3), QVariant.string [98, 111, 98]] []
    rfl rfl rfl (by decide)).2.2.2.1

/-- The selection `{Token, "alice"}` is accepted by the demo server, whose
strategy then waits for the token. -/
theorem C7_authType_accepted_witness :
    ((sessionIn State.AuthenticationTypes [8, 1, 2, 5, 97, 108, 105, 99, 101]).read
      exampleExternals (DemoServerProtocol [])).1 = false :=
  (C7_authType_accepted exampleExternals (DemoServerProtocol [])
    (sessionIn State.AuthenticationTypes [8, 1, 2, 5, 97, 108, 105, 99, 101])
    [QVariant.authType RfbVeyonAuthType.Token, QVariant.string [97, 108, 105, 99, 101]] []
    rfl rfl rfl (by decide)).1

/-- C8 fails as stated: a wrong token leaves the authentication state at Failed,
and the protocol state is then still Authenticating and not Close. -/
theorem C8_counterexample :
    ((DemoServerProtocol [115, 51, 99]).processAuthenticationMessage sessionAfterSelection
      { values := [QVariant.byteArray [0]] }).m_client.authState = AuthState.Failed ∧
    (sessionAfterSelection.processAuthentication (DemoServerProtocol [115, 51, 99])
      { values := [QVariant.byteArray [0]] }).2.state = State.Authenticating ∧
    (sessionAfterSelection.processAuthentication (DemoServerProtocol [115, 51, 99])
      { values := [QVariant.byteArray [0]] }).2.state ≠ State.Close := by
  decide

/-- The example strategy answers its first message with a challenge: the read
returns false and the session stays in Authenticating. -/
theorem C9_challenge_waits_witness :
    ((sessionIn State.Authenticating [2, 3, 0]).read exampleExternals
      (exampleChallenge [9])).1 = false ∧
    ((sessionIn State.Authenticating [2, 3, 0]).read exampleExternals
      (exampleChallenge [9])).2.state = State.Authenticating :=
  ⟨congrArg Prod.fst
      (C9_challenge_waits exampleExternals (exampleChallenge [9])
        (sessionIn State.Authenticating [2, 3, 0]) [QVariant.byteArray []] []
        rfl rfl rfl (by decide) (by decide)).1,
    rfl⟩

/-- The example access control answers Pending and then Successful: the first
read stays in AccessControl, the second reaches FramebufferInit. -/
theorem C10_accessControl_pending_witness :
    ((sessionIn State.AccessControl []).read exampleExternals (exampleChallenge [9])).2.state
      = State.AccessControl ∧
    ((((sessionIn State.AccessControl []).read exampleExternals (exampleChallenge [9])).2).read
      exampleExternals (exampleChallenge [9])).2.state = State.FramebufferInit :=
  have h := C10_accessControl_pending exampleExternals (exampleChallenge [9])
    (sessionIn State.AccessControl []) rfl (Or.inl rfl) rfl rfl rfl
  ⟨h.2.1, h.2.2.2.2.2⟩

/-! ## Access control, framebuffer init and short reads -/

theorem encodeUtf8Char_ne_nil (cp : Nat) : encodeUtf8Char cp ≠ [] := by
  unfold encodeUtf8Char
  split_ifs <;> simp

theorem QString.toUtf8_eq_nil (s : QString) : QString.toUtf8 s = [] ↔ s = [] := by
  cases s with
  | nil => simp [QString.toUtf8]
  | cons c cs =>
    have := encodeUtf8Char_ne_nil c
    simp [QString.toUtf8, this]

theorem sendFailedAccessControlMessage_eq (x : Externals) (p : VncServerProtocol) :
    p.sendFailedAccessControlMessage x =
      if p.m_client.accessControlDetails = [] then p
      else { p with m_socket := { p.m_socket with
        written := p.m_socket.written ++
          [Written.raw (failedAccessControlHeader
              (x.accessControlMessageScheme
                ++ QString.toUtf8 p.m_client.accessControlDetails).length),
           Written.raw (x.accessControlMessageScheme
              ++ QString.toUtf8 p.m_client.accessControlDetails)] } } := by
  unfold VncServerProtocol.sendFailedAccessControlMessage
  by_cases h : p.m_client.accessControlDetails = []
  · simp [h, QString.toUtf8]
  · have hne : QString.toUtf8 p.m_client.accessControlDetails ≠ [] := by
      rw [ne_eq, QString.toUtf8_eq_nil]
      exact h
    have hpos : (QString.toUtf8 p.m_client.accessControlDetails).length > 0 :=
      List.length_pos.mpr hne
    simp [h, hpos, VncServerProtocol.socketWrite, QIODevice.write]

/-- C11, as the code has it: for every access-control outcome other than
Successful, Pending and Waiting, `read()` in state AccessControl sends the
failure message (the header and the scheme followed by the reason) when the
reason is not empty and sends nothing when it is empty; then it closes the
transport. The protocol state stays as access control left it. -/
theorem C11_accessControl_denied (x : Externals) (v : Subclass) (p : VncServerProtocol)
    (hs : p.state = State.AccessControl)
    (h1 : (v.performAccessControl p).m_client.accessControlState ≠ AccessControlState.Successful)
    (h2 : (v.performAccessControl p).m_client.accessControlState ≠ AccessControlState.Pending)
    (h3 : (v.performAccessControl p).m_client.accessControlState ≠ AccessControlState.Waiting) :
    (p.read x v).2
      = ((v.performAccessControl p).sendFailedAccessControlMessage x).socketClose ∧
    ((v.performAccessControl p).m_client.accessControlDetails ≠ [] →
      (p.read x v).2.m_socket.written = (v.performAccessControl p).m_socket.written ++
        [Written.raw (failedAccessControlHeader
            (x.accessControlMessageScheme
              ++ QString.toUtf8 (v.performAccessControl p).m_client.accessControlDetails).length),
         Written.raw (x.accessControlMessageScheme
            ++ QString.toUtf8 (v.performAccessControl p).m_client.accessControlDetails)]) ∧
    ((v.performAccessControl p).m_client.accessControlDetails = [] →
      (p.read x v).2.m_socket.written = (v.performAccessControl p).m_socket.written) ∧
    (p.read x v).2.m_socket.isOpen = false ∧
    (p.read x v).2.state = (v.performAccessControl p).state := by
  have hread : p.read x v
      = (true, ((v.performAccessControl p).sendFailedAccessControlMessage x).socketClose) := by
    simp only [VncServerProtocol.read, hs, VncServerProtocol.processAccessControl]
  rw [hread, sendFailedAccessControlMessage_eq]
  refine ⟨rfl, ?_, ?_, ?_, ?_⟩
  · intro h
    simp [h, VncServerProtocol.socketClose, QIODevice.close]
  · intro h
    simp [h, VncServerProtocol.socketClose, QIODevice.close]
  · simp [VncServerProtocol.socketClose, QIODevice.close]
  · by_cases h : (v.performAccessControl p).m_client.accessControlDetails = [] <;>
      simp [h, VncServerProtocol.socketClose, VncServerProtocol.state]

theorem qFromBigEndian32_qToBigEndian32 (n : Nat) (h : n < 4294967296) :
    qFromBigEndian32 (qToBigEndian32 n) = n := by
  simp only [qFromBigEndian32, qToBigEndian32]
  omega

/-- C12: for every reason that is not empty, `sendFailedAccessControlMessage`
writes one header of `sz_rfbServerInitMsg` bytes, the image of an
`rfbServerInitMsg` that is zero except for `format.bitsPerPixel = 255` and for
`nameLength`, the big-endian 32-bit length of the scheme followed by the UTF-8
bytes of the reason, and then exactly these name bytes; for a name shorter than
2^32 bytes the length member read back equals the number of name bytes. -/
theorem C12_failedAccessControlMessage (x : Externals) (p : VncServerProtocol)
    (hr : p.m_client.accessControlDetails ≠ []) :
    p.sendFailedAccessControlMessage x
      = { p with m_socket := { p.m_socket with
          written := p.m_socket.written ++
            [Written.raw (failedAccessControlHeader
                (x.accessControlMessageScheme
                  ++ QString.toUtf8 p.m_client.accessControlDetails).length),
             Written.raw (x.accessControlMessageScheme
                ++ QString.toUtf8 p.m_client.accessControlDetails)] } } ∧
    (∀ n, (failedAccessControlHeader n).length = sz_rfbServerInitMsg) ∧
    (∀ n, failedAccessControlHeader n
      = rfbServerInitMsg.image { format := { bitsPerPixel := 255 }, nameLength := qToBigEndian32 n }) ∧
    (∀ n, (failedAccessControlHeader n).drop 20 = qToBigEndian32 n) ∧
    ((x.accessControlMessageScheme ++ QString.toUtf8 p.m_client.accessControlDetails).length
        < 4294967296 →
      qFromBigEndian32 ((failedAccessControlHeader
          (x.accessControlMessageScheme
            ++ QString.toUtf8 p.m_client.accessControlDetails).length).drop 20)
        = (x.accessControlMessageScheme
            ++ QString.toUtf8 p.m_client.accessControlDetails).length) := by
  have hdrop : ∀ n, (failedAccessControlHeader n).drop 20 = qToBigEndian32 n := by
    intro n
    rfl
  refine ⟨?_, ?_, ?_, hdrop, ?_⟩
  · rw [sendFailedAccessControlMessage_eq, if_neg hr]
  · intro n
    rfl
  · intro n
    simp [failedAccessControlHeader, rfbServerInitMsg.image, rfbPixelFormat.image, card16,
      List.replicate]
  · intro h
    rw [hdrop]
    exact qFromBigEndian32_qToBigEndian32 _ h

/-- C13, as the code has it: in state FramebufferInit with the client init
request buffered, `read()` consumes the request, writes the server-init message
byte for byte, sets the state to Running and returns true when the server-init
message is not empty; when it is empty `read()` returns false and changes
nothing. -/
theorem C13_framebufferInit (x : Externals) (v : Subclass) (p : VncServerProtocol)
    (hs : p.state = State.FramebufferInit)
    (hn : p.m_socket.bytesAvailable ≥ sz_rfbClientInitMsg) :
    (p.m_serverInitMessage ≠ [] →
      p.read x v = (true, { p with
        m_socket := { p.m_socket with
          readBuffer := p.m_socket.readBuffer.drop sz_rfbClientInitMsg
          written := p.m_socket.written ++ [Written.raw p.m_serverInitMessage] }
        m_client := { p.m_client with protocolState := State.Running } })) ∧
    (p.m_serverInitMessage = [] → p.read x v = (false, p)) := by
  have hread : p.read x v = p.processFramebufferInit := by
    simp only [VncServerProtocol.read, hs]
  rw [hread]
  unfold VncServerProtocol.processFramebufferInit
  constructor
  · intro h
    have he : p.m_serverInitMessage.isEmpty = false := by
      cases hm : p.m_serverInitMessage with
      | nil => exact absurd hm h
      | cons a l => rfl
    simp [hn, he, QIODevice.read, VncServerProtocol.socketWrite, QIODevice.write,
      VncServerProtocol.setState]
  · intro h
    simp [h]

/-- C17: a short read is no progress: in state Protocol with a number of
buffered bytes other than 12, in state SecurityInit with nothing buffered and in
state FramebufferInit with fewer than `sz_rfbClientInitMsg` bytes buffered,
`read()` returns false and leaves the whole session as it was. -/
theorem C17_short_read (x : Externals) (v : Subclass) (p : VncServerProtocol) :
    (p.state = State.Protocol → p.m_socket.bytesAvailable ≠ 12 → p.read x v = (false, p)) ∧
    (p.state = State.SecurityInit → p.m_socket.bytesAvailable = 0 → p.read x v = (false, p)) ∧
    (p.state = State.FramebufferInit → p.m_socket.bytesAvailable < sz_rfbClientInitMsg →
      p.read x v = (false, p)) := by
  refine ⟨?_, ?_, ?_⟩
  · intro hs hn
    simp [VncServerProtocol.read, hs, VncServerProtocol.readProtocol, sz_rfbProtocolVersionMsg, hn]
  · intro hs hn
    simp [VncServerProtocol.read, hs, VncServerProtocol.receiveSecurityTypeResponse, hn]
  · intro hs hn
    have : ¬ p.m_socket.bytesAvailable ≥ sz_rfbClientInitMsg := by omega
    simp [VncServerProtocol.read, hs, VncServerProtocol.processFramebufferInit, this]

/-- C18: the demo strategy. With authentication type Token, the state Init
gives Token whatever the message holds; the state Token gives Successful exactly
when the bytes of the first value of the message equal the demo access token and
Failed otherwise; every other state gives Failed; every other authentication
type gives Failed. Nothing but the authentication state changes. The demo
access control sets Successful for every client and changes nothing else. The
bytes of the first value are those of `toByteArray()`: a token presented as a
byte array is compared as it is, and a token presented as a string is compared
by its UTF-8 bytes. -/
theorem C18_demo_token (token : QByteArray) (p : VncServerProtocol)
    (message : VariantArrayMessage) :
    (DemoServerProtocol.processAuthenticationMessage token p message
      = { p with m_client := { p.m_client with
          authState := (DemoServerProtocol.processAuthenticationMessage token p
            message).m_client.authState } }) ∧
    (p.m_client.authType = RfbVeyonAuthType.Token → p.m_client.authState = AuthState.Init →
      (DemoServerProtocol.processAuthenticationMessage token p message).m_client.authState
        = AuthState.Token) ∧
    (p.m_client.authType = RfbVeyonAuthType.Token → p.m_client.authState = AuthState.Token →
      ((DemoServerProtocol.processAuthenticationMessage token p message).m_client.authState
          = AuthState.Successful ↔ message.read.1.toByteArray = token) ∧
      (message.read.1.toByteArray ≠ token →
        (DemoServerProtocol.processAuthenticationMessage token p message).m_client.authState
          = AuthState.Failed)) ∧
    (p.m_client.authType = RfbVeyonAuthType.Token → p.m_client.authState ≠ AuthState.Init →
      p.m_client.authState ≠ AuthState.Token →
      (DemoServerProtocol.processAuthenticationMessage token p message).m_client.authState
        = AuthState.Failed) ∧
    (p.m_client.authType ≠ RfbVeyonAuthType.Token →
      (DemoServerProtocol.processAuthenticationMessage token p message).m_client.authState
        = AuthState.Failed) ∧
    (DemoServerProtocol.performAccessControl p
      = { p with m_client := { p.m_client with
          accessControlState := AccessControlState.Successful } }) ∧
    ((DemoServerProtocol token).processAuthenticationMessage
      = DemoServerProtocol.processAuthenticationMessage token) ∧
    ((DemoServerProtocol token).performAccessControl = DemoServerProtocol.performAccessControl) ∧
    (∀ b : QByteArray, p.m_client.authType = RfbVeyonAuthType.Token →
      p.m_client.authState = AuthState.Token → message.read.1 = QVariant.byteArray b →
      ((DemoServerProtocol.processAuthenticationMessage token p message).m_client.authState
        = AuthState.Successful ↔ b = token)) ∧
    (∀ s : QString, p.m_client.authType = RfbVeyonAuthType.Token →
      p.m_client.authState = AuthState.Token → message.read.1 = QVariant.string s →
      ((DemoServerProtocol.processAuthenticationMessage token p message).m_client.authState
        = AuthState.Successful ↔ QString.toUtf8 s = token)) := by
  have htoken : p.m_client.authType = RfbVeyonAuthType.Token →
      p.m_client.authState = AuthState.Token →
      ((DemoServerProtocol.processAuthenticationMessage token p message).m_client.authState
        = AuthState.Successful ↔ message.read.1.toByteArray = token) := by
    intro ht hi
    by_cases hm : message.read.1.toByteArray = token <;>
      simp [DemoServerProtocol.processAuthenticationMessage,
        DemoServerProtocol.performTokenAuthentication, ht, hi, hm]
  refine ⟨?_, ?_, ?_, ?_, ?_, rfl, rfl, rfl, ?_, ?_⟩
  rotate_left 5
  · intro b ht hi hb
    have h := htoken ht hi
    rw [hb] at h
    exact h
  · intro s ht hi hs
    have h := htoken ht hi
    rw [hs] at h
    exact h
  · unfold DemoServerProtocol.processAuthenticationMessage
    split_ifs <;> rfl
  · intro ht hi
    simp [DemoServerProtocol.processAuthenticationMessage,
      DemoServerProtocol.performTokenAuthentication, ht, hi]
  · intro ht hi
    by_cases hm : message.read.1.toByteArray = token <;>
      simp [DemoServerProtocol.processAuthenticationMessage,
        DemoServerProtocol.performTokenAuthentication, ht, hi, hm]
  · intro ht h1 h2
    simp only [DemoServerProtocol.processAuthenticationMessage, ht, if_true,
      DemoServerProtocol.performTokenAuthentication]
  · intro ht
    simp [DemoServerProtocol.processAuthenticationMessage, ht]

/-! ## The protocol state along calls -/

theorem State.notBefore_iff_rank (s t : State) : State.notBefore s t ↔ s.rank ≤ t.rank := by
  cases s <;> cases t <;> simp [State.notBefore, State.rank]

theorem start_state (p : VncServerProtocol) :
    p.start.state = p.state ∨ (p.state = State.Disconnected ∧ p.start.state = State.Protocol) := by
  unfold VncServerProtocol.start
  split_ifs with h
  · right
    exact ⟨h, rfl⟩
  · left
    rfl

theorem readProtocol_state (x : Externals) (p : VncServerProtocol) :
    (p.readProtocol x).2.state = p.state ∨ (p.readProtocol x).2.state = State.SecurityInit := by
  by_cases hn : p.m_socket.bytesAvailable = 12
  · rw [readProtocol_eq x p hn]
    split_ifs
    · right
      rfl
    · left
      rfl
  · left
    simp [VncServerProtocol.readProtocol, sz_rfbProtocolVersionMsg, hn]

theorem receiveSecurityTypeResponse_state (x : Externals) (v : Subclass)
    (p : VncServerProtocol) :
    (p.receiveSecurityTypeResponse x v).2.state = p.state ∨
    (p.receiveSecurityTypeResponse x v).2.state = State.AuthenticationTypes := by
  cases hbuf : p.m_socket.readBuffer with
  | nil =>
    left
    simp [VncServerProtocol.receiveSecurityTypeResponse, QIODevice.bytesAvailable, hbuf]
  | cons b rest =>
    rw [receiveSecurityTypeResponse_eq x v p b rest hbuf]
    split_ifs
    · right
      rw [sendAuthenticationTypes_eq]
      rfl
    · left
      rfl

theorem processAuthentication_state (v : Subclass) (p : VncServerProtocol)
    (message : VariantArrayMessage) :
    (p.processAuthentication v message).2.state = State.AccessControl ∨
    (p.processAuthentication v message).2.state
      = (v.processAuthenticationMessage p message).state := by
  rw [processAuthentication_eq]
  split_ifs
  · left
    rfl
  · right
    rfl
  · right
    rfl

theorem receiveAuthenticationTypeResponse_state (x : Externals) (v : Subclass)
    (p : VncServerProtocol) :
    (p.receiveAuthenticationTypeResponse x v).2.state = p.state ∨
    (p.receiveAuthenticationTypeResponse x v).2.state = State.AccessControl ∨
    ∃ q m, q.state = State.Authenticating ∧
      (p.receiveAuthenticationTypeResponse x v).2.state
        = (v.processAuthenticationMessage q m).state := by
  by_cases hready : x.messageReady p.m_socket.readBuffer = true
  · rcases hrecv : x.messageReceive p.m_socket.readBuffer with ⟨_ | values, rest⟩
    · left
      simp [VncServerProtocol.receiveAuthenticationTypeResponse,
        VariantArrayMessage.isReadyForReceive, hready, VariantArrayMessage.receive, hrecv,
        VncServerProtocol.state]
    · rw [receiveAuthenticationTypeResponse_eq x v p values rest hready hrecv]
      split_ifs
      · rcases processAuthentication_state v
          { p with
            m_socket := { p.m_socket with
              readBuffer := rest
              written := p.m_socket.written ++ [Written.message []] }
            m_client := { p.m_client with
              protocolState := State.Authenticating
              authType := (VariantArrayMessage.read { values := values }).1.toAuthType
              username := (VariantArrayMessage.read
                (VariantArrayMessage.read { values := values }).2).1.toQString } }
          { values := [] } with h | h
        · right
          left
          exact h
        · right
          right
          refine ⟨_, _, ?_, h⟩
          rfl
      · left
        rfl
  · left
    simp [VncServerProtocol.receiveAuthenticationTypeResponse,
      VariantArrayMessage.isReadyForReceive, hready]

theorem receiveAuthenticationMessage_state (x : Externals) (v : Subclass)
    (p : VncServerProtocol) :
    (p.receiveAuthenticationMessage x v).2.state = p.state ∨
    (p.receiveAuthenticationMessage x v).2.state = State.AccessControl ∨
    ∃ q m, q.state = p.state ∧
      (p.receiveAuthenticationMessage x v).2.state
        = (v.processAuthenticationMessage q m).state := by
  by_cases hready : x.messageReady p.m_socket.readBuffer = true
  · rcases hrecv : x.messageReceive p.m_socket.readBuffer with ⟨_ | values, rest⟩
    · left
      simp [VncServerProtocol.receiveAuthenticationMessage,
        VariantArrayMessage.isReadyForReceive, hready, VariantArrayMessage.receive, hrecv,
        VncServerProtocol.state]
    · have heq : p.receiveAuthenticationMessage x v
          = VncServerProtocol.processAuthentication v
              { p with m_socket := { p.m_socket with readBuffer := rest } }
              { values := values } := by
        simp [VncServerProtocol.receiveAuthenticationMessage,
          VariantArrayMessage.isReadyForReceive, hready, VariantArrayMessage.receive, hrecv]
      rw [heq]
      rcases processAuthentication_state v
          { p with m_socket := { p.m_socket with readBuffer := rest } }
          { values := values } with h | h
      · right
        left
        exact h
      · right
        right
        refine ⟨_, _, ?_, h⟩
        rfl
  · left
    simp [VncServerProtocol.receiveAuthenticationMessage,
      VariantArrayMessage.isReadyForReceive, hready]

theorem processAccessControl_state (x : Externals) (v : Subclass) (p : VncServerProtocol) :
    (p.processAccessControl x v).2.state = State.FramebufferInit ∨
    (p.processAccessControl x v).2.state = (v.performAccessControl p).state := by
  unfold VncServerProtocol.processAccessControl
  cases h : (v.performAccessControl p).m_client.accessControlState
  · right
    simp only [h]
    rw [sendFailedAccessControlMessage_eq]
    split_ifs <;> rfl
  · left
    simp only [h]
    rfl
  · right
    simp only [h]
  · right
    simp only [h]
  · right
    simp only [h]
    rw [sendFailedAccessControlMessage_eq]
    split_ifs <;> rfl

theorem processFramebufferInit_state (p : VncServerProtocol) :
    p.processFramebufferInit.2.state = p.state ∨
    p.processFramebufferInit.2.state = State.Running := by
  unfold VncServerProtocol.processFramebufferInit
  split_ifs
  · right
    rfl
  · left
    rfl

theorem read_rank_le (x : Externals) (v : Subclass) (hv : v.neverRegresses)
    (p : VncServerProtocol) : p.state.rank ≤ (p.read x v).2.state.rank := by
  have hauth := fun q m => (State.notBefore_iff_rank _ _).mp (hv.1 q m)
  have hacc := fun q => (State.notBefore_iff_rank _ _).mp (hv.2 q)
  cases hs : p.state
  · simp [VncServerProtocol.read, hs]
  · have hread : p.read x v = p.readProtocol x := by simp only [VncServerProtocol.read, hs]
    rw [hread]
    rcases readProtocol_state x p with h | h <;> rw [h] <;> simp [hs, State.rank]
  · have hread : p.read x v = p.receiveSecurityTypeResponse x v := by
      simp only [VncServerProtocol.read, hs]
    rw [hread]
    rcases receiveSecurityTypeResponse_state x v p with h | h <;> rw [h] <;>
      simp [hs, State.rank]
  · have hread : p.read x v = p.receiveAuthenticationTypeResponse x v := by
      simp only [VncServerProtocol.read, hs]
    rw [hread]
    rcases receiveAuthenticationTypeResponse_state x v p with h | h | ⟨q, m, hq, h⟩
    · rw [h]
      simp [hs]
    · rw [h]
      simp [State.rank]
    · rw [h]
      have := hauth q m
      rw [hq] at this
      simp only [State.rank] at this ⊢
      omega
  · have hread : p.read x v = p.receiveAuthenticationMessage x v := by
      simp only [VncServerProtocol.read, hs]
    rw [hread]
    rcases receiveAuthenticationMessage_state x v p with h | h | ⟨q, m, hq, h⟩
    · rw [h]
      simp [hs]
    · rw [h]
      simp [State.rank]
    · rw [h]
      have := hauth q m
      rw [hq, hs] at this
      exact this
  · have hread : p.read x v = p.processAccessControl x v := by
      simp only [VncServerProtocol.read, hs]
    rw [hread]
    rcases processAccessControl_state x v p with h | h
    · rw [h]
      simp [State.rank]
    · rw [h]
      have := hacc p
      rw [hs] at this
      exact this
  · have hread : p.read x v = p.processFramebufferInit := by
      simp only [VncServerProtocol.read, hs]
    rw [hread]
    rcases processFramebufferInit_state p with h | h <;> rw [h] <;> simp [hs, State.rank]
  · simp [VncServerProtocol.read, hs]
  · simp [VncServerProtocol.read, hs, VncServerProtocol.socketClose, VncServerProtocol.state] at hs ⊢
    simp [hs]

theorem start_rank_le (p : VncServerProtocol) : p.state.rank ≤ p.start.state.rank := by
  rcases start_state p with h | ⟨h1, h2⟩
  · rw [h]
  · rw [h1, h2]
    simp [State.rank]

theorem call_rank_le (x : Externals) (v : Subclass) (hv : v.neverRegresses)
    (p : VncServerProtocol) (c : Call) : p.state.rank ≤ (p.call x v c).state.rank := by
  cases c with
  | start => exact start_rank_le p
  | read => exact read_rank_le x v hv p
  | arrive data => exact Nat.le_refl _

theorem calls_rank_le (x : Externals) (v : Subclass) (hv : v.neverRegresses)
    (cs : List Call) : ∀ p : VncServerProtocol, p.state.rank ≤ (p.calls x v cs).state.rank := by
  induction cs with
  | nil => intro p; exact Nat.le_refl _
  | cons c cs ih =>
    intro p
    have h1 := call_rank_le x v hv p c
    have h2 := ih (p.call x v c)
    simp only [VncServerProtocol.calls, List.foldl_cons] at h2 ⊢
    exact Nat.le_trans h1 h2

/-- C14: states never regress. When the authentication strategy and the access
control of the subclass never move the protocol state backwards themselves,
every call of `start()` and of `read()`, and so every sequence of calls with
bytes arriving in between, leaves the protocol state unchanged, later in the
order Disconnected < Protocol < SecurityInit < AuthenticationTypes <
Authenticating < AccessControl < FramebufferInit < Running, or at Close. -/
theorem C14_states_never_regress (x : Externals) (v : Subclass) (hv : v.neverRegresses)
    (p : VncServerProtocol) :
    State.notBefore p.state p.start.state ∧
    State.notBefore p.state (p.read x v).2.state ∧
    ∀ cs : List Call, State.notBefore p.state (p.calls x v cs).state := by
  refine ⟨?_, ?_, ?_⟩
  · rw [State.notBefore_iff_rank]
    exact start_rank_le p
  · rw [State.notBefore_iff_rank]
    exact read_rank_le x v hv p
  · intro cs
    rw [State.notBefore_iff_rank]
    exact calls_rank_le x v hv cs p

/-! ## At most one banner and one security-type list -/

theorem readProtocol_cases (x : Externals) (p : VncServerProtocol) :
    p.readProtocol x = (false, p) ∨
    p.readProtocol x
      = (false, { p with m_socket := { p.m_socket with isOpen := false, readBuffer := [] } }) ∨
    p.readProtocol x = (true, { p with
      m_socket := { p.m_socket with
        readBuffer := []
        written := p.m_socket.written ++ [Written.raw [1, x.rfbSecTypeVeyon]] }
      m_client := { p.m_client with protocolState := State.SecurityInit } }) := by
  by_cases hn : p.m_socket.bytesAvailable = 12
  · rw [readProtocol_eq x p hn]
    split_ifs
    · right
      right
      rfl
    · right
      left
      rfl
  · left
    simp [VncServerProtocol.readProtocol, sz_rfbProtocolVersionMsg, hn]

theorem receiveSecurityTypeResponse_cases (x : Externals) (v : Subclass)
    (p : VncServerProtocol) :
    p.receiveSecurityTypeResponse x v = (false, p) ∨
    p.receiveSecurityTypeResponse x v
      = (false, { p with m_socket := { p.m_socket with isOpen := false, readBuffer := [] } }) ∨
    ((p.receiveSecurityTypeResponse x v).1 = true ∧
      (p.receiveSecurityTypeResponse x v).2.state = State.AuthenticationTypes) := by
  cases hbuf : p.m_socket.readBuffer with
  | nil =>
    left
    simp [VncServerProtocol.receiveSecurityTypeResponse, QIODevice.bytesAvailable, hbuf]
  | cons b rest =>
    rw [receiveSecurityTypeResponse_eq x v p b rest hbuf]
    split_ifs
    · right
      right
      rw [sendAuthenticationTypes_eq]
      exact ⟨rfl, rfl⟩
    · right
      left
      rfl

theorem processFramebufferInit_cases (p : VncServerProtocol) :
    p.processFramebufferInit = (false, p) ∨
    (p.processFramebufferInit.1 = true ∧ p.processFramebufferInit.2.state = State.Running) := by
  unfold VncServerProtocol.processFramebufferInit
  split_ifs
  · right
    exact ⟨rfl, rfl⟩
  · left
    rfl

theorem countSecurityTypes_zero (x : Externals) (v : Subclass) (hv : v.neverRegresses)
    (cs : List Call) :
    ∀ p : VncServerProtocol, 2 ≤ p.state.rank → countSecurityTypes x v p cs = 0 := by
  induction cs with
  | nil => intro p _; rfl
  | cons c cs ih =>
    intro p hp
    have hnext := call_rank_le x v hv p c
    have hno : p.sendsSecurityTypes x v c = false := by
      cases c with
      | read =>
        have : p.state ≠ State.Protocol := by
          intro h
          rw [h] at hp
          simp [State.rank] at hp
        simp [VncServerProtocol.sendsSecurityTypes, this]
      | start => rfl
      | arrive data => rfl
    simp only [countSecurityTypes, hno]
    rw [ih (p.call x v c) (by omega)]
    rfl

theorem countSecurityTypes_le_one (x : Externals) (v : Subclass) (hv : v.neverRegresses)
    (cs : List Call) : ∀ p : VncServerProtocol, countSecurityTypes x v p cs ≤ 1 := by
  induction cs with
  | nil => intro p; simp [countSecurityTypes]
  | cons c cs ih =>
    intro p
    by_cases hc : p.sendsSecurityTypes x v c = true
    · cases c with
      | read =>
        simp only [VncServerProtocol.sendsSecurityTypes, Bool.and_eq_true,
          decide_eq_true_eq] at hc
        have hread : p.read x v = p.readProtocol x := by
          simp only [VncServerProtocol.read, hc.1]
        have hstate : (p.read x v).2.state = State.SecurityInit := by
          have htrue := hc.2
          rw [hread] at htrue ⊢
          rcases readProtocol_cases x p with h | h | h <;> rw [h] at htrue ⊢
          · simp at htrue
          · simp at htrue
          · rfl
        have hzero := countSecurityTypes_zero x v hv cs ((p.read x v).2)
          (by rw [hstate]; simp [State.rank])
        simp only [countSecurityTypes, VncServerProtocol.call, hzero]
        split_ifs <;> simp
      | start => simp [VncServerProtocol.sendsSecurityTypes] at hc
      | arrive data => simp [VncServerProtocol.sendsSecurityTypes] at hc
    · simp only [countSecurityTypes, hc]
      have := ih (p.call x v c)
      simpa using this

theorem countBanner_zero (x : Externals) (v : Subclass) (hv : v.neverRegresses)
    (cs : List Call) :
    ∀ p : VncServerProtocol, 1 ≤ p.state.rank → countBanner x v p cs = 0 := by
  induction cs with
  | nil => intro p _; rfl
  | cons c cs ih =>
    intro p hp
    have hnext := call_rank_le x v hv p c
    have hno : p.sendsBanner c = false := by
      cases c with
      | start =>
        have : p.state ≠ State.Disconnected := by
          intro h
          rw [h] at hp
          simp [State.rank] at hp
        simp [VncServerProtocol.sendsBanner, this]
      | read => rfl
      | arrive data => rfl
    simp only [countBanner, hno]
    rw [ih (p.call x v c) (by omega)]
    rfl

theorem countBanner_le_one (x : Externals) (v : Subclass) (hv : v.neverRegresses)
    (cs : List Call) : ∀ p : VncServerProtocol, countBanner x v p cs ≤ 1 := by
  induction cs with
  | nil => intro p; simp [countBanner]
  | cons c cs ih =>
    intro p
    by_cases hc : p.sendsBanner c = true
    · cases c with
      | start =>
        simp only [VncServerProtocol.sendsBanner, decide_eq_true_eq] at hc
        have hc2 : p.m_client.protocolState = State.Disconnected := hc
        have hstate : p.start.state = State.Protocol := by
          simp [VncServerProtocol.start, hc2, VncServerProtocol.setState,
            VncServerProtocol.state]
        have hzero := countBanner_zero x v hv cs p.start (by rw [hstate]; simp [State.rank])
        simp only [countBanner, VncServerProtocol.call, hzero]
        split_ifs <;> simp
      | read => simp [VncServerProtocol.sendsBanner] at hc
      | arrive data => simp [VncServerProtocol.sendsBanner] at hc
    · simp only [countBanner, hc]
      have := ih (p.call x v c)
      simpa using this

theorem countWritten_append_raw (data bytes : QByteArray) (written : List Written) :
    countWritten data (written ++ [Written.raw bytes])
      = countWritten data written + (if bytes = data then 1 else 0) := by
  unfold countWritten
  rw [List.countP_append]
  by_cases h : bytes = data <;> simp [List.countP_cons, Written.isRaw, h]

theorem countWritten_append_message (data : QByteArray) (values : List QVariant)
    (written : List Written) :
    countWritten data (written ++ [Written.message values]) = countWritten data written := by
  unfold countWritten
  rw [List.countP_append]
  simp [List.countP_cons, Written.isRaw]

theorem processAuthentication_countWritten (v : Subclass) (data : QByteArray)
    (hw : v.writesNo data) (h4 : data.length ≠ 4) (p : VncServerProtocol)
    (message : VariantArrayMessage) :
    countWritten data (p.processAuthentication v message).2.m_socket.written
      ≤ countWritten data p.m_socket.written ∧
    (p.processAuthentication v message).2.m_serverInitMessage = p.m_serverInitMessage := by
  have hq := hw.1 p message
  have hne : ¬ ([0, 0, 0, 0] : QByteArray) = data := by
    intro h
    rw [← h] at h4
    exact h4 rfl
  rw [processAuthentication_eq]
  split_ifs
  · refine ⟨?_, hq.2⟩
    simp only [countWritten_append_raw, hne, if_false]
    exact hq.1
  · exact hq
  · exact hq

theorem read_countWritten_other (x : Externals) (v : Subclass) (data : QByteArray)
    (hw : v.writesNo data) (hscheme : ∀ suffix, x.accessControlMessageScheme ++ suffix ≠ data)
    (h24 : data.length ≠ 24) (h4 : data.length ≠ 4) (p : VncServerProtocol)
    (hinit : p.m_serverInitMessage ≠ data) (hp : p.state ≠ State.Protocol) :
    countWritten data (p.read x v).2.m_socket.written ≤ countWritten data p.m_socket.written ∧
    (p.read x v).2.m_serverInitMessage = p.m_serverInitMessage := by
  cases hs : p.state
  · have hread : p.read x v = (false, p) := by simp [VncServerProtocol.read, hs]
    rw [hread]
    exact ⟨Nat.le_refl _, rfl⟩
  · exact absurd hs hp
  · have hread : p.read x v = p.receiveSecurityTypeResponse x v := by
      simp only [VncServerProtocol.read, hs]
    rw [hread]
    cases hbuf : p.m_socket.readBuffer with
    | nil =>
      have h : p.receiveSecurityTypeResponse x v = (false, p) := by
        simp [VncServerProtocol.receiveSecurityTypeResponse, QIODevice.bytesAvailable, hbuf]
      rw [h]
      exact ⟨Nat.le_refl _, rfl⟩
    | cons b rest =>
      rw [receiveSecurityTypeResponse_eq x v p b rest hbuf]
      split_ifs
      · rw [sendAuthenticationTypes_eq]
        refine ⟨?_, rfl⟩
        simp only [countWritten_append_message]
        exact Nat.le_refl _
      · exact ⟨Nat.le_refl _, rfl⟩
  · have hread : p.read x v = p.receiveAuthenticationTypeResponse x v := by
      simp only [VncServerProtocol.read, hs]
    rw [hread]
    by_cases hready : x.messageReady p.m_socket.readBuffer = true
    · rcases hrecv : x.messageReceive p.m_socket.readBuffer with ⟨_ | values, rest⟩
      · have h : p.receiveAuthenticationTypeResponse x v
            = (false, { p with m_socket := { p.m_socket with readBuffer := rest } }) := by
          simp [VncServerProtocol.receiveAuthenticationTypeResponse,
            VariantArrayMessage.isReadyForReceive, hready, VariantArrayMessage.receive, hrecv]
        rw [h]
        exact ⟨Nat.le_refl _, rfl⟩
      · rw [receiveAuthenticationTypeResponse_eq x v p values rest hready hrecv]
        split_ifs
        · have h := processAuthentication_countWritten v data hw h4
            { p with
              m_socket := { p.m_socket with
                readBuffer := rest
                written := p.m_socket.written ++ [Written.message []] }
              m_client := { p.m_client with
                protocolState := State.Authenticating
                authType := (VariantArrayMessage.read { values := values }).1.toAuthType
                username := (VariantArrayMessage.read
                  (VariantArrayMessage.read { values := values }).2).1.toQString } }
            { values := [] }
          simp only [countWritten_append_message] at h
          exact h
        · exact ⟨Nat.le_refl _, rfl⟩
    · have h : p.receiveAuthenticationTypeResponse x v = (false, p) := by
        simp [VncServerProtocol.receiveAuthenticationTypeResponse,
          VariantArrayMessage.isReadyForReceive, hready]
      rw [h]
      exact ⟨Nat.le_refl _, rfl⟩
  · have hread : p.read x v = p.receiveAuthenticationMessage x v := by
      simp only [VncServerProtocol.read, hs]
    rw [hread]
    by_cases hready : x.messageReady p.m_socket.readBuffer = true
    · rcases hrecv : x.messageReceive p.m_socket.readBuffer with ⟨_ | values, rest⟩
      · have h : p.receiveAuthenticationMessage x v
            = (false, { p with m_socket := { p.m_socket with readBuffer := rest } }) := by
          simp [VncServerProtocol.receiveAuthenticationMessage,
            VariantArrayMessage.isReadyForReceive, hready, VariantArrayMessage.receive, hrecv]
        rw [h]
        exact ⟨Nat.le_refl _, rfl⟩
      · have h : p.receiveAuthenticationMessage x v
            = VncServerProtocol.processAuthentication v
                { p with m_socket := { p.m_socket with readBuffer := rest } }
                { values := values } := by
          simp [VncServerProtocol.receiveAuthenticationMessage,
            VariantArrayMessage.isReadyForReceive, hready, VariantArrayMessage.receive, hrecv]
        rw [h]
        exact processAuthentication_countWritten v data hw h4
          { p with m_socket := { p.m_socket with readBuffer := rest } } { values := values }
    · have h : p.receiveAuthenticationMessage x v = (false, p) := by
        simp [VncServerProtocol.receiveAuthenticationMessage,
          VariantArrayMessage.isReadyForReceive, hready]
      rw [h]
      exact ⟨Nat.le_refl _, rfl⟩
  · have hread : p.read x v = p.processAccessControl x v := by
      simp only [VncServerProtocol.read, hs]
    rw [hread]
    have hq := hw.2 p
    have hheader : ∀ n, ¬ failedAccessControlHeader n = data := by
      intro n h
      rw [← h] at h24
      exact h24 rfl
    have hfail : countWritten data
          ((v.performAccessControl p).sendFailedAccessControlMessage x).socketClose.m_socket.written
          ≤ countWritten data p.m_socket.written ∧
        ((v.performAccessControl p).sendFailedAccessControlMessage x).socketClose.m_serverInitMessage
          = p.m_serverInitMessage := by
      rw [sendFailedAccessControlMessage_eq]
      split_ifs
      · exact hq
      · refine ⟨?_, hq.2⟩
        show countWritten data ((v.performAccessControl p).m_socket.written ++ [_, _]) ≤ _
        rw [show ∀ (w : List Written) (a b : Written), w ++ [a, b] = (w ++ [a]) ++ [b] from
          fun w a b => by simp]
        simp only [countWritten_append_raw, hheader, hscheme, if_false]
        exact hq.1
    unfold VncServerProtocol.processAccessControl
    cases h : (v.performAccessControl p).m_client.accessControlState <;> simp only [h]
    all_goals first
      | exact hfail
      | exact hq
  · have hread : p.read x v = p.processFramebufferInit := by
      simp only [VncServerProtocol.read, hs]
    rw [hread]
    unfold VncServerProtocol.processFramebufferInit
    split_ifs
    · refine ⟨?_, rfl⟩
      show countWritten data (p.m_socket.written ++ [Written.raw p.m_serverInitMessage]) ≤ _
      simp only [countWritten_append_raw, hinit, if_false]
      exact Nat.le_refl _
    · exact ⟨Nat.le_refl _, rfl⟩
  · have hread : p.read x v = (false, p) := by simp [VncServerProtocol.read, hs]
    rw [hread]
    exact ⟨Nat.le_refl _, rfl⟩
  · have hread : p.read x v = (false, p.socketClose) := by simp [VncServerProtocol.read, hs]
    rw [hread]
    exact ⟨Nat.le_refl _, rfl⟩

theorem read_countWritten (x : Externals) (v : Subclass) (data : QByteArray)
    (hw : v.writesNo data) (hscheme : ∀ suffix, x.accessControlMessageScheme ++ suffix ≠ data)
    (h24 : data.length ≠ 24) (h4 : data.length ≠ 4) (p : VncServerProtocol)
    (hinit : p.m_serverInitMessage ≠ data) :
    countWritten data (p.read x v).2.m_socket.written
      ≤ countWritten data p.m_socket.written
        + (if p.sendsSecurityTypes x v Call.read = true ∧ data = [1, x.rfbSecTypeVeyon]
            then 1 else 0) ∧
    (p.read x v).2.m_serverInitMessage = p.m_serverInitMessage := by
  by_cases hs : p.state = State.Protocol
  · have hread : p.read x v = p.readProtocol x := by simp only [VncServerProtocol.read, hs]
    have hsend : p.sendsSecurityTypes x v Call.read = (p.readProtocol x).1 := by
      simp [VncServerProtocol.sendsSecurityTypes, hs, hread]
    rw [hsend, hread]
    rcases readProtocol_cases x p with h | h | h <;> rw [h]
    · exact ⟨Nat.le_add_right _ _, rfl⟩
    · exact ⟨Nat.le_add_right _ _, rfl⟩
    · refine ⟨?_, rfl⟩
      simp only [countWritten_append_raw, true_and]
      by_cases hd : data = [1, x.rfbSecTypeVeyon]
      · simp [hd]
      · have hd2 : ¬ [1, x.rfbSecTypeVeyon] = data := fun h => hd h.symm
        simp [hd, hd2]
  · have h := read_countWritten_other x v data hw hscheme h24 h4 p hinit hs
    exact ⟨Nat.le_trans h.1 (Nat.le_add_right _ _), h.2⟩

theorem start_countWritten (data : QByteArray) (p : VncServerProtocol) :
    countWritten data p.start.m_socket.written
      ≤ countWritten data p.m_socket.written
        + (if p.sendsBanner Call.start = true ∧ data = asciiBytes "RFB 003.008\n" then 1 else 0) ∧
    p.start.m_serverInitMessage = p.m_serverInitMessage := by
  have hbanner : (rfbProtocolVersionFormat 3 8).take sz_rfbProtocolVersionMsg
      = asciiBytes "RFB 003.008\n" := by decide
  by_cases h : p.state = State.Disconnected
  · have hstart : p.start
        = (p.socketWrite (asciiBytes "RFB 003.008\n")).setState State.Protocol := by
      simp only [VncServerProtocol.start, h, if_true, hbanner]
    rw [hstart]
    refine ⟨?_, rfl⟩
    show countWritten data (p.m_socket.written ++ [Written.raw (asciiBytes "RFB 003.008\n")]) ≤ _
    rw [countWritten_append_raw]
    by_cases hd : data = asciiBytes "RFB 003.008\n"
    · simp [hd, VncServerProtocol.sendsBanner, h]
    · have hd2 : ¬ asciiBytes "RFB 003.008\n" = data := fun h => hd h.symm
      simp [hd, hd2]
  · have hstart : p.start = p := by simp only [VncServerProtocol.start, h, if_false]
    rw [hstart]
    exact ⟨Nat.le_add_right _ _, rfl⟩

theorem call_countWritten (x : Externals) (v : Subclass) (data : QByteArray)
    (hw : v.writesNo data) (hscheme : ∀ suffix, x.accessControlMessageScheme ++ suffix ≠ data)
    (h24 : data.length ≠ 24) (h4 : data.length ≠ 4) (p : VncServerProtocol)
    (hinit : p.m_serverInitMessage ≠ data) (c : Call) :
    countWritten data (p.call x v c).m_socket.written
      ≤ countWritten data p.m_socket.written
        + (if p.sendsBanner c = true ∧ data = asciiBytes "RFB 003.008\n" then 1 else 0)
        + (if p.sendsSecurityTypes x v c = true ∧ data = [1, x.rfbSecTypeVeyon] then 1 else 0) ∧
    (p.call x v c).m_serverInitMessage = p.m_serverInitMessage := by
  cases c with
  | start =>
    have h := start_countWritten data p
    exact ⟨Nat.le_trans h.1 (Nat.le_add_right _ _), h.2⟩
  | read =>
    have h := read_countWritten x v data hw hscheme h24 h4 p hinit
    refine ⟨?_, h.2⟩
    simp only [VncServerProtocol.call, VncServerProtocol.sendsBanner, Bool.false_eq_true,
      false_and, if_false, Nat.add_zero]
    exact h.1
  | arrive bytes => exact ⟨Nat.le_add_right _ _, rfl⟩

theorem calls_countWritten_banner (x : Externals) (v : Subclass)
    (hw : v.writesNo (asciiBytes "RFB 003.008\n"))
    (hscheme : ∀ suffix, x.accessControlMessageScheme ++ suffix ≠ asciiBytes "RFB 003.008\n")
    (cs : List Call) :
    ∀ p : VncServerProtocol, p.m_serverInitMessage ≠ asciiBytes "RFB 003.008\n" →
      countWritten (asciiBytes "RFB 003.008\n") (p.calls x v cs).m_socket.written
        ≤ countWritten (asciiBytes "RFB 003.008\n") p.m_socket.written + countBanner x v p cs := by
  induction cs with
  | nil => intro p _; exact Nat.le_refl _
  | cons c cs ih =>
    intro p hinit
    have hstep := call_countWritten x v (asciiBytes "RFB 003.008\n") hw hscheme (by decide)
      (by decide) p hinit c
    have hne : ¬ asciiBytes "RFB 003.008\n" = [1, x.rfbSecTypeVeyon] := by
      intro h
      have := congrArg List.length h
      simp [asciiBytes] at this
    have hnext := ih (p.call x v c) (by rw [hstep.2]; exact hinit)
    have h1 := hstep.1
    simp only [hne, and_false, if_false, Nat.add_zero, and_true] at h1
    simp only [VncServerProtocol.calls, List.foldl_cons, countBanner] at hnext ⊢
    split_ifs at h1 ⊢ <;> omega

theorem calls_countWritten_securityTypes (x : Externals) (v : Subclass)
    (hw : v.writesNo [1, x.rfbSecTypeVeyon])
    (hscheme : ∀ suffix, x.accessControlMessageScheme ++ suffix ≠ [1, x.rfbSecTypeVeyon])
    (cs : List Call) :
    ∀ p : VncServerProtocol, p.m_serverInitMessage ≠ [1, x.rfbSecTypeVeyon] →
      countWritten [1, x.rfbSecTypeVeyon] (p.calls x v cs).m_socket.written
        ≤ countWritten [1, x.rfbSecTypeVeyon] p.m_socket.written
          + countSecurityTypes x v p cs := by
  induction cs with
  | nil => intro p _; exact Nat.le_refl _
  | cons c cs ih =>
    intro p hinit
    have hstep := call_countWritten x v [1, x.rfbSecTypeVeyon] hw hscheme (by simp)
      (by simp) p hinit c
    have hne : ¬ [1, x.rfbSecTypeVeyon] = asciiBytes "RFB 003.008\n" := by
      intro h
      have := congrArg List.length h
      simp [asciiBytes] at this
    have hnext := ih (p.call x v c) (by rw [hstep.2]; exact hinit)
    have h1 := hstep.1
    simp only [hne, and_false, if_false, Nat.add_zero, and_true] at h1
    simp only [VncServerProtocol.calls, List.foldl_cons, countSecurityTypes] at hnext ⊢
    split_ifs at h1 ⊢ <;> omega

/-- C15: in every sequence of calls of `start()` and `read()`, with bytes
arriving in between, the transport gets at most one more raw write of the
security-type list `[1, rfbSecTypeVeyon]` and at most one more raw write of the
version banner than it had before; this holds when the subclass never moves the
protocol state backwards, writes neither of the two itself and leaves the
server-init message alone, and when neither the server-init message nor a name
that starts with the scheme of the denial message has the bytes of one of the
two. At most one call writes the banner and at most one writes the
security-type list: `start()` writes the version banner in state Disconnected
and does nothing in every other state, and `read()` in state Protocol writes
the list `[1, rfbSecTypeVeyon]` exactly when it returns true. -/
theorem C15_written_at_most_once (x : Externals) (v : Subclass) (hv : v.neverRegresses)
    (hb : v.writesNo (asciiBytes "RFB 003.008\n")) (hl : v.writesNo [1, x.rfbSecTypeVeyon])
    (hscheme : ∀ suffix,
      x.accessControlMessageScheme ++ suffix ≠ asciiBytes "RFB 003.008\n" ∧
      x.accessControlMessageScheme ++ suffix ≠ [1, x.rfbSecTypeVeyon])
    (p : VncServerProtocol)
    (hinit : p.m_serverInitMessage ≠ asciiBytes "RFB 003.008\n" ∧
      p.m_serverInitMessage ≠ [1, x.rfbSecTypeVeyon])
    (cs : List Call) :
    countWritten [1, x.rfbSecTypeVeyon] (p.calls x v cs).m_socket.written
      ≤ countWritten [1, x.rfbSecTypeVeyon] p.m_socket.written + 1 ∧
    countWritten (asciiBytes "RFB 003.008\n") (p.calls x v cs).m_socket.written
      ≤ countWritten (asciiBytes "RFB 003.008\n") p.m_socket.written + 1 ∧
    countSecurityTypes x v p cs ≤ 1 ∧
    countBanner x v p cs ≤ 1 ∧
    (p.state ≠ State.Disconnected → p.start = p) ∧
    (p.state = State.Disconnected →
      p.start.m_socket.written
        = p.m_socket.written ++ [Written.raw (asciiBytes "RFB 003.008\n")]) ∧
    (p.state = State.Protocol →
      ((p.read x v).1 = true ∧
        (p.read x v).2.m_socket.written
          = p.m_socket.written ++ [Written.raw [1, x.rfbSecTypeVeyon]]) ∨
      ((p.read x v).1 = false ∧ (p.read x v).2.m_socket.written = p.m_socket.written)) := by
  have hcs := countSecurityTypes_le_one x v hv cs p
  have hcb := countBanner_le_one x v hv cs p
  have hws := calls_countWritten_securityTypes x v hl (fun suffix => (hscheme suffix).2) cs p
    hinit.2
  have hwb := calls_countWritten_banner x v hb (fun suffix => (hscheme suffix).1) cs p hinit.1
  refine ⟨by omega, by omega, hcs, hcb, ?_, ?_, ?_⟩
  · intro h
    simp [VncServerProtocol.start, h]
  · intro h
    have hbanner : rfbProtocolVersionFormat 3 8 = asciiBytes "RFB 003.008\n" := by decide
    have htake : List.take 12 (asciiBytes "RFB 003.008\n") = asciiBytes "RFB 003.008\n" := by
      decide
    simp [VncServerProtocol.start, h, hbanner, sz_rfbProtocolVersionMsg, htake,
      VncServerProtocol.socketWrite, QIODevice.write, VncServerProtocol.setState]
  · intro h
    have hread : p.read x v = p.readProtocol x := by
      simp only [VncServerProtocol.read, h]
    rw [hread]
    rcases readProtocol_cases x p with h | h | h <;> rw [h]
    · right
      exact ⟨rfl, rfl⟩
    · right
      exact ⟨rfl, rfl⟩
    · left
      exact ⟨rfl, rfl⟩

/-! ## The result of `read()` -/

theorem socketClose_state (p : VncServerProtocol) : p.socketClose.state = p.state := rfl

theorem sendFailedAccessControlMessage_state (x : Externals) (p : VncServerProtocol) :
    (p.sendFailedAccessControlMessage x).state = p.state := by
  rw [sendFailedAccessControlMessage_eq]
  split_ifs <;> rfl

theorem receiveAuthenticationMessage_result (x : Externals) (v : Subclass) (hk : v.keepsState)
    (p : VncServerProtocol) :
    ((p.receiveAuthenticationMessage x v).1 = true ∧
      (p.receiveAuthenticationMessage x v).2.state = State.AccessControl) ∨
    ((p.receiveAuthenticationMessage x v).1 = false ∧
      (p.receiveAuthenticationMessage x v).2.state = p.state) := by
  by_cases hready : x.messageReady p.m_socket.readBuffer = true
  · rcases hrecv : x.messageReceive p.m_socket.readBuffer with ⟨_ | values, rest⟩
    · right
      simp [VncServerProtocol.receiveAuthenticationMessage,
        VariantArrayMessage.isReadyForReceive, hready, VariantArrayMessage.receive, hrecv,
        VncServerProtocol.state]
    · have heq : p.receiveAuthenticationMessage x v
          = VncServerProtocol.processAuthentication v
              { p with m_socket := { p.m_socket with readBuffer := rest } }
              { values := values } := by
        simp [VncServerProtocol.receiveAuthenticationMessage,
          VariantArrayMessage.isReadyForReceive, hready, VariantArrayMessage.receive, hrecv]
      have hkeep := hk.1 { p with m_socket := { p.m_socket with readBuffer := rest } }
        { values := values }
      rw [heq, processAuthentication_eq]
      split_ifs
      · left
        exact ⟨rfl, rfl⟩
      · right
        refine ⟨rfl, ?_⟩
        exact hkeep
      · right
        exact ⟨rfl, hkeep⟩
  · right
    simp [VncServerProtocol.receiveAuthenticationMessage,
      VariantArrayMessage.isReadyForReceive, hready]

theorem receiveAuthenticationTypeResponse_false (x : Externals) (v : Subclass)
    (p : VncServerProtocol) : (p.receiveAuthenticationTypeResponse x v).1 = false := by
  by_cases hready : x.messageReady p.m_socket.readBuffer = true
  · rcases hrecv : x.messageReceive p.m_socket.readBuffer with ⟨_ | values, rest⟩
    · simp [VncServerProtocol.receiveAuthenticationTypeResponse,
        VariantArrayMessage.isReadyForReceive, hready, VariantArrayMessage.receive, hrecv]
    · rw [receiveAuthenticationTypeResponse_eq x v p values rest hready hrecv]
      split_ifs <;> rfl
  · simp [VncServerProtocol.receiveAuthenticationTypeResponse,
      VariantArrayMessage.isReadyForReceive, hready]

theorem processAccessControl_result (x : Externals) (v : Subclass) (hk : v.keepsState)
    (p : VncServerProtocol) (hs : p.state = State.AccessControl) :
    ((v.performAccessControl p).m_client.accessControlState = AccessControlState.Successful →
      (p.processAccessControl x v).1 = true ∧
      (p.processAccessControl x v).2.state ≠ p.state) ∧
    (((v.performAccessControl p).m_client.accessControlState = AccessControlState.Pending ∨
      (v.performAccessControl p).m_client.accessControlState = AccessControlState.Waiting) →
      (p.processAccessControl x v).1 = false ∧
      (p.processAccessControl x v).2.state = p.state) ∧
    ((p.processAccessControl x v).2.state ≠ p.state ↔
      (v.performAccessControl p).m_client.accessControlState = AccessControlState.Successful) := by
  have hq : (v.performAccessControl p).state = State.AccessControl := by rw [hk.2 p, hs]
  have hfail : ((v.performAccessControl p).sendFailedAccessControlMessage x).socketClose.state
      = State.AccessControl := by
    rw [socketClose_state, sendFailedAccessControlMessage_state, hq]
  unfold VncServerProtocol.processAccessControl
  cases h : (v.performAccessControl p).m_client.accessControlState <;>
    simp only [h, hs, hfail, hq] <;> simp
  simp [VncServerProtocol.setState, VncServerProtocol.state]

/-- C16, as the code has it, for a subclass that leaves the protocol state
alone: outside state AccessControl a `read()` that returns true has changed the
protocol state; outside state AuthenticationTypes a `read()` that changed the
protocol state returns true; in state AuthenticationTypes `read()` always
returns false, also when it has recorded the selection and moved the state on;
in state AccessControl `read()` returns true and changes the state for the
outcome Successful, returns false and keeps the state for Pending and Waiting,
and keeps the state for every other outcome. A `read()` that returns false in
one of the states Disconnected, Protocol, SecurityInit, FramebufferInit, Running
and Close leaves the client record, the server-init message and the written
bytes as they were. -/
theorem C16_read_result (x : Externals) (v : Subclass) (hk : v.keepsState)
    (p : VncServerProtocol) :
    (p.state ≠ State.AccessControl → (p.read x v).1 = true → (p.read x v).2.state ≠ p.state) ∧
    (p.state ≠ State.AuthenticationTypes → (p.read x v).2.state ≠ p.state →
      (p.read x v).1 = true) ∧
    (p.state = State.AuthenticationTypes → (p.read x v).1 = false) ∧
    (p.state = State.AccessControl →
      ((v.performAccessControl p).m_client.accessControlState = AccessControlState.Successful →
        (p.read x v).1 = true ∧ (p.read x v).2.state ≠ p.state) ∧
      (((v.performAccessControl p).m_client.accessControlState = AccessControlState.Pending ∨
        (v.performAccessControl p).m_client.accessControlState = AccessControlState.Waiting) →
        (p.read x v).1 = false ∧ (p.read x v).2.state = p.state) ∧
      ((p.read x v).2.state ≠ p.state ↔
        (v.performAccessControl p).m_client.accessControlState
          = AccessControlState.Successful)) ∧
    (p.state ≠ State.AuthenticationTypes → p.state ≠ State.Authenticating →
      p.state ≠ State.AccessControl → (p.read x v).1 = false →
      (p.read x v).2.m_client = p.m_client ∧
      (p.read x v).2.m_serverInitMessage = p.m_serverInitMessage ∧
      (p.read x v).2.m_socket.written = p.m_socket.written) := by
  cases hs : p.state
  · have hread : p.read x v = (false, p) := by simp [VncServerProtocol.read, hs]
    rw [hread]
    simp [hs]
  · have hread : p.read x v = p.readProtocol x := by simp only [VncServerProtocol.read, hs]
    have hs2 : p.m_client.protocolState = State.Protocol := hs
    rw [hread]
    rcases readProtocol_cases x p with h | h | h <;> rw [h] <;>
      simp [hs, hs2, VncServerProtocol.state]
  · have hread : p.read x v = p.receiveSecurityTypeResponse x v := by
      simp only [VncServerProtocol.read, hs]
    have hs2 : p.m_client.protocolState = State.SecurityInit := hs
    rw [hread]
    rcases receiveSecurityTypeResponse_cases x v p with h | h | ⟨h1, h2⟩
    · rw [h]
      simp [hs]
    · rw [h]
      simp [hs2, VncServerProtocol.state]
    · rw [h1, h2]
      simp
  · have hread : p.read x v = p.receiveAuthenticationTypeResponse x v := by
      simp only [VncServerProtocol.read, hs]
    rw [hread, receiveAuthenticationTypeResponse_false]
    simp
  · have hread : p.read x v = p.receiveAuthenticationMessage x v := by
      simp only [VncServerProtocol.read, hs]
    rw [hread]
    rcases receiveAuthenticationMessage_result x v hk p with ⟨h1, h2⟩ | ⟨h1, h2⟩
    · rw [h1, h2]
      simp
    · rw [h1, h2]
      simp [hs]
  · have hread : p.read x v = p.processAccessControl x v := by
      simp only [VncServerProtocol.read, hs]
    have hres := processAccessControl_result x v hk p hs
    rw [hs] at hres
    rw [hread]
    simp only [ne_eq, not_true_eq_false, false_implies, true_implies, true_and,
      not_false_eq_true, reduceCtorEq]
    refine ⟨?_, hres, ?_⟩
    · intro h
      exact (hres.1 (hres.2.2.mp h)).1
    · trivial
  · have hread : p.read x v = p.processFramebufferInit := by
      simp only [VncServerProtocol.read, hs]
    rw [hread]
    rcases processFramebufferInit_cases p with h | ⟨h1, h2⟩
    · rw [h]
      simp [hs]
    · rw [h1, h2]
      simp
  · have hread : p.read x v = (false, p) := by simp [VncServerProtocol.read, hs]
    rw [hread]
    simp [hs]
  · have hread : p.read x v = (false, p.socketClose) := by simp [VncServerProtocol.read, hs]
    have hs2 : p.m_client.protocolState = State.Close := hs
    rw [hread]
    simp [hs2, VncServerProtocol.socketClose, QIODevice.close, VncServerProtocol.state]

/-! ## Delivery of framebuffer updates -/

theorem sendLoop_eq (messages : List QByteArray) (fuel : Nat) :
    ∀ (c : DemoServerConnection) (sentUpdates : Bool),
      0 ≤ c.m_framebufferUpdateMessageIndex →
      c.m_framebufferUpdateMessageIndex + fuel = messages.length →
      DemoServerConnection.sendLoop messages fuel c sentUpdates
        = some ({ c with
            m_socket := { c.m_socket with
              written := c.m_socket.written
                ++ (messages.drop c.m_framebufferUpdateMessageIndex.toNat).map Written.raw }
            m_framebufferUpdateMessageIndex := messages.length },
          sentUpdates || decide (0 < fuel)) := by
  induction fuel with
  | zero =>
    intro c sentUpdates h0 hlen
    have hi : c.m_framebufferUpdateMessageIndex = (messages.length : Int) := by simpa using hlen
    have hdrop : messages.drop c.m_framebufferUpdateMessageIndex.toNat = [] := by
      apply List.drop_of_length_le
      omega
    obtain ⟨socket, keyFrame, index⟩ := c
    simp only at hi hdrop
    subst hi
    simp only [DemoServerConnection.sendLoop]
    rw [hdrop]
    simp
  | succ fuel ih =>
    intro c sentUpdates h0 hlen
    have hlt : c.m_framebufferUpdateMessageIndex < (messages.length : Int) := by omega
    have hnat : c.m_framebufferUpdateMessageIndex.toNat < messages.length := by omega
    have hat : messageAt messages c.m_framebufferUpdateMessageIndex
        = some (messages[c.m_framebufferUpdateMessageIndex.toNat]) := by
      simp [messageAt, h0, List.getElem?_eq_getElem hnat]
    have hnext : (c.m_framebufferUpdateMessageIndex + 1).toNat
        = c.m_framebufferUpdateMessageIndex.toNat + 1 := by omega
    have hdrop : messages.drop c.m_framebufferUpdateMessageIndex.toNat
        = messages[c.m_framebufferUpdateMessageIndex.toNat]
          :: messages.drop (c.m_framebufferUpdateMessageIndex.toNat + 1) :=
      List.drop_eq_getElem_cons hnat
    simp only [DemoServerConnection.sendLoop, hlt, if_true, hat]
    rw [ih _ true (by simp only; omega) (by simp only; omega)]
    simp only [hnext]
    simp [QIODevice.write, -List.map_drop]
    rw [hdrop, List.map_cons]

/-- C19: when the key frame of the connection is the one of the server and the
message index is between 0 and the number of buffered messages,
`sendFramebufferUpdate` writes exactly the buffered messages from the message
index on, in the order of the buffer, each once, and leaves the message index at
the number of buffered messages; the key frame stays. With three of ten messages
delivered this is the fourth to the tenth message. The call schedules itself
again exactly when there was nothing to write. -/
theorem C19_catch_up (c : DemoServerConnection) (server : DemoServer)
    (hkey : server.keyFrame = c.m_keyFrame)
    (h0 : 0 ≤ c.m_framebufferUpdateMessageIndex)
    (hle : c.m_framebufferUpdateMessageIndex ≤ server.framebufferUpdateMessages.length) :
    c.sendFramebufferUpdate server
      = some ({ c with
          m_socket := { c.m_socket with
            written := c.m_socket.written
              ++ (server.framebufferUpdateMessages.drop
                    c.m_framebufferUpdateMessageIndex.toNat).map Written.raw }
          m_framebufferUpdateMessageIndex := server.framebufferUpdateMessages.length },
        decide (c.m_framebufferUpdateMessageIndex = server.framebufferUpdateMessages.length)) := by
  have hcond : ¬ (server.keyFrame ≠ c.m_keyFrame ∨
      c.m_framebufferUpdateMessageIndex > (server.framebufferUpdateMessages.length : Int)) := by
    intro h
    rcases h with h | h
    · exact h hkey
    · omega
  unfold DemoServerConnection.sendFramebufferUpdate
  simp only [hcond, if_false]
  rw [sendLoop_eq _ _ c false h0 (by omega)]
  by_cases hend : c.m_framebufferUpdateMessageIndex
      = (server.framebufferUpdateMessages.length : Int)
  · simp [hend]
  · have : 0 < ((server.framebufferUpdateMessages.length : Int)
        - c.m_framebufferUpdateMessageIndex).toNat := by omega
    simp [hend, this]

/-- C20: when the key frame of the server differs from the one of the
connection, or the message index exceeds the number of buffered messages,
`sendFramebufferUpdate` takes over the key frame of the server, starts again at
index 0 and writes every buffered message in the order of the buffer; the
message index ends at the number of buffered messages. -/
theorem C20_key_frame_reset (c : DemoServerConnection) (server : DemoServer)
    (hreset : server.keyFrame ≠ c.m_keyFrame ∨
      c.m_framebufferUpdateMessageIndex > (server.framebufferUpdateMessages.length : Int)) :
    c.sendFramebufferUpdate server
      = some ({ c with
          m_socket := { c.m_socket with
            written := c.m_socket.written
              ++ server.framebufferUpdateMessages.map Written.raw }
          m_keyFrame := server.keyFrame
          m_framebufferUpdateMessageIndex := server.framebufferUpdateMessages.length },
        decide (server.framebufferUpdateMessages = [])) := by
  unfold DemoServerConnection.sendFramebufferUpdate
  simp only [hreset, if_true]
  rw [sendLoop_eq _ _ _ false (by simp) (by simp)]
  cases hm : server.framebufferUpdateMessages with
  | nil => simp
  | cons m ms => simp

/-! ## Closed instances for access control, the state order and the demo relay -/

theorem Subclass.keepsState.neverRegresses {v : Subclass} (hk : v.keepsState) :
    v.neverRegresses := by
  constructor
  · intro q m
    left
    exact hk.1 q m
  · intro q
    left
    exact hk.2 q

theorem DemoServerProtocol_keepsState (token : QByteArray) :
    (DemoServerProtocol token).keepsState := by
  constructor
  · intro q m
    show (DemoServerProtocol.processAuthenticationMessage token q m).state = q.state
    unfold DemoServerProtocol.processAuthenticationMessage
    split_ifs <;> rfl
  · intro q
    rfl

theorem exampleExternals_scheme : ∀ suffix : QByteArray,
    exampleExternals.accessControlMessageScheme ++ suffix ≠ asciiBytes "RFB 003.008\n" ∧
    exampleExternals.accessControlMessageScheme ++ suffix
      ≠ [1, exampleExternals.rfbSecTypeVeyon] := by
  intro suffix
  constructor
  · intro h
    have h2 := congrArg List.head? h
    simp [exampleExternals, asciiBytes] at h2
  · intro h
    have h2 := congrArg List.head? h
    simp [exampleExternals, asciiBytes] at h2

theorem DemoServerProtocol_writesNo (token data : QByteArray) :
    (DemoServerProtocol token).writesNo data := by
  constructor
  · intro q m
    have h : (DemoServerProtocol.processAuthenticationMessage token q m).m_socket = q.m_socket ∧
        (DemoServerProtocol.processAuthenticationMessage token q m).m_serverInitMessage
          = q.m_serverInitMessage := by
      unfold DemoServerProtocol.processAuthenticationMessage
      split_ifs <;> exact ⟨rfl, rfl⟩
    show countWritten data
        (DemoServerProtocol.processAuthenticationMessage token q m).m_socket.written ≤ _ ∧
      (DemoServerProtocol.processAuthenticationMessage token q m).m_serverInitMessage = _
    rw [h.1, h.2]
    exact ⟨Nat.le_refl _, rfl⟩
  · intro q
    exact ⟨Nat.le_refl _, rfl⟩

/-- C11 fails as stated: for a denial with an empty reason nothing is written,
and for a denial with the reason `"no"` the failure message is written; in both
cases the protocol state is still AccessControl and not Close. -/
theorem C11_counterexample :
    ((exampleDenial []).performAccessControl
      (sessionIn State.AccessControl [])).m_client.accessControlState
        = AccessControlState.Failed ∧
    ((sessionIn State.AccessControl []).read exampleExternals
      (exampleDenial [])).2.m_socket.written.length = 0 ∧
    ((sessionIn State.AccessControl []).read exampleExternals
      (exampleDenial [])).2.state ≠ State.Close ∧
    ((sessionIn State.AccessControl []).read exampleExternals
      (exampleDenial (QStringLiteral "no"))).2.m_socket.written.length = 2 ∧
    ((sessionIn State.AccessControl []).read exampleExternals
      (exampleDenial (QStringLiteral "no"))).2.state ≠ State.Close := by
  decide

/-- A denial with the reason `"no"` closes the transport after the failure
message of two writes, and the protocol state stays AccessControl. -/
theorem C11_accessControl_denied_witness :
    (sessionIn State.AccessControl []).m_socket.isOpen = true ∧
    ((sessionIn State.AccessControl []).read exampleExternals
      (exampleDenial (QStringLiteral "no"))).2.m_socket.isOpen = false ∧
    ((sessionIn State.AccessControl []).read exampleExternals
      (exampleDenial (QStringLiteral "no"))).2.state
        = ((exampleDenial (QStringLiteral "no")).performAccessControl
            (sessionIn State.AccessControl [])).state :=
  have h := C11_accessControl_denied exampleExternals (exampleDenial (QStringLiteral "no"))
    (sessionIn State.AccessControl []) rfl (by decide) (by decide) (by decide)
  ⟨rfl, h.2.2.2.1, h.2.2.2.2⟩

/-- For the reason `"no"` and the scheme `"vacm://"` the name has nine bytes and
the header says so. -/
theorem C12_failedAccessControlMessage_witness :
    ((exampleDenial (QStringLiteral "no")).performAccessControl
      (sessionIn State.AccessControl [])).m_client.accessControlDetails ≠ [] ∧
    qFromBigEndian32 ((failedAccessControlHeader
      (exampleExternals.accessControlMessageScheme
        ++ QString.toUtf8 ((exampleDenial (QStringLiteral "no")).performAccessControl
            (sessionIn State.AccessControl [])).m_client.accessControlDetails).length).drop 20)
      = 9 :=
  ⟨by decide,
    (C12_failedAccessControlMessage exampleExternals
      ((exampleDenial (QStringLiteral "no")).performAccessControl
        (sessionIn State.AccessControl [])) (by decide)).2.2.2.2 (by decide)⟩

/-- C13 fails as stated: with an empty server-init message and the client init
byte buffered, `read()` in state FramebufferInit returns false and the state is
not Running. -/
theorem C13_counterexample :
    ((sessionIn State.FramebufferInit [1]).setServerInitMessage []).state
      = State.FramebufferInit ∧
    ((sessionIn State.FramebufferInit [1]).setServerInitMessage []).m_socket.bytesAvailable
      ≥ sz_rfbClientInitMsg ∧
    (((sessionIn State.FramebufferInit [1]).setServerInitMessage []).read exampleExternals
      (DemoServerProtocol [])).1 = false ∧
    (((sessionIn State.FramebufferInit [1]).setServerInitMessage []).read exampleExternals
      (DemoServerProtocol [])).2.state ≠ State.Running := by
  decide

/-- With a server-init message of four bytes the client init byte is accepted. -/
theorem C13_framebufferInit_witness :
    (sessionIn State.FramebufferInit [1]).m_serverInitMessage ≠ [] ∧
    ((sessionIn State.FramebufferInit [1]).read exampleExternals (DemoServerProtocol [])).1
      = true :=
  ⟨by decide,
    congrArg Prod.fst
      ((C13_framebufferInit exampleExternals (DemoServerProtocol [])
        (sessionIn State.FramebufferInit [1]) rfl (by decide)).1 (by decide))⟩

/-- The demo subclass never moves the protocol state backwards, and its read of
the banner is no regress. -/
theorem C14_states_never_regress_witness :
    (DemoServerProtocol []).neverRegresses ∧
    State.notBefore (sessionIn State.Protocol (asciiBytes "RFB 003.008\n")).state
      ((sessionIn State.Protocol (asciiBytes "RFB 003.008\n")).read exampleExternals
        (DemoServerProtocol [])).2.state :=
  ⟨(DemoServerProtocol_keepsState []).neverRegresses,
    (C14_states_never_regress exampleExternals (DemoServerProtocol [])
      (DemoServerProtocol_keepsState []).neverRegresses
      (sessionIn State.Protocol (asciiBytes "RFB 003.008\n"))).2.1⟩

/-- A demo session that is started twice and reads the banner twice: the
transport holds the banner once and the security-type list once. -/
theorem C15_written_at_most_once_witness :
    (DemoServerProtocol []).neverRegresses ∧
    (DemoServerProtocol []).writesNo (asciiBytes "RFB 003.008\n") ∧
    (DemoServerProtocol []).writesNo [1, exampleExternals.rfbSecTypeVeyon] ∧
    (∀ suffix,
      exampleExternals.accessControlMessageScheme ++ suffix ≠ asciiBytes "RFB 003.008\n" ∧
      exampleExternals.accessControlMessageScheme ++ suffix
        ≠ [1, exampleExternals.rfbSecTypeVeyon]) ∧
    countWritten [1, exampleExternals.rfbSecTypeVeyon]
      ((newSession [0, 1, 0, 1]).calls exampleExternals (DemoServerProtocol [])
        [Call.start, Call.start, Call.arrive (asciiBytes "RFB 003.008\n"), Call.read,
         Call.arrive (asciiBytes "RFB 003.008\n"), Call.read]).m_socket.written ≤ 1 ∧
    countWritten (asciiBytes "RFB 003.008\n")
      ((newSession [0, 1, 0, 1]).calls exampleExternals (DemoServerProtocol [])
        [Call.start, Call.start, Call.arrive (asciiBytes "RFB 003.008\n"), Call.read,
         Call.arrive (asciiBytes "RFB 003.008\n"), Call.read]).m_socket.written ≤ 1 :=
  have hscheme := exampleExternals_scheme
  have h := C15_written_at_most_once exampleExternals (DemoServerProtocol [])
    (DemoServerProtocol_keepsState []).neverRegresses (DemoServerProtocol_writesNo [] _)
    (DemoServerProtocol_writesNo [] _) hscheme (newSession [0, 1, 0, 1])
    ⟨by decide, by decide⟩
    [Call.start, Call.start, Call.arrive (asciiBytes "RFB 003.008\n"), Call.read,
     Call.arrive (asciiBytes "RFB 003.008\n"), Call.read]
  ⟨(DemoServerProtocol_keepsState []).neverRegresses, DemoServerProtocol_writesNo [] _,
    DemoServerProtocol_writesNo [] _, hscheme, h.1, h.2.1⟩

/-- The transport of the demo session after these calls: the banner, the
security-type list, and nothing else. -/
theorem demo_session_written :
    ((newSession [0, 1, 0, 1]).calls exampleExternals (DemoServerProtocol [])
      [Call.start, Call.start, Call.arrive (asciiBytes "RFB 003.008\n"), Call.read,
       Call.arrive (asciiBytes "RFB 003.008\n"), Call.read]).m_socket.written.map
        (fun w => match w with
          | Written.raw bytes => some bytes
          | Written.message _ => none)
      = [some (asciiBytes "RFB 003.008\n"), some [1, 40]] := by
  decide

/-- The demo strategy with the access token `s3c`: the token presented as a
string is accepted as well as the token presented as a byte array, and the
string `s3d` is refused. -/
theorem demo_token_presented :
    (DemoServerProtocol.processAuthenticationMessage [115, 51, 99]
      { sessionIn State.Authenticating [] with
        m_client := { authType := RfbVeyonAuthType.Token, authState := AuthState.Token } }
      { values := [QVariant.string (QStringLiteral "s3c")] }).m_client.authState
        = AuthState.Successful ∧
    (DemoServerProtocol.processAuthenticationMessage [115, 51, 99]
      { sessionIn State.Authenticating [] with
        m_client := { authType := RfbVeyonAuthType.Token, authState := AuthState.Token } }
      { values := [QVariant.byteArray [115, 51, 99]] }).m_client.authState
        = AuthState.Successful ∧
    (DemoServerProtocol.processAuthenticationMessage [115, 51, 99]
      { sessionIn State.Authenticating [] with
        m_client := { authType := RfbVeyonAuthType.Token, authState := AuthState.Token } }
      { values := [QVariant.string (QStringLiteral "s3d")] }).m_client.authState
        = AuthState.Failed ∧
    QVariant.toByteArray (QVariant.int (-12)) = asciiBytes "-12" ∧
    QVariant.toQString (QVariant.byteArray [97, 98]) = QStringLiteral "ab" := by
  decide

/-- C16 fails as stated: the selection `{Token, "alice"}` moves a demo session
from AuthenticationTypes to Authenticating, records the user name and writes
the acknowledgement, while `read()` returns false. -/
theorem C16_counterexample :
    (sessionIn State.AuthenticationTypes [8, 1, 2, 5, 97, 108, 105, 99, 101]).state
      = State.AuthenticationTypes ∧
    ((sessionIn State.AuthenticationTypes [8, 1, 2, 5, 97, 108, 105, 99, 101]).read
      exampleExternals (DemoServerProtocol [])).1 = false ∧
    ((sessionIn State.AuthenticationTypes [8, 1, 2, 5, 97, 108, 105, 99, 101]).read
      exampleExternals (DemoServerProtocol [])).2.state = State.Authenticating ∧
    ((sessionIn State.AuthenticationTypes [8, 1, 2, 5, 97, 108, 105, 99, 101]).read
      exampleExternals (DemoServerProtocol [])).2.m_client.username
        = [97, 108, 105, 99, 101] ∧
    (sessionIn State.AuthenticationTypes [8, 1, 2, 5, 97, 108, 105, 99, 101]).m_socket.written.length
      = 0 ∧
    ((sessionIn State.AuthenticationTypes [8, 1, 2, 5, 97, 108, 105, 99, 101]).read
      exampleExternals (DemoServerProtocol [])).2.m_socket.written.length = 1 := by
  decide

/-- The demo subclass leaves the protocol state alone, and its read of a
selection message returns false. -/
theorem C16_read_result_witness :
    (DemoServerProtocol []).keepsState ∧
    ((sessionIn State.AuthenticationTypes [8, 1, 2, 5, 97, 108, 105, 99, 101]).read
      exampleExternals (DemoServerProtocol [])).1 = false :=
  ⟨DemoServerProtocol_keepsState [],
    (C16_read_result exampleExternals (DemoServerProtocol []) (DemoServerProtocol_keepsState [])
      (sessionIn State.AuthenticationTypes [8, 1, 2, 5, 97, 108, 105, 99, 101])).2.2.1 rfl⟩

/-- The example of the specification: with the key frame of the server and three
of ten messages delivered, the call writes the fourth to the tenth message in
order and nothing else, and schedules no retry. -/
theorem C19_catch_up_witness :
    (exampleDemoConnection 7 3).sendFramebufferUpdate exampleDemoServer
      = some (
          { m_socket :=
              { isOpen := true
                readBuffer := []
                written := [Written.raw [4], Written.raw [5], Written.raw [6], Written.raw [7],
                  Written.raw [8], Written.raw [9], Written.raw [10]] }
            m_keyFrame := 7
            m_framebufferUpdateMessageIndex := 10 }, false) :=
  C19_catch_up (exampleDemoConnection 7 3) exampleDemoServer rfl (by decide) (by decide)

/-- A connection with the stale key frame 6 and message index 3 gets all ten
messages of the key frame 7 of the server, from the first on. -/
theorem C20_key_frame_reset_witness :
    (exampleDemoConnection 6 3).sendFramebufferUpdate exampleDemoServer
      = some (
          { m_socket :=
              { isOpen := true
                readBuffer := []
                written := [Written.raw [1], Written.raw [2], Written.raw [3], Written.raw [4],
                  Written.raw [5], Written.raw [6], Written.raw [7], Written.raw [8],
                  Written.raw [9], Written.raw [10]] }
            m_keyFrame := 7
            m_framebufferUpdateMessageIndex := 10 }, false) :=
  C20_key_frame_reset (exampleDemoConnection 6 3) exampleDemoServer (Or.inl (by decide))

/-! ## Environment strings -/

theorem QString.split_ne_nil (sep : Nat) (s : QString) : QString.split sep s ≠ [] := by
  cases s with
  | nil => simp [QString.split]
  | cons c cs =>
    simp only [QString.split]
    split_ifs
    · simp
    · split <;> simp

theorem QString.split_no_sep (sep : Nat) (s : QString) (h : sep ∉ s) :
    QString.split sep s = [s] := by
  induction s with
  | nil => rfl
  | cons c cs ih =>
    have hc : c ≠ sep := fun e => h (by simp [e])
    have hcs : sep ∉ cs := fun e => h (by simp [e])
    simp [QString.split, hc, ih hcs]

theorem QString.split_append_sep (sep : Nat) (name value : QString) (h : sep ∉ name) :
    QString.split sep (name ++ sep :: value) = name :: QString.split sep value := by
  induction name with
  | nil => simp [QString.split]
  | cons c cs ih =>
    have hc : c ≠ sep := fun e => h (by simp [e])
    have hcs : sep ∉ cs := fun e => h (by simp [e])
    simp [QString.split, hc, ih hcs]

theorem QStringList.join_split (sep : Nat) (s : QString) :
    QStringList.join sep (QString.split sep s) = s := by
  induction s with
  | nil => rfl
  | cons c cs ih =>
    simp only [QString.split]
    split_ifs with hc
    · have hne := QString.split_ne_nil sep cs
      cases hs : QString.split sep cs with
      | nil => exact absurd hs hne
      | cons p ps =>
        rw [hs] at ih
        simp [QStringList.join, ih, hc]
    · have hne := QString.split_ne_nil sep cs
      cases hs : QString.split sep cs with
      | nil => exact absurd hs hne
      | cons p ps =>
        rw [hs] at ih
        cases ps with
        | nil =>
          simp only [QStringList.join] at ih ⊢
          rw [ih]
        | cons q qs =>
          simp only [QStringList.join] at ih ⊢
          rw [← ih]
          rfl

theorem QString.split_length_pos (sep : Nat) (s : QString) :
    1 ≤ (QString.split sep s).length := by
  have := QString.split_ne_nil sep s
  cases h : QString.split sep s with
  | nil => exact absurd h this
  | cons p ps => simp

theorem environmentStep_entry (env : EnvironmentVariables) (name value : QString)
    (h : 61 ∉ name) :
    environmentStep env (name ++ 61 :: value) = env.assign name value := by
  have hlen := QString.split_length_pos 61 value
  simp only [environmentStep, QString.split_append_sep 61 name value h, List.length_cons,
    List.headD_cons, List.drop_succ_cons, List.drop_zero, QStringList.join_split]
  rw [if_pos (by omega)]

theorem environmentStep_no_entry (env : EnvironmentVariables) (s : QString) (h : 61 ∉ s) :
    environmentStep env s = env := by
  simp [environmentStep, QString.split_no_sep 61 s h]

theorem QString.name_value (s : QString) :
    61 ∉ s ∨ ∃ name value, 61 ∉ name ∧ s = name ++ 61 :: value := by
  induction s with
  | nil => left; simp
  | cons c cs ih =>
    by_cases hc : c = 61
    · right
      exact ⟨[], cs, by simp, by simp [hc]⟩
    · rcases ih with h | ⟨name, value, hn, hs⟩
      · left
        intro hmem
        rcases List.mem_cons.mp hmem with e | e
        · exact hc e.symm
        · exact h e
      · right
        refine ⟨c :: name, value, ?_, by simp [hs]⟩
        intro hmem
        rcases List.mem_cons.mp hmem with e | e
        · exact hc e.symm
        · exact hn e

theorem EnvironmentVariables.value_assign_self (env : EnvironmentVariables)
    (name value : QString) : (env.assign name value).value name = some value := by
  simp [EnvironmentVariables.assign, EnvironmentVariables.value]

theorem find_filter_other (es : List (QString × QString)) (name other : QString)
    (h : name ≠ other) :
    (es.filter (fun entry => decide (entry.1 ≠ name))).find?
        (fun entry => decide (entry.1 = other))
      = es.find? (fun entry => decide (entry.1 = other)) := by
  induction es with
  | nil => rfl
  | cons e es ih =>
    by_cases he : e.1 = name
    · have hne : ¬ e.1 = other := fun e2 => h (he.symm.trans e2)
      rw [List.filter_cons_of_neg (by simpa using he), List.find?_cons_of_neg _ (by simpa using hne)]
      exact ih
    · rw [List.filter_cons_of_pos (by simpa using he)]
      by_cases ho : e.1 = other
      · rw [List.find?_cons_of_pos _ (by simpa using ho), List.find?_cons_of_pos _ (by simpa using ho)]
      · rw [List.find?_cons_of_neg _ (by simpa using ho), List.find?_cons_of_neg _ (by simpa using ho)]
        exact ih

theorem EnvironmentVariables.value_assign_other (env : EnvironmentVariables)
    (name value other : QString) (h : name ≠ other) :
    (env.assign name value).value other = env.value other := by
  simp only [EnvironmentVariables.assign, EnvironmentVariables.value]
  rw [List.find?_cons_of_neg _ (by simpa using h), find_filter_other env name other h]

theorem environmentStep_other (env : EnvironmentVariables) (s name : QString)
    (h : ∀ value, s ≠ name ++ 61 :: value) :
    (environmentStep env s).value name = env.value name := by
  rcases QString.name_value s with hs | ⟨n, v, hn, hs⟩
  · rw [environmentStep_no_entry env s hs]
  · subst hs
    rw [environmentStep_entry env n v hn]
    apply EnvironmentVariables.value_assign_other
    intro e
    exact h v (by rw [e])

theorem foldl_environmentStep_other (post : List QString) (name : QString)
    (h : ∀ s ∈ post, ∀ value, s ≠ name ++ 61 :: value) :
    ∀ env : EnvironmentVariables,
      (post.foldl environmentStep env).value name = env.value name := by
  induction post with
  | nil => intro env; rfl
  | cons s ss ih =>
    intro env
    simp only [List.foldl_cons]
    rw [ih (fun t ht => h t (List.mem_cons_of_mem _ ht))]
    exact environmentStep_other env s name (h s (List.mem_cons_self _ _))

/-- C30: `currentSessionEnvironmentVariables` on a list of environment strings.
A string `name=value` whose name holds no `=` assigns the value, every `=` of
it included, to the name; a string without `=` assigns nothing; the value of a
name in the result is the value of the last string of the list that has the
form `name=value`, and a name with no such string has no entry. -/
theorem C30_environment_variables (name : QString) :
    (∀ (env : EnvironmentVariables) (value : QString), 61 ∉ name →
      environmentStep env (name ++ 61 :: value) = env.assign name value ∧
      (environmentStep env (name ++ 61 :: value)).value name = some value) ∧
    (∀ (env : EnvironmentVariables) (s : QString), 61 ∉ s → environmentStep env s = env) ∧
    (∀ (before after : List QString) (value : QString), 61 ∉ name →
      (∀ s ∈ after, ∀ v, s ≠ name ++ 61 :: v) →
      (currentSessionEnvironmentVariables (before ++ (name ++ 61 :: value) :: after)).value name
        = some value) ∧
    (∀ envStrings : List QString, (∀ s ∈ envStrings, ∀ v, s ≠ name ++ 61 :: v) →
      (currentSessionEnvironmentVariables envStrings).value name = none) := by
  refine ⟨?_, environmentStep_no_entry, ?_, ?_⟩
  · intro env value h
    refine ⟨environmentStep_entry env name value h, ?_⟩
    rw [environmentStep_entry env name value h]
    exact EnvironmentVariables.value_assign_self env name value
  · intro before after value h hafter
    simp only [currentSessionEnvironmentVariables, List.foldl_append, List.foldl_cons]
    rw [foldl_environmentStep_other after name hafter, environmentStep_entry _ name value h]
    exact EnvironmentVariables.value_assign_self _ name value
  · intro envStrings h
    simp only [currentSessionEnvironmentVariables]
    rw [foldl_environmentStep_other envStrings name h]
    rfl

/-! ## The message index of the demo connection -/

theorem sendFramebufferUpdate_eq (c : DemoServerConnection) (server : DemoServer)
    (h0 : 0 ≤ c.m_framebufferUpdateMessageIndex) :
    ∃ start : Int, 0 ≤ start ∧ start ≤ server.framebufferUpdateMessages.length ∧
      c.sendFramebufferUpdate server
        = some ({ m_socket := { c.m_socket with
                    written := c.m_socket.written
                      ++ (server.framebufferUpdateMessages.drop start.toNat).map Written.raw }
                  m_keyFrame := server.keyFrame
                  m_framebufferUpdateMessageIndex := server.framebufferUpdateMessages.length },
                decide (start = server.framebufferUpdateMessages.length)) := by
  by_cases hreset : server.keyFrame ≠ c.m_keyFrame ∨
      c.m_framebufferUpdateMessageIndex > (server.framebufferUpdateMessages.length : Int)
  · refine ⟨0, Int.le_refl 0, by omega, ?_⟩
    unfold DemoServerConnection.sendFramebufferUpdate
    simp only [hreset, if_true]
    rw [sendLoop_eq _ _ _ false (by simp) (by simp)]
    cases hm : server.framebufferUpdateMessages with
    | nil => simp
    | cons m ms =>
      have hne : ¬ (0 : Int) = (ms.length : Int) + 1 := by omega
      simp [hne]
  · have hkey : server.keyFrame = c.m_keyFrame := by
      by_contra hne
      exact hreset (Or.inl hne)
    have hle : c.m_framebufferUpdateMessageIndex
        ≤ (server.framebufferUpdateMessages.length : Int) := by
      by_contra hgt
      exact hreset (Or.inr (by omega))
    refine ⟨c.m_framebufferUpdateMessageIndex, h0, hle, ?_⟩
    unfold DemoServerConnection.sendFramebufferUpdate
    simp only [hreset, if_false]
    rw [sendLoop_eq _ _ c false h0 (by omega)]
    by_cases hend : c.m_framebufferUpdateMessageIndex
        = (server.framebufferUpdateMessages.length : Int)
    · simp [hend, hkey]
    · have : 0 < ((server.framebufferUpdateMessages.length : Int)
          - c.m_framebufferUpdateMessageIndex).toNat := by omega
      simp [hend, this, hkey]

theorem updates_from (servers : List DemoServer) :
    ∀ c : DemoServerConnection, 0 ≤ c.m_framebufferUpdateMessageIndex →
      ∃ c1, c.updates servers = some c1 ∧ 0 ≤ c1.m_framebufferUpdateMessageIndex ∧
        ∀ server, servers.getLast? = some server →
          c1.m_framebufferUpdateMessageIndex = server.framebufferUpdateMessages.length ∧
          c1.m_keyFrame = server.keyFrame := by
  induction servers with
  | nil =>
    intro c h0
    exact ⟨c, rfl, h0, by simp⟩
  | cons s ss ih =>
    intro c h0
    obtain ⟨start, _, _, hcall⟩ := sendFramebufferUpdate_eq c s h0
    obtain ⟨c1, hc1, h1, hlast⟩ := ih
      { m_socket := { c.m_socket with
          written := c.m_socket.written
            ++ (s.framebufferUpdateMessages.drop start.toNat).map Written.raw }
        m_keyFrame := s.keyFrame
        m_framebufferUpdateMessageIndex := s.framebufferUpdateMessages.length }
      (by simp)
    refine ⟨c1, ?_, h1, ?_⟩
    · simp only [DemoServerConnection.updates, hcall]
      exact hc1
    · intro server hserver
      cases ss with
      | nil =>
        simp only [List.getLast?_singleton, Option.some.injEq] at hserver
        subst hserver
        simp only [DemoServerConnection.updates, Option.some.injEq] at hc1
        subst hc1
        exact ⟨rfl, rfl⟩
      | cons t ts =>
        rw [List.getLast?_cons_cons] at hserver
        exact hlast server hserver

theorem messageAt_isSome (messages : List QByteArray) (index : Int) :
    (messageAt messages index).isSome = true ↔ (0 ≤ index ∧ index < messages.length) := by
  unfold messageAt
  split_ifs with h
  · by_cases hlt : index.toNat < messages.length
    · rw [List.getElem?_eq_getElem hlt]
      simp only [Option.isSome_some, true_iff]
      exact ⟨h, by omega⟩
    · rw [List.getElem?_eq_none (by omega)]
      simp only [Option.isSome_none, Bool.false_eq_true, false_iff]
      intro hc
      omega
  · constructor
    · intro hs
      simp at hs
    · intro hlt
      exact absurd hlt.1 h

/-- C27: from the constructed connection (message index 0, key frame -1), every
sequence of calls of `sendFramebufferUpdate` runs without an access out of
range, and after it the message index is not negative and, after at least one
call, equals the number of buffered messages that the last call saw, with the
key frame of the server recorded. Every further call again makes no access out
of range (an access `framebufferUpdateMessages[index]` succeeds exactly for
`0 <= index < count`), leaves the message index at the number of buffered
messages and the key frame at the one of the server, and schedules a retry
exactly when it wrote no message. -/
theorem C27_bookmark_safety (socket : QIODevice) (servers : List DemoServer) :
    (∀ (messages : List QByteArray) (index : Int),
      (messageAt messages index).isSome = true ↔ (0 ≤ index ∧ index < messages.length)) ∧
    ∃ c : DemoServerConnection,
      (DemoServerConnection.create socket).updates servers = some c ∧
      0 ≤ c.m_framebufferUpdateMessageIndex ∧
      (∀ last, servers.getLast? = some last →
        c.m_framebufferUpdateMessageIndex = last.framebufferUpdateMessages.length ∧
        c.m_keyFrame = last.keyFrame) ∧
      ∀ server : DemoServer, ∃ (c1 : DemoServerConnection) (retry : Bool),
        c.sendFramebufferUpdate server = some (c1, retry) ∧
        c1.m_framebufferUpdateMessageIndex = server.framebufferUpdateMessages.length ∧
        c1.m_keyFrame = server.keyFrame ∧
        (retry = true ↔ c1.m_socket.written = c.m_socket.written) := by
  refine ⟨messageAt_isSome, ?_⟩
  obtain ⟨c, hc, h0, hlast⟩ := updates_from servers (DemoServerConnection.create socket)
    (by simp [DemoServerConnection.create])
  refine ⟨c, hc, h0, hlast, ?_⟩
  intro server
  obtain ⟨start, hs0, hsle, hcall⟩ := sendFramebufferUpdate_eq c server h0
  refine ⟨_, _, hcall, rfl, rfl, ?_⟩
  simp only [decide_eq_true_eq, List.append_right_eq_self, List.map_eq_nil_iff,
    List.drop_eq_nil_iff]
  constructor
  · intro h
    omega
  · intro h
    omega

/-! ## Wake on LAN -/

theorem wolDatagram_eq (m : QByteArray) (h : m.length = 6) :
    wolDatagram m = List.replicate 6 0xff ++ (List.replicate 16 m).flatten := by
  match m, h with
  | [a, b, c, d, e, f], _ =>
    simp [wolDatagram, QByteArray.replaceAt, MacAddressSize, MagicPacketFieldCount,
      List.range', List.replicate, List.flatten]

theorem broadcast_entries_sent (writeDatagram : QByteArray → QHostAddress → Nat → Int)
    (datagram : QByteArray) (entries : List (Option QHostAddress)) :
    ∀ state : Bool × List SentDatagram,
      (entries.foldl
          (fun (state : Bool × List SentDatagram) broadcast =>
            match broadcast with
            | some host =>
              (state.1 && decide (writeDatagram datagram host 9 = datagram.length),
               state.2 ++ [{ datagram := datagram, host := host, port := 9 }])
            | none => state)
          state).2
        = state.2 ++ (entries.filterMap id).map
            (fun host => ({ datagram := datagram, host := host, port := 9 } : SentDatagram)) := by
  induction entries with
  | nil => intro state; simp
  | cons entry entries ih =>
    intro state
    simp only [List.foldl_cons]
    rw [ih]
    cases entry with
    | none => simp
    | some host => simp

theorem broadcast_interfaces_sent (writeDatagram : QByteArray → QHostAddress → Nat → Int)
    (datagram : QByteArray) (networkInterfaces : List (List (Option QHostAddress))) :
    ∀ state : Bool × List SentDatagram,
      (networkInterfaces.foldl
          (fun state networkInterface =>
            networkInterface.foldl
              (fun (state : Bool × List SentDatagram) broadcast =>
                match broadcast with
                | some host =>
                  (state.1 && decide (writeDatagram datagram host 9 = datagram.length),
                   state.2 ++ [{ datagram := datagram, host := host, port := 9 }])
                | none => state)
              state)
          state).2
        = state.2 ++ (networkInterfaces.flatten.filterMap id).map
            (fun host => ({ datagram := datagram, host := host, port := 9 } : SentDatagram)) := by
  induction networkInterfaces with
  | nil => intro state; simp
  | cons networkInterface rest ih =>
    intro state
    simp only [List.foldl_cons]
    rw [ih, broadcast_entries_sent]
    simp

theorem broadcastWOLPacket_eq (writeDatagram : QByteArray → QHostAddress → Nat → Int)
    (networkInterfaces : List (List (Option QHostAddress))) (macAddress : QString)
    (h : (QByteArray.fromHex (QString.toUtf8 (removeDelimiters macAddress))).length = 6) :
    (broadcastWOLPacket writeDatagram networkInterfaces macAddress).2
      = (QHostAddress.Broadcast :: networkInterfaces.flatten.filterMap id).map
          (fun host =>
            ({ datagram := wolDatagram
                (QByteArray.fromHex (QString.toUtf8 (removeDelimiters macAddress)))
               host := host
               port := 9 } : SentDatagram)) := by
  have hne : macAddress.isEmpty = false := by
    cases macAddress with
    | nil => simp [removeDelimiters, QString.remove, QString.toUtf8, QByteArray.fromHex,
        hexPairs] at h
    | cons c cs => rfl
  unfold broadcastWOLPacket
  simp only [hne, Bool.false_eq_true, if_false, h, MacAddressSize, ne_eq, not_true_eq_false]
  rw [broadcast_interfaces_sent]
  simp

/-- C24: for every MAC address string whose characters, the delimiters removed,
decode to six bytes m, `broadcastWOLPacket` builds the datagram of 102 bytes
that is six bytes 0xff followed by sixteen copies of m, writes it first to
`QHostAddress::Broadcast` and then to the broadcast address of every address
entry that has one, each time to port 9, and writes nothing else; a string that
differs in the delimiters `:`, `-` and `.` only gives the same datagrams. -/
theorem C24_magic_packet (writeDatagram : QByteArray → QHostAddress → Nat → Int)
    (networkInterfaces : List (List (Option QHostAddress))) (macAddress : QString)
    (h : (QByteArray.fromHex (QString.toUtf8 (removeDelimiters macAddress))).length = 6) :
    wolDatagram (QByteArray.fromHex (QString.toUtf8 (removeDelimiters macAddress)))
      = List.replicate 6 0xff ++ (List.replicate 16
          (QByteArray.fromHex (QString.toUtf8 (removeDelimiters macAddress)))).flatten ∧
    (wolDatagram (QByteArray.fromHex (QString.toUtf8 (removeDelimiters macAddress)))).length
      = 102 ∧
    (broadcastWOLPacket writeDatagram networkInterfaces macAddress).2
      = (QHostAddress.Broadcast :: networkInterfaces.flatten.filterMap id).map
          (fun host =>
            ({ datagram := wolDatagram
                (QByteArray.fromHex (QString.toUtf8 (removeDelimiters macAddress)))
               host := host
               port := 9 } : SentDatagram)) ∧
    (∀ other : QString, removeDelimiters other = removeDelimiters macAddress →
      broadcastWOLPacket writeDatagram networkInterfaces other
        = broadcastWOLPacket writeDatagram networkInterfaces macAddress) := by
  have hd := wolDatagram_eq _ h
  refine ⟨hd, ?_, broadcastWOLPacket_eq writeDatagram networkInterfaces macAddress h, ?_⟩
  · rw [hd]
    simp [h]
  · intro other hother
    have hne : ∀ s : QString,
        (QByteArray.fromHex (QString.toUtf8 (removeDelimiters s))).length = 6 →
        s.isEmpty = false := by
      intro s hs
      cases s with
      | nil => simp [removeDelimiters, QString.remove, QString.toUtf8, QByteArray.fromHex,
          hexPairs] at hs
      | cons c cs => rfl
    have h1 := hne macAddress h
    have h2 := hne other (by rw [hother]; exact h)
    unfold broadcastWOLPacket
    simp only [h1, h2, hother]

theorem hexPairs_length : ∀ digits : List Nat, (hexPairs digits).length = (digits.length + 1) / 2
  | [] => rfl
  | [_] => by simp [hexPairs]
  | _ :: _ :: rest => by
    simp only [hexPairs, List.length_cons, hexPairs_length rest]
    omega

set_option maxRecDepth 100000 in
/-- C29, the code at inputs that the claim says are refused: the number of
bytes that `broadcastWOLPacket` checks is half the number of hexadecimal digits
of the string, rounded up, whatever other characters stand between them; so the
string `00:11:22:33:44:5` with 11 digits and the string `zz:00:11:22:33:44:55`
are accepted and a datagram is written for each. -/
theorem C29_invalid_mac_accepted :
    (∀ s : QString,
      (QByteArray.fromHex (QString.toUtf8 (removeDelimiters s))).length
        = (((QString.toUtf8 (removeDelimiters s)).filterMap fromHexDigit).length + 1) / 2) ∧
    removeDelimiters (QStringLiteral "00:11:22:33:44:5") = QStringLiteral "00112233445" ∧
    broadcastWOLPacket (fun datagram _ _ => datagram.length) []
        (QStringLiteral "00:11:22:33:44:5")
      = (true, [{ datagram := wolDatagram [0x00, 0x01, 0x12, 0x23, 0x34, 0x45]
                  host := QHostAddress.Broadcast
                  port := 9 }]) ∧
    removeDelimiters (QStringLiteral "zz:00:11:22:33:44:55") = QStringLiteral "zz001122334455" ∧
    broadcastWOLPacket (fun datagram _ _ => datagram.length) []
        (QStringLiteral "zz:00:11:22:33:44:55")
      = (true, [{ datagram := wolDatagram [0x00, 0x11, 0x22, 0x33, 0x44, 0x55]
                  host := QHostAddress.Broadcast
                  port := 9 }]) := by
  refine ⟨?_, by decide, by decide, by decide, by decide⟩
  intro s
  simp [QByteArray.fromHex, hexPairs_length]

/-! ## The shell command `run` -/

/-- C25, the code as it is: `handle_run` never opens the file, so
`canReadLine()` is false at once; for a file that exists it executes no command
and returns Successful, whatever the file holds, and for a file that does not
exist it executes no command and returns Failed. The file `script` with the
lines `a b` and `c d` is an instance. -/
theorem C25_run_executes_nothing :
    (∀ (fs : FileSystem) (arguments : List QString),
      ShellCommands.handle_run fs arguments
        = if (fs (arguments.headD [])).isSome then (RunResult.Successful, [])
          else (RunResult.Failed, [])) ∧
    exampleFileSystem (QStringLiteral "script") = some (asciiBytes "a b\nc d\n") ∧
    ShellCommands.handle_run exampleFileSystem [QStringLiteral "script"]
      = (RunResult.Successful, []) := by
  refine ⟨?_, by decide, by decide⟩
  intro fs arguments
  unfold ShellCommands.handle_run
  generalize arguments.headD [] = name
  cases h : fs name with
  | none => simp [QFile.create, h]
  | some contents =>
    simp [QFile.create, h, ShellCommands.runLines, QFile.canReadLine]

/-! ## Messages of the demo client -/

theorem socket_readBuffer_eta (d : QIODevice) (buffer : QByteArray) (h : d.readBuffer = buffer) :
    ({ d with readBuffer := buffer } : QIODevice) = d := by
  subst h
  rfl

theorem nEncodings_take (a b c d : Nat) (rest : QByteArray) (n : Nat) (h : 4 ≤ n) :
    nEncodings ((a :: b :: c :: d :: rest).take n) = nEncodings (a :: b :: c :: d :: rest) := by
  obtain ⟨k, rfl⟩ : ∃ k, n = k + 4 := ⟨n - 4, by omega⟩
  simp [nEncodings, List.take]

theorem receiveClientMessage_setEncodings (x : Externals) (rfbMessageType : Int)
    (server : DemoServer) (c : DemoServerConnection) (first : Nat) (body : QByteArray)
    (hbuf : c.m_socket.readBuffer = first :: body) (ht : toChar first = rfbSetEncodings) :
    c.receiveClientMessage x rfbMessageType server
      = if 4 ≤ (first :: body).length ∧
            4 + nEncodings (first :: body) * 4 ≤ (first :: body).length then
          some (true, { c with m_socket := { c.m_socket with
            readBuffer := (first :: body).drop (4 + nEncodings (first :: body) * 4) } })
        else some (false, c) := by
  have h1 : List.take 1 (first :: body) = [first] := rfl
  unfold DemoServerConnection.receiveClientMessage
  simp only [QIODevice.peek, hbuf, h1, ht, if_true,
    QIODevice.bytesAvailable, sz_rfbSetEncodingsMsg, ge_iff_le, QIODevice.read]
  by_cases h4 : 4 ≤ (first :: body).length
  · match body, h4 with
    | b :: c1 :: d :: rest, h4' =>
      have hlen : (List.take 4 (first :: b :: c1 :: d :: rest)).length = 4 := by simp
      have hn := nEncodings_take first b c1 d rest 4 (Nat.le_refl 4)
      simp only [hlen, h4', if_true, hn, true_and]
      by_cases htot : 4 + nEncodings (first :: b :: c1 :: d :: rest) * 4
          ≤ (first :: b :: c1 :: d :: rest).length
      · have htake : (List.take (4 + nEncodings (first :: b :: c1 :: d :: rest) * 4)
            (first :: b :: c1 :: d :: rest)).length
            = 4 + nEncodings (first :: b :: c1 :: d :: rest) * 4 := by
          rw [List.length_take]
          omega
        simp only [htot, if_true, htake, decide_True]
      · simp only [htot, if_false]
  · simp only [h4, if_false, false_and]

theorem receiveClientMessage_feature (x : Externals) (rfbMessageType : Int)
    (server : DemoServer) (c : DemoServerConnection) (first : Nat) (body : QByteArray)
    (hx : ∀ buffer, x.messageReady buffer = true →
      ∃ values rest, x.messageReceive buffer = (some values, rest))
    (hbuf : c.m_socket.readBuffer = first :: body) (ht : toChar first ≠ rfbSetEncodings)
    (hf : toChar first = rfbMessageType) :
    c.receiveClientMessage x rfbMessageType server
      = if x.messageReady body = true then
          some (true, { c with m_socket := { c.m_socket with
            readBuffer := (x.messageReceive body).2 } })
        else some (false, c) := by
  have h1 : List.take 1 (first :: body) = [first] := rfl
  have ht1 : ¬ rfbMessageType = rfbSetEncodings := hf ▸ ht
  unfold DemoServerConnection.receiveClientMessage
  simp only [QIODevice.peek, hbuf, h1, hf, ht1, if_false,
    if_true, QIODevice.getChar, List.drop_succ_cons, List.drop_zero,
    VariantArrayMessage.isReadyForReceive, VariantArrayMessage.receive, QIODevice.ungetChar]
  by_cases hready : x.messageReady body = true
  · obtain ⟨values, rest, hrecv⟩ := hx body hready
    simp only [hready, if_true, hrecv]
  · simp only [hready, if_false]
    have := socket_readBuffer_eta c.m_socket (first :: body) hbuf
    simp only [Bool.false_eq_true, if_false]
    congr 2
    rw [this]

theorem receiveClientMessage_other (x : Externals) (rfbMessageType : Int)
    (server : DemoServer) (c : DemoServerConnection) (first : Nat) (body : QByteArray)
    (h0 : 0 ≤ c.m_framebufferUpdateMessageIndex)
    (hbuf : c.m_socket.readBuffer = first :: body) (ht : toChar first ≠ rfbSetEncodings)
    (hf : toChar first ≠ rfbMessageType) :
    (m_rfbClientToServerMessageSizes.lookup (toChar first) = none →
      c.receiveClientMessage x rfbMessageType server
        = some (false, { c with m_socket := c.m_socket.close })) ∧
    (∀ size, m_rfbClientToServerMessageSizes.lookup (toChar first) = some size →
      (¬ size ≤ (first :: body).length →
        c.receiveClientMessage x rfbMessageType server = some (false, c)) ∧
      (size ≤ (first :: body).length →
        ∃ c1, c.receiveClientMessage x rfbMessageType server = some (true, c1) ∧
          c1.m_socket.readBuffer = (first :: body).drop size)) := by
  have h1 : List.take 1 (first :: body) = [first] := rfl
  constructor
  · intro hnone
    unfold DemoServerConnection.receiveClientMessage
    simp only [QIODevice.peek, hbuf, h1, ht, if_false, hf, hnone]
  · intro size hsome
    constructor
    · intro hshort
      unfold DemoServerConnection.receiveClientMessage
      simp only [QIODevice.peek, hbuf, h1, ht, if_false, hf, hsome, QIODevice.bytesAvailable]
      rw [if_pos (by omega)]
    · intro hfull
      unfold DemoServerConnection.receiveClientMessage
      simp only [QIODevice.peek, hbuf, h1, ht, if_false, hf, hsome, QIODevice.bytesAvailable,
        QIODevice.read]
      rw [if_neg (by omega)]
      by_cases hreq : toChar first = rfbFramebufferUpdateRequest
      · simp only [hreq, if_true]
        obtain ⟨start, _, _, hcall⟩ := sendFramebufferUpdate_eq
          { c with m_socket := { c.m_socket with readBuffer := (first :: body).drop size } }
          server h0
        rw [hcall]
        exact ⟨_, rfl, rfl⟩
      · simp only [hreq, if_false]
        exact ⟨_, rfl, rfl⟩

theorem completeMessageRest_setEncodings (x : Externals) (rfbMessageType : Int) (first : Nat)
    (body : QByteArray) (ht : toChar first = rfbSetEncodings) :
    completeMessageRest x rfbMessageType (first :: body)
      = if 4 ≤ (first :: body).length ∧
            4 + nEncodings (first :: body) * 4 ≤ (first :: body).length then
          some ((first :: body).drop (4 + nEncodings (first :: body) * 4))
        else none := by
  simp only [completeMessageRest, ht, if_true]

theorem completeMessageRest_feature (x : Externals) (rfbMessageType : Int) (first : Nat)
    (body : QByteArray) (ht : toChar first ≠ rfbSetEncodings) (hf : toChar first = rfbMessageType)
    (values : List QVariant) (rest : QByteArray) (hready : x.messageReady body = true)
    (hrecv : x.messageReceive body = (some values, rest)) :
    completeMessageRest x rfbMessageType (first :: body) = some rest := by
  have ht1 : ¬ rfbMessageType = rfbSetEncodings := hf ▸ ht
  simp only [completeMessageRest, hf, ht1, if_false, if_true, hready, hrecv]

theorem completeMessageRest_feature_none (x : Externals) (rfbMessageType : Int) (first : Nat)
    (body : QByteArray) (ht : toChar first ≠ rfbSetEncodings) (hf : toChar first = rfbMessageType)
    (hready : ¬ x.messageReady body = true) :
    completeMessageRest x rfbMessageType (first :: body) = none := by
  have ht1 : ¬ rfbMessageType = rfbSetEncodings := hf ▸ ht
  simp only [completeMessageRest, hf, ht1, if_false, if_true, hready, Bool.false_eq_true]

theorem completeMessageRest_other (x : Externals) (rfbMessageType : Int) (first : Nat)
    (body : QByteArray) (ht : toChar first ≠ rfbSetEncodings) (hf : toChar first ≠ rfbMessageType) :
    completeMessageRest x rfbMessageType (first :: body)
      = match m_rfbClientToServerMessageSizes.lookup (toChar first) with
        | some size =>
          if size ≤ (first :: body).length then some ((first :: body).drop size) else none
        | none => none := by
  simp only [completeMessageRest, ht, hf, if_false]

/-- C26, as the code has it, for a message codec whose `receive` succeeds
whenever `isReadyForReceive` holds: `receiveClientMessage` returns true exactly
when one complete message is buffered, and has then taken exactly that message
off the buffer; when it returns false the transport is as it was, with every
buffered byte in place, unless the message type is unknown, in which case the
transport has been closed. -/
theorem C26_receiveClientMessage (x : Externals) (rfbMessageType : Int) (server : DemoServer)
    (c : DemoServerConnection)
    (hx : ∀ buffer, x.messageReady buffer = true →
      ∃ values rest, x.messageReceive buffer = (some values, rest))
    (h0 : 0 ≤ c.m_framebufferUpdateMessageIndex) :
    ∃ r : Bool × DemoServerConnection,
      c.receiveClientMessage x rfbMessageType server = some r ∧
      (r.1 = true ↔
        (completeMessageRest x rfbMessageType c.m_socket.readBuffer).isSome = true) ∧
      (∀ rest, completeMessageRest x rfbMessageType c.m_socket.readBuffer = some rest →
        r.2.m_socket.readBuffer = rest) ∧
      (r.1 = false →
        r.2.m_socket = c.m_socket ∨
        (r.2.m_socket = c.m_socket.close ∧
          ∃ first body, c.m_socket.readBuffer = first :: body ∧
            toChar first ≠ rfbSetEncodings ∧ toChar first ≠ rfbMessageType ∧
            m_rfbClientToServerMessageSizes.lookup (toChar first) = none)) := by
  cases hbuf : c.m_socket.readBuffer with
  | nil =>
    refine ⟨(false, c), ?_, ?_, ?_, ?_⟩
    · unfold DemoServerConnection.receiveClientMessage
      simp [QIODevice.peek, hbuf]
    · simp [completeMessageRest]
    · intro rest h
      simp [completeMessageRest] at h
    · intro _
      left
      rfl
  | cons first body =>
    by_cases ht : toChar first = rfbSetEncodings
    · rw [receiveClientMessage_setEncodings x rfbMessageType server c first body hbuf ht,
        completeMessageRest_setEncodings x rfbMessageType first body ht]
      by_cases hfull : 4 ≤ (first :: body).length ∧
          4 + nEncodings (first :: body) * 4 ≤ (first :: body).length
      · rw [if_pos hfull, if_pos hfull]
        refine ⟨_, rfl, by simp, ?_, by simp⟩
        intro rest h
        simp only [Option.some.injEq] at h
        exact h
      · rw [if_neg hfull, if_neg hfull]
        refine ⟨_, rfl, by simp, ?_, ?_⟩
        · intro rest h
          simp at h
        · intro _
          left
          rfl
    · by_cases hf : toChar first = rfbMessageType
      · rw [receiveClientMessage_feature x rfbMessageType server c first body hx hbuf ht hf]
        by_cases hready : x.messageReady body = true
        · obtain ⟨values, rest, hrecv⟩ := hx body hready
          rw [if_pos hready,
            completeMessageRest_feature x rfbMessageType first body ht hf values rest hready hrecv]
          refine ⟨_, rfl, by simp, ?_, by simp⟩
          intro rest1 h
          simp only [Option.some.injEq] at h
          simp [hrecv, h]
        · rw [if_neg hready,
            completeMessageRest_feature_none x rfbMessageType first body ht hf hready]
          refine ⟨_, rfl, by simp, ?_, ?_⟩
          · intro rest h
            simp at h
          · intro _
            left
            rfl
      · have hother := receiveClientMessage_other x rfbMessageType server c first body h0
          hbuf ht hf
        rw [completeMessageRest_other x rfbMessageType first body ht hf]
        cases hl : m_rfbClientToServerMessageSizes.lookup (toChar first) with
        | none =>
          rw [hother.1 hl]
          refine ⟨_, rfl, by simp, ?_, ?_⟩
          · intro rest h
            simp at h
          · intro _
            right
            exact ⟨rfl, first, body, rfl, ht, hf, hl⟩
        | some size =>
          by_cases hsize : size ≤ (first :: body).length
          · obtain ⟨c1, hc1, hrest⟩ := (hother.2 size hl).2 hsize
            rw [hc1]
            simp only [if_pos hsize]
            refine ⟨_, rfl, by simp, ?_, by simp⟩
            intro rest h
            simp only [Option.some.injEq] at h
            rw [← h]
            exact hrest
          · rw [(hother.2 size hl).1 hsize]
            simp only [if_neg hsize]
            refine ⟨_, rfl, by simp, ?_, ?_⟩
            · intro rest h
              simp at h
            · intro _
              left
              rfl

/-! ## The connection of a worker -/

theorem toQuint16_of_port (port : Int) (h0 : 0 ≤ port) (h1 : port < 65536) :
    (toQuint16 port : Int) = port := by
  unfold toQuint16
  omega

theorem worker_first_message (featureUid : FeatureUid) (events : List WorkerEvent) :
    ∀ c : FeatureWorkerManagerConnection, c.m_featureUid = featureUid →
      ((c.sent = [] ∧ c.socketState ≠ SocketState.ConnectedState) ∨
        ∃ rest, c.sent = FeatureMessage.create featureUid FeatureCommand.InitCommand :: rest) →
      (events.foldl FeatureWorkerManagerConnection.handle c).m_featureUid = featureUid ∧
      ((events.foldl FeatureWorkerManagerConnection.handle c).sent = [] ∨
        ∃ rest, (events.foldl FeatureWorkerManagerConnection.handle c).sent
          = FeatureMessage.create featureUid FeatureCommand.InitCommand :: rest) := by
  induction events with
  | nil =>
    intro c hu h
    refine ⟨hu, ?_⟩
    rcases h with ⟨h, _⟩ | h
    · exact Or.inl h
    · exact Or.inr h
  | cons e es ih =>
    intro c hu h
    simp only [List.foldl_cons]
    apply ih
    · cases e <;>
        simp only [FeatureWorkerManagerConnection.handle,
          FeatureWorkerManagerConnection.sendInitMessage,
          FeatureWorkerManagerConnection.sendPlain, FeatureWorkerManagerConnection.sendMessage,
          FeatureWorkerManagerConnection.tryConnection] <;>
        (try split_ifs) <;> exact hu
    · cases e with
      | connected =>
        right
        simp only [FeatureWorkerManagerConnection.handle,
          FeatureWorkerManagerConnection.sendInitMessage,
          FeatureWorkerManagerConnection.sendPlain, if_true, hu]
        rcases h with ⟨h, _⟩ | ⟨rest, h⟩
        · exact ⟨[], by rw [h]; rfl⟩
        · exact ⟨rest ++ [_], by rw [h]; rfl⟩
      | disconnected =>
        rcases h with ⟨h, _⟩ | ⟨rest, h⟩
        · left
          exact ⟨h, by simp [FeatureWorkerManagerConnection.handle]⟩
        · right
          exact ⟨rest, h⟩
      | timeout =>
        simp only [FeatureWorkerManagerConnection.handle,
          FeatureWorkerManagerConnection.tryConnection]
        split_ifs with hs
        · rcases h with ⟨h, _⟩ | ⟨rest, h⟩
          · left
            exact ⟨h, by simp⟩
          · right
            exact ⟨rest, h⟩
        · exact h
      | sendMessage message =>
        simp only [FeatureWorkerManagerConnection.handle,
          FeatureWorkerManagerConnection.sendMessage, FeatureWorkerManagerConnection.sendPlain]
        split_ifs with hs
        · rcases h with ⟨_, h⟩ | ⟨rest, h⟩
          · exact absurd hs h
          · right
            exact ⟨rest ++ [message], by rw [h]; rfl⟩
        · exact h

theorem toQuint16_eq_iff (a b : Int) : toQuint16 a = toQuint16 b ↔ (a - b) % 65536 = 0 := by
  unfold toQuint16
  omega

/-- C23, as the code has it: the member `m_port` of a worker is the port of the
worker manager plus the session id, and the port that the constructor hands to
`connectToHost` is this sum as a `quint16`. Two session ids give the same
connected port exactly when they differ by a multiple of 65536; so two
different session ids whose sums with the base port are both port numbers (from
0 to 65535) give two different ports, the sums themselves. When the socket gets
connected the worker sends the message with its own feature and `InitCommand`,
and whatever happens to the connection, the first message it ever sends is this
one. -/
theorem C23_worker_port (featureWorkerManagerPort sessionId other : Int)
    (featureUid : FeatureUid) (hne : other ≠ sessionId)
    (h0 : 0 ≤ featureWorkerManagerPort + sessionId)
    (h1 : featureWorkerManagerPort + sessionId < 65536)
    (h2 : 0 ≤ featureWorkerManagerPort + other)
    (h3 : featureWorkerManagerPort + other < 65536) :
    (FeatureWorkerManagerConnection.create featureWorkerManagerPort sessionId featureUid).m_port
      = featureWorkerManagerPort + sessionId ∧
    (FeatureWorkerManagerConnection.create featureWorkerManagerPort sessionId
        featureUid).connectRequests = [toQuint16 (featureWorkerManagerPort + sessionId)] ∧
    (toQuint16 (featureWorkerManagerPort + sessionId) : Int)
      = featureWorkerManagerPort + sessionId ∧
    (FeatureWorkerManagerConnection.create featureWorkerManagerPort other
        featureUid).connectRequests
      ≠ (FeatureWorkerManagerConnection.create featureWorkerManagerPort sessionId
          featureUid).connectRequests ∧
    (∀ a b : Int,
      (FeatureWorkerManagerConnection.create featureWorkerManagerPort a featureUid).connectRequests
        = (FeatureWorkerManagerConnection.create featureWorkerManagerPort b
            featureUid).connectRequests ↔ (a - b) % 65536 = 0) ∧
    ((FeatureWorkerManagerConnection.create featureWorkerManagerPort sessionId featureUid).handle
        WorkerEvent.connected).sent
      = [FeatureMessage.create featureUid FeatureCommand.InitCommand] ∧
    (∀ events : List WorkerEvent,
      (events.foldl FeatureWorkerManagerConnection.handle
          (FeatureWorkerManagerConnection.create featureWorkerManagerPort sessionId
            featureUid)).sent = [] ∨
      ∃ rest, (events.foldl FeatureWorkerManagerConnection.handle
          (FeatureWorkerManagerConnection.create featureWorkerManagerPort sessionId
            featureUid)).sent
        = FeatureMessage.create featureUid FeatureCommand.InitCommand :: rest) := by
  have hreq : ∀ a : Int,
      (FeatureWorkerManagerConnection.create featureWorkerManagerPort a featureUid).connectRequests
        = [toQuint16 (featureWorkerManagerPort + a)] := fun _ => rfl
  refine ⟨rfl, rfl, toQuint16_of_port _ h0 h1, ?_, ?_, rfl, ?_⟩
  · rw [hreq, hreq]
    intro h
    have h4 : toQuint16 (featureWorkerManagerPort + other)
        = toQuint16 (featureWorkerManagerPort + sessionId) := by simpa using h
    have h5 := (toQuint16_eq_iff _ _).1 h4
    omega
  · intro a b
    rw [hreq, hreq]
    constructor
    · intro h
      have h4 : toQuint16 (featureWorkerManagerPort + a)
          = toQuint16 (featureWorkerManagerPort + b) := by simpa using h
      have h5 := (toQuint16_eq_iff _ _).1 h4
      omega
    · intro h
      have h4 : toQuint16 (featureWorkerManagerPort + a)
          = toQuint16 (featureWorkerManagerPort + b) :=
        (toQuint16_eq_iff _ _).2 (by omega)
      rw [h4]
  · intro events
    exact (worker_first_message featureUid events
      (FeatureWorkerManagerConnection.create featureWorkerManagerPort sessionId featureUid)
      rfl (Or.inl ⟨rfl, by
        simp [FeatureWorkerManagerConnection.create,
          FeatureWorkerManagerConnection.tryConnection]⟩)).2

/-- C23 fails as stated: with the base port 11300 the session ids 0 and 65536
are different and give the same connected port 11300, and with the base port
65535 the session id 1 gives the connected port 0, which is not the sum. -/
theorem C23_counterexample :
    (0 : Int) ≠ 65536 ∧
    (FeatureWorkerManagerConnection.create 11300 0 []).connectRequests = [11300] ∧
    (FeatureWorkerManagerConnection.create 11300 65536 []).connectRequests = [11300] ∧
    (FeatureWorkerManagerConnection.create 65535 1 []).m_port = 65536 ∧
    (FeatureWorkerManagerConnection.create 65535 1 []).connectRequests = [0] := by
  decide

/-- The base port 11300 with the session ids 1 and 2. -/
theorem C23_worker_port_witness :
    (2 : Int) ≠ 1 ∧
    (FeatureWorkerManagerConnection.create 11300 1 [7]).connectRequests = [11301] ∧
    (FeatureWorkerManagerConnection.create 11300 2 [7]).connectRequests
      ≠ (FeatureWorkerManagerConnection.create 11300 1 [7]).connectRequests ∧
    ((FeatureWorkerManagerConnection.create 11300 1 [7]).handle WorkerEvent.connected).sent
      = [FeatureMessage.create [7] FeatureCommand.InitCommand] :=
  have h := C23_worker_port 11300 1 2 [7] (by decide) (by decide) (by decide) (by decide)
    (by decide)
  ⟨by decide, h.2.1, h.2.2.2.1, h.2.2.2.2.2.1⟩

/-! ## The pending messages of the worker manager -/

theorem worker_setWorker_self (m : FeatureWorkerManager) (featureUid : FeatureUid)
    (worker : Worker) : (m.setWorker featureUid worker).worker featureUid = some worker := by
  simp [FeatureWorkerManager.setWorker, FeatureWorkerManager.worker]

theorem sendMessage_pending (m : FeatureWorkerManager) (featureUid : FeatureUid)
    (worker : Worker) (message : FeatureMessage) (hw : m.worker featureUid = some worker)
    (hs : worker.socket = none) (hm : message.featureUid = featureUid) :
    (m.sendMessage message).worker featureUid
      = some { worker with pendingMessages := worker.pendingMessages ++ [message] } ∧
    (m.sendMessage message).delivered = m.delivered := by
  subst hm
  unfold FeatureWorkerManager.sendMessage
  rw [hw]
  simp only [hs]
  exact ⟨worker_setWorker_self _ _ _, rfl⟩

theorem sendMessages_pending (featureUid : FeatureUid) (messages : List FeatureMessage) :
    ∀ (m : FeatureWorkerManager) (worker : Worker), m.worker featureUid = some worker →
      worker.socket = none → (∀ message ∈ messages, message.featureUid = featureUid) →
      (messages.foldl FeatureWorkerManager.sendMessage m).worker featureUid
        = some { worker with pendingMessages := worker.pendingMessages ++ messages } ∧
      (messages.foldl FeatureWorkerManager.sendMessage m).delivered = m.delivered := by
  induction messages with
  | nil =>
    intro m worker hw _ _
    simpa using hw
  | cons message rest ih =>
    intro m worker hw hs hm
    have h1 := sendMessage_pending m featureUid worker message hw hs
      (hm message (List.mem_cons_self _ _))
    have h2 := ih (m.sendMessage message) _ h1.1 hs
      (fun other ho => hm other (List.mem_cons_of_mem _ ho))
    simp only [List.foldl_cons]
    refine ⟨?_, h2.2.trans h1.2⟩
    rw [h2.1]
    simp

theorem acceptConnection_flush (m : FeatureWorkerManager) (featureUid : FeatureUid)
    (socket : Nat) (worker : Worker) (hw : m.worker featureUid = some worker) :
    (m.acceptConnection socket featureUid).worker featureUid
      = some { worker with socket := some socket, pendingMessages := [] } ∧
    (m.acceptConnection socket featureUid).delivered
      = m.delivered ++ worker.pendingMessages.map (fun message => (socket, message)) := by
  unfold FeatureWorkerManager.acceptConnection
  rw [hw]
  exact ⟨worker_setWorker_self _ _ _, rfl⟩

theorem sendMessage_attached (m : FeatureWorkerManager) (featureUid : FeatureUid)
    (worker : Worker) (socket : Nat) (message : FeatureMessage)
    (hw : m.worker featureUid = some worker) (hs : worker.socket = some socket)
    (hm : message.featureUid = featureUid) :
    (m.sendMessage message).worker featureUid = some worker ∧
    (m.sendMessage message).delivered = m.delivered ++ [(socket, message)] := by
  subst hm
  unfold FeatureWorkerManager.sendMessage
  rw [hw]
  simp only [hs]
  exact ⟨hw, trivial⟩

theorem sendMessages_attached (featureUid : FeatureUid) (socket : Nat)
    (messages : List FeatureMessage) :
    ∀ (m : FeatureWorkerManager) (worker : Worker), m.worker featureUid = some worker →
      worker.socket = some socket → (∀ message ∈ messages, message.featureUid = featureUid) →
      (messages.foldl FeatureWorkerManager.sendMessage m).worker featureUid = some worker ∧
      (messages.foldl FeatureWorkerManager.sendMessage m).delivered
        = m.delivered ++ messages.map (fun message => (socket, message)) := by
  induction messages with
  | nil =>
    intro m worker hw _ _
    simpa using hw
  | cons message rest ih =>
    intro m worker hw hs hm
    have h1 := sendMessage_attached m featureUid worker socket message hw hs
      (hm message (List.mem_cons_self _ _))
    have h2 := ih (m.sendMessage message) _ h1.1 hs
      (fun other ho => hm other (List.mem_cons_of_mem _ ho))
    simp only [List.foldl_cons]
    refine ⟨h2.1, ?_⟩
    rw [h2.2, h1.2]
    simp

theorem setWorker_keys (m : FeatureWorkerManager) (featureUid : FeatureUid) (worker : Worker)
    (h : (m.m_workers.map Prod.fst).Nodup) :
    ((m.setWorker featureUid worker).m_workers.map Prod.fst).Nodup := by
  simp only [FeatureWorkerManager.setWorker, List.map_cons, List.nodup_cons]
  constructor
  · intro hm
    rcases List.mem_map.1 hm with ⟨entry, he, hk⟩
    have := (List.mem_filter.1 he).2
    simp only [ne_eq, decide_not, Bool.not_eq_eq_eq_not, Bool.not_true,
      decide_eq_false_iff_not] at this
    exact this hk
  · exact List.Nodup.sublist (List.Sublist.map _ (List.filter_sublist _)) h

theorem call_keys (m : FeatureWorkerManager) (c : ManagerCall)
    (h : (m.m_workers.map Prod.fst).Nodup) : ((m.call c).m_workers.map Prod.fst).Nodup := by
  cases c with
  | startManagedSystemWorker featureUid =>
    simp only [FeatureWorkerManager.call, FeatureWorkerManager.startManagedSystemWorker]
    cases m.worker featureUid with
    | some _ => exact h
    | none => exact setWorker_keys _ _ _ h
  | startUnmanagedSessionWorker featureUid => exact setWorker_keys _ _ _ h
  | stopWorker featureUid =>
    exact List.Nodup.sublist (List.Sublist.map _ (List.filter_sublist _)) h
  | sendMessage message =>
    simp only [FeatureWorkerManager.call, FeatureWorkerManager.sendMessage]
    split
    · exact h
    · split
      · exact h
      · exact setWorker_keys _ _ _ h
  | acceptConnection socket featureUid =>
    simp only [FeatureWorkerManager.call, FeatureWorkerManager.acceptConnection]
    cases m.worker featureUid with
    | none => exact h
    | some worker => exact setWorker_keys _ _ _ h
  | closeConnection socket =>
    simp only [FeatureWorkerManager.call, FeatureWorkerManager.closeConnection, List.map_map]
    have hk : (Prod.fst ∘ fun entry : FeatureUid × Worker =>
        if entry.2.socket = some socket then (entry.1, { entry.2 with socket := none })
        else entry) = Prod.fst := by
      funext entry
      simp only [Function.comp]
      split_ifs <;> rfl
    rw [hk]
    exact h

theorem calls_keys (calls : List ManagerCall) :
    ∀ m : FeatureWorkerManager, (m.m_workers.map Prod.fst).Nodup →
      ((calls.foldl FeatureWorkerManager.call m).m_workers.map Prod.fst).Nodup := by
  induction calls with
  | nil => exact fun _ h => h
  | cons c rest ih => exact fun m h => ih _ (call_keys m c h)

/-- C22: when a feature has a worker without a socket, the messages sent for
that feature are appended to the pending messages of the worker in the order of
sending and none is delivered; when the connection announcing the feature is
accepted, the pending messages are delivered on its socket in that order and the
queue is empty, and the messages sent afterwards are delivered after them, so
that every message is delivered exactly once and in the order of sending.
Whatever is called on a worker manager, it has at most one worker per
feature. -/
theorem C22_pending_queue (m : FeatureWorkerManager) (featureUid : FeatureUid) (socket : Nat)
    (worker : Worker) (pending later : List FeatureMessage)
    (hw : m.worker featureUid = some worker) (hs : worker.socket = none)
    (hp : ∀ message ∈ pending, message.featureUid = featureUid)
    (hl : ∀ message ∈ later, message.featureUid = featureUid) :
    ((pending.foldl FeatureWorkerManager.sendMessage m).worker featureUid
      = some { worker with pendingMessages := worker.pendingMessages ++ pending } ∧
     (pending.foldl FeatureWorkerManager.sendMessage m).delivered = m.delivered) ∧
    (((pending.foldl FeatureWorkerManager.sendMessage m).acceptConnection socket
        featureUid).worker featureUid
      = some { worker with socket := some socket, pendingMessages := [] } ∧
     ((pending.foldl FeatureWorkerManager.sendMessage m).acceptConnection socket
        featureUid).delivered
      = m.delivered
        ++ (worker.pendingMessages ++ pending).map (fun message => (socket, message))) ∧
    (later.foldl FeatureWorkerManager.sendMessage
        ((pending.foldl FeatureWorkerManager.sendMessage m).acceptConnection socket
          featureUid)).delivered
      = m.delivered
        ++ (worker.pendingMessages ++ pending).map (fun message => (socket, message))
        ++ later.map (fun message => (socket, message)) ∧
    (∀ calls : List ManagerCall,
      ((calls.foldl FeatureWorkerManager.call FeatureWorkerManager.create).m_workers.map
        Prod.fst).Nodup) := by
  have h1 := sendMessages_pending featureUid pending m worker hw hs hp
  have h2 := acceptConnection_flush (pending.foldl FeatureWorkerManager.sendMessage m)
    featureUid socket _ h1.1
  have h3 := sendMessages_attached featureUid socket later _ _ h2.1 rfl hl
  refine ⟨h1, ⟨h2.1, ?_⟩, ?_, fun calls => calls_keys calls _ List.nodup_nil⟩
  · rw [h2.2, h1.2]
  · rw [h3.2, h2.2, h1.2]

/-- A worker manager with an unmanaged worker for the feature `[1]`, two messages
sent before the worker connects on socket 5 and one sent after. -/
theorem C22_pending_queue_witness :
    (FeatureWorkerManager.create.startUnmanagedSessionWorker [1]).worker [1]
      = some { socket := none, process := none, pendingMessages := [] } ∧
    (([FeatureMessage.create [1] (FeatureCommand.command 3)].foldl
        FeatureWorkerManager.sendMessage
        (([FeatureMessage.create [1] (FeatureCommand.command 1),
            FeatureMessage.create [1] (FeatureCommand.command 2)].foldl
          FeatureWorkerManager.sendMessage
          (FeatureWorkerManager.create.startUnmanagedSessionWorker [1])).acceptConnection 5
            [1])).delivered.map
      (fun sent => (sent.1, sent.2.command)))
      = [(5, FeatureCommand.command 1), (5, FeatureCommand.command 2),
          (5, FeatureCommand.command 3)] := by
  refine ⟨rfl, ?_⟩
  have h := (C22_pending_queue (FeatureWorkerManager.create.startUnmanagedSessionWorker [1])
    [1] 5 { socket := none, process := none, pendingMessages := [] }
    [FeatureMessage.create [1] (FeatureCommand.command 1),
      FeatureMessage.create [1] (FeatureCommand.command 2)]
    [FeatureMessage.create [1] (FeatureCommand.command 3)] rfl rfl
    (by intro message hm; simp at hm; rcases hm with rfl | rfl <;> rfl)
    (by intro message hm; simp at hm; rw [hm]; rfl)).2.2.1
  rw [h]
  rfl

/-! ## Closed instances -/

set_option maxRecDepth 100000 in
/-- The address `00:11:22:33:44:55` on a host with one interface that has one
address entry with a broadcast address and one without. -/
theorem C24_magic_packet_witness :
    (QByteArray.fromHex (QString.toUtf8
      (removeDelimiters (QStringLiteral "00:11:22:33:44:55")))).length = 6 ∧
    QByteArray.fromHex (QString.toUtf8 (removeDelimiters (QStringLiteral "00:11:22:33:44:55")))
      = [0x00, 0x11, 0x22, 0x33, 0x44, 0x55] ∧
    (broadcastWOLPacket (fun datagram _ _ => datagram.length)
        [[some (QHostAddress.address 3232236031), none]]
        (QStringLiteral "00:11:22:33:44:55")).2
      = (QHostAddress.Broadcast ::
          ([[some (QHostAddress.address 3232236031), none]] :
            List (List (Option QHostAddress))).flatten.filterMap id).map
          (fun host =>
            ({ datagram := wolDatagram (QByteArray.fromHex (QString.toUtf8
                (removeDelimiters (QStringLiteral "00:11:22:33:44:55"))))
               host := host
               port := 9 } : SentDatagram)) :=
  ⟨by decide, by decide,
    (C24_magic_packet (fun datagram _ _ => datagram.length)
      [[some (QHostAddress.address 3232236031), none]]
      (QStringLiteral "00:11:22:33:44:55") (by decide)).2.2.1⟩

/-- C26 as stated fails: with the three bytes 99, 1, 2 buffered, 99 being no
message type of the table, `receiveClientMessage` returns false and the device
is closed, so that none of the three bytes can be read any more. -/
theorem C26_counterexample :
    (exampleDemoClient [99, 1, 2]).m_socket.readBuffer = [99, 1, 2] ∧
    ((exampleDemoClient [99, 1, 2]).receiveClientMessage exampleExternals 41
        exampleDemoServer).map
      (fun r => (r.1, r.2.m_socket.isOpen, r.2.m_socket.readBuffer))
      = some (false, false, []) := by
  decide

/-- The example codec at a connection that holds a feature message of two
payload bytes followed by one more byte. -/
theorem C26_receiveClientMessage_witness :
    (∀ buffer, exampleExternals.messageReady buffer = true →
      ∃ values rest, exampleExternals.messageReceive buffer = (some values, rest)) ∧
    0 ≤ (exampleDemoClient [41, 2, 1, 1, 9]).m_framebufferUpdateMessageIndex ∧
    ∃ r : Bool × DemoServerConnection,
      (exampleDemoClient [41, 2, 1, 1, 9]).receiveClientMessage exampleExternals 41
        exampleDemoServer = some r ∧
      (r.1 = true ↔
        (completeMessageRest exampleExternals 41
          (exampleDemoClient [41, 2, 1, 1, 9]).m_socket.readBuffer).isSome = true) ∧
      (∀ rest, completeMessageRest exampleExternals 41
          (exampleDemoClient [41, 2, 1, 1, 9]).m_socket.readBuffer = some rest →
        r.2.m_socket.readBuffer = rest) ∧
      (r.1 = false →
        r.2.m_socket = (exampleDemoClient [41, 2, 1, 1, 9]).m_socket ∨
        (r.2.m_socket = (exampleDemoClient [41, 2, 1, 1, 9]).m_socket.close ∧
          ∃ first body, (exampleDemoClient [41, 2, 1, 1, 9]).m_socket.readBuffer
              = first :: body ∧
            toChar first ≠ rfbSetEncodings ∧ toChar first ≠ 41 ∧
            m_rfbClientToServerMessageSizes.lookup (toChar first) = none)) :=
  have hx : ∀ buffer, exampleExternals.messageReady buffer = true →
      ∃ values rest, exampleExternals.messageReceive buffer = (some values, rest) :=
    fun buffer h =>
      match buffer, h with
      | [], h => absurd h (by decide)
      | _ :: _, _ => ⟨_, _, rfl⟩
  ⟨hx, by decide,
    C26_receiveClientMessage exampleExternals 41 exampleDemoServer
      (exampleDemoClient [41, 2, 1, 1, 9]) hx (by decide)⟩

/-! ## Base64 -/

theorem readUInt32_write (n : Nat) (rest : QByteArray) (h : n < 4294967296) :
    readUInt32 (qToBigEndian32 n ++ rest) = some (n, rest) := by
  simp only [qToBigEndian32, readUInt32, List.cons_append, List.nil_append, qFromBigEndian32]
  congr 2
  omega

theorem readInt32_write (n : Int) (rest : QByteArray) (h : isInt32 n = true) :
    readInt32 (writeInt32 n ++ rest) = some (n, rest) := by
  simp only [isInt32, Bool.and_eq_true, decide_eq_true_eq] at h
  unfold readInt32 writeInt32
  rw [readUInt32_write _ _ (by omega)]
  simp only [Option.map_some', toInt32]
  congr 2
  split_ifs <;> omega

theorem readInt64_write (n : Int) (rest : QByteArray) (h : isInt64 n = true) :
    readInt64 (writeInt64 n ++ rest) = some (n, rest) := by
  simp only [isInt64, Bool.and_eq_true, decide_eq_true_eq] at h
  unfold readInt64 writeInt64
  rw [List.append_assoc, readUInt32_write _ _ (by omega)]
  simp only []
  rw [readUInt32_write _ _ (by omega)]
  simp only [Option.map_some', toInt64]
  congr 2
  split_ifs <;> omega

theorem length_qToBigEndian32 (n : Nat) : (qToBigEndian32 n).length = 4 := rfl

theorem length_writeInt32 (n : Int) : (writeInt32 n).length = 4 := rfl

theorem length_writeInt64 (n : Int) : (writeInt64 n).length = 8 := rfl

theorem utf16Units_cons (high low : Nat) (rest : QByteArray) :
    utf16Units (high :: low :: rest) = (high * 256 + low) :: utf16Units rest := by
  rw [utf16Units]

theorem utf16Units_encode (c : Nat) (rest : QByteArray) :
    utf16Units (encodeUtf16 c ++ rest)
      = (if c < 0x10000 then [c]
          else [0xD800 + (c - 0x10000) / 1024, 0xDC00 + (c - 0x10000) % 1024])
        ++ utf16Units rest := by
  unfold encodeUtf16
  split_ifs with h
  · have e : c / 256 * 256 + c % 256 = c := by omega
    simp only [List.cons_append, List.nil_append, utf16Units_cons, e]
  · have e1 : (0xD800 + (c - 0x10000) / 1024) / 256 * 256
        + (0xD800 + (c - 0x10000) / 1024) % 256 = 0xD800 + (c - 0x10000) / 1024 := by omega
    have e2 : (0xDC00 + (c - 0x10000) % 1024) / 256 * 256
        + (0xDC00 + (c - 0x10000) % 1024) % 256 = 0xDC00 + (c - 0x10000) % 1024 := by omega
    simp only [List.cons_append, List.nil_append, utf16Units_cons, e1, e2]

theorem utf16Units_toUtf16 : ∀ s : QString,
    utf16Units (QString.toUtf16 s)
      = s.flatMap (fun c => if c < 0x10000 then [c]
          else [0xD800 + (c - 0x10000) / 1024, 0xDC00 + (c - 0x10000) % 1024])
  | [] => rfl
  | c :: s => by
    have ih := utf16Units_toUtf16 s
    unfold QString.toUtf16 at ih ⊢
    rw [List.flatMap_cons, utf16Units_encode, ih, List.flatMap_cons]

theorem decodeUtf16_units : ∀ s : QString,
    (s.all (fun c => decide (c < 0xD800) || (decide (0xE000 ≤ c) && decide (c < 0x110000))))
      = true →
    decodeUtf16 none (s.flatMap (fun c => if c < 0x10000 then [c]
        else [0xD800 + (c - 0x10000) / 1024, 0xDC00 + (c - 0x10000) % 1024])) = s
  | [], _ => rfl
  | c :: s, h => by
    simp only [List.all_cons, Bool.and_eq_true, Bool.or_eq_true, decide_eq_true_eq] at h
    have ih := decodeUtf16_units s h.2
    rw [List.flatMap_cons]
    by_cases hc : c < 0x10000
    · have hn : ¬ (0xD800 ≤ c ∧ c < 0xDC00) := by omega
      simp only [hc, if_true, List.cons_append, List.nil_append, decodeUtf16, hn, if_false, ih]
    · have h1 : 0xD800 ≤ 0xD800 + (c - 0x10000) / 1024
          ∧ 0xD800 + (c - 0x10000) / 1024 < 0xDC00 := by omega
      have h2 : 0xDC00 ≤ 0xDC00 + (c - 0x10000) % 1024
          ∧ 0xDC00 + (c - 0x10000) % 1024 < 0xE000 := by omega
      have e : 0x10000 + (0xD800 + (c - 0x10000) / 1024 - 0xD800) * 1024
          + (0xDC00 + (c - 0x10000) % 1024 - 0xDC00) = c := by omega
      simp only [hc, if_false, List.cons_append, List.nil_append, decodeUtf16, h1, h2,
        and_self, if_true, ih, e]

theorem fromUtf16_toUtf16 (s : QString) (h : representableString s = true) :
    QString.fromUtf16 (QString.toUtf16 s) = s := by
  simp only [representableString, Bool.and_eq_true] at h
  unfold QString.fromUtf16
  rw [utf16Units_toUtf16, decodeUtf16_units s h.1]

theorem checkString_write (s : QString) (rest : QByteArray) (h : representableString s = true) :
    VariantStream.checkString (writeString s ++ rest)
      = if withinStringSize s = true then some rest else none := by
  have hl : (QString.toUtf16 s).length < 0xffffffff := by
    simp only [representableString, Bool.and_eq_true, decide_eq_true_eq] at h
    exact h.2
  unfold VariantStream.checkString writeString
  rw [List.append_assoc, readUInt32_write _ _ (by omega)]
  simp only [withinStringSize, decide_eq_true_eq]
  have hne : ¬ (QString.toUtf16 s).length = 0xffffffff := by omega
  rw [if_neg hne]
  by_cases hb : (QString.toUtf16 s).length ≤ VariantStream.MaxStringSize
  · rw [if_neg (by omega), if_pos hb, if_neg (by simp), List.drop_left]
  · rw [if_pos (by omega), if_neg hb]

theorem readString_write (s : QString) (rest : QByteArray) (h : representableString s = true) :
    readString (writeString s ++ rest) = some (s, rest) := by
  have hl : (QString.toUtf16 s).length < 0xffffffff := by
    simp only [representableString, Bool.and_eq_true, decide_eq_true_eq] at h
    exact h.2
  unfold readString writeString
  rw [List.append_assoc, readUInt32_write _ _ (by omega)]
  have hne : ¬ (QString.toUtf16 s).length = 0xffffffff := by omega
  simp only []
  rw [if_neg hne, if_neg (by simp), List.take_left, List.drop_left, fromUtf16_toUtf16 s h]

theorem checkByteArray_write (b rest : QByteArray) (h : b.length < 0xffffffff) :
    VariantStream.checkByteArray (writeByteArray b ++ rest)
      = if b.length ≤ VariantStream.MaxByteArraySize then some rest else none := by
  unfold VariantStream.checkByteArray writeByteArray
  rw [List.append_assoc, readUInt32_write _ _ (by omega)]
  have hne : ¬ b.length = 0xffffffff := by omega
  simp only []
  rw [if_neg hne]
  by_cases hb : b.length ≤ VariantStream.MaxByteArraySize
  · rw [if_neg (by omega), if_pos hb, if_neg (by simp), List.drop_left]
  · rw [if_pos (by omega), if_neg hb]

theorem readByteArray_write (b rest : QByteArray) (h : b.length < 0xffffffff) :
    readByteArray (writeByteArray b ++ rest) = some (b, rest) := by
  unfold readByteArray writeByteArray
  rw [List.append_assoc, readUInt32_write _ _ (by omega)]
  have hne : ¬ b.length = 0xffffffff := by omega
  simp only []
  rw [if_neg hne, if_neg (by simp), List.take_left, List.drop_left]

theorem checkStrings_write : ∀ (l : List QString) (rest : QByteArray),
    l.all representableString = true →
    checkRepeated VariantStream.checkString l.length (l.flatMap writeString ++ rest)
      = if l.all withinStringSize = true then some rest else none
  | [], rest, _ => rfl
  | s :: l, rest, h => by
    simp only [List.all_cons, Bool.and_eq_true] at h
    have ih := checkStrings_write l rest h.2
    simp only [List.length_cons, checkRepeated, List.flatMap_cons, List.append_assoc,
      checkString_write s _ h.1, List.all_cons, Bool.and_eq_true]
    by_cases hs : withinStringSize s = true
    · simp only [hs, if_true, true_and]
      exact ih
    · simp only [hs, Bool.false_eq_true, if_false, false_and]

theorem readStrings_write : ∀ (l : List QString) (rest : QByteArray),
    l.all representableString = true →
    readRepeated readString l.length (l.flatMap writeString ++ rest) = some (l, rest)
  | [], rest, _ => rfl
  | s :: l, rest, h => by
    simp only [List.all_cons, Bool.and_eq_true] at h
    have ih := readStrings_write l rest h.2
    simp only [List.length_cons, readRepeated, List.flatMap_cons, List.append_assoc,
      readString_write s _ h.1, ih]

/-! ## The variant stream: the check pass -/

theorem checkFixed_append (size : Nat) (data rest : QByteArray) (h : data.length = size) :
    checkFixed size (data ++ rest) = some rest := by
  unfold checkFixed
  rw [if_neg (by simp [h]), ← h, List.drop_left]

theorem checkVariant_succ (levels typeId isNull : Nat) (data : QByteArray)
    (h : typeId < 4294967296) :
    VariantStream.checkVariant (levels + 1) (qToBigEndian32 typeId ++ [isNull] ++ data)
      = if typeId = QMetaType.Bool then VariantStream.checkBool data
        else if typeId = QMetaType.QByteArray then VariantStream.checkByteArray data
        else if typeId = QMetaType.Int then VariantStream.checkInt data
        else if typeId = QMetaType.LongLong then VariantStream.checkLong data
        else if typeId = QMetaType.QRect then VariantStream.checkRect data
        else if typeId = QMetaType.QString then VariantStream.checkString data
        else if typeId = QMetaType.QStringList then VariantStream.checkStringList data
        else if typeId = QMetaType.QUuid then VariantStream.checkUuid data
        else if typeId = QMetaType.QVariantList then
          VariantStream.checkVariantList (VariantStream.checkVariant levels) data
        else if typeId = QMetaType.QVariantMap then
          VariantStream.checkVariantMap (VariantStream.checkVariant levels) data
        else none := by
  rw [VariantStream.checkVariant, List.append_assoc, readUInt32_write _ _ h]
  rfl

theorem checkStringList_write (l : List QString) (rest : QByteArray)
    (hl : l.length < 4294967296) (h : l.all representableString = true) :
    VariantStream.checkStringList (writeStringList l ++ rest)
      = if (decide (l.length ≤ VariantStream.MaxContainerSize) && l.all withinStringSize) = true
        then some rest else none := by
  unfold VariantStream.checkStringList writeStringList
  rw [List.append_assoc, readUInt32_write _ _ hl]
  simp only [Bool.and_eq_true, decide_eq_true_eq]
  by_cases hc : l.length ≤ VariantStream.MaxContainerSize
  · rw [if_neg (by omega), checkStrings_write l rest h]
    simp only [hc, true_and]
  · rw [if_pos (by omega)]
    simp only [hc, false_and, if_false]

mutual
theorem checkVariant_write : ∀ (v : QVariant) (levels : Nat) (rest : QByteArray),
    v.representable = true →
    VariantStream.checkVariant levels (writeVariant v ++ rest)
      = if v.withinSizes = true ∧ v.nesting < levels then some rest else none
  | _, 0, _, _ => by simp [VariantStream.checkVariant]
  | .invalid, levels + 1, rest, h => by simp [QVariant.representable] at h
  | .authType _, levels + 1, rest, h => by simp [QVariant.representable] at h
  | .bool b, levels + 1, rest, _ => by
    rw [writeVariant, List.append_assoc, checkVariant_succ _ _ _ _ (by decide)]
    simp [QMetaType.Bool, VariantStream.checkBool, checkFixed, QVariant.withinSizes,
      QVariant.nesting]
  | .int n, levels + 1, rest, _ => by
    rw [writeVariant, List.append_assoc, checkVariant_succ _ _ _ _ (by decide)]
    simp [QMetaType.Bool, QMetaType.QByteArray, QMetaType.Int, VariantStream.checkInt,
      checkFixed_append 4 _ rest (length_writeInt32 n), QVariant.withinSizes, QVariant.nesting]
  | .longLong n, levels + 1, rest, _ => by
    rw [writeVariant, List.append_assoc, checkVariant_succ _ _ _ _ (by decide)]
    simp [QMetaType.Bool, QMetaType.QByteArray, QMetaType.Int, QMetaType.LongLong,
      VariantStream.checkLong, checkFixed_append 8 _ rest (length_writeInt64 n),
      QVariant.withinSizes, QVariant.nesting]
  | .rect x y w h, levels + 1, rest, _ => by
    rw [writeVariant, List.append_assoc, checkVariant_succ _ _ _ _ (by decide)]
    have hl : (writeInt32 x ++ writeInt32 y ++ writeInt32 (x + w - 1)
        ++ writeInt32 (y + h - 1)).length = 16 := rfl
    have hf : checkFixed 16 (writeInt32 x ++ (writeInt32 y ++ (writeInt32 (x + w - 1)
        ++ (writeInt32 (y + h - 1) ++ rest)))) = some rest := by
      have hc := checkFixed_append 16 _ rest hl
      simpa only [List.append_assoc] using hc
    simp [QMetaType.Bool, QMetaType.QByteArray, QMetaType.Int, QMetaType.LongLong,
      QMetaType.QRect, VariantStream.checkRect, hf, QVariant.withinSizes, QVariant.nesting]
  | .string s, levels + 1, rest, h => by
    rw [writeVariant, List.append_assoc, checkVariant_succ _ _ _ _ (by decide)]
    simp only [QVariant.representable] at h
    simp [QMetaType.Bool, QMetaType.QByteArray, QMetaType.Int, QMetaType.LongLong,
      QMetaType.QRect, QMetaType.QString, checkString_write s rest h,
      QVariant.withinSizes, QVariant.nesting]
  | .stringList l, levels + 1, rest, h => by
    rw [writeVariant, List.append_assoc, checkVariant_succ _ _ _ _ (by decide)]
    simp only [QVariant.representable, Bool.and_eq_true, decide_eq_true_eq] at h
    simp [QMetaType.Bool, QMetaType.QByteArray, QMetaType.Int, QMetaType.LongLong,
      QMetaType.QRect, QMetaType.QString, QMetaType.QStringList,
      checkStringList_write l rest h.1 h.2, QVariant.withinSizes, QVariant.nesting]
  | .uuid u, levels + 1, rest, h => by
    rw [writeVariant, List.append_assoc, checkVariant_succ _ _ _ _ (by decide)]
    simp only [QVariant.representable, decide_eq_true_eq] at h
    simp [QMetaType.Bool, QMetaType.QByteArray, QMetaType.Int, QMetaType.LongLong,
      QMetaType.QRect, QMetaType.QString, QMetaType.QStringList, QMetaType.QUuid,
      VariantStream.checkUuid, checkFixed_append 16 u rest h,
      QVariant.withinSizes, QVariant.nesting]
  | .byteArray b, levels + 1, rest, h => by
    rw [writeVariant, List.append_assoc, checkVariant_succ _ _ _ _ (by decide)]
    simp only [QVariant.representable, decide_eq_true_eq] at h
    simp [QMetaType.Bool, QMetaType.QByteArray, checkByteArray_write b rest h,
      QVariant.withinSizes, QVariant.nesting]
  | .list l, levels + 1, rest, h => by
    rw [writeVariant, List.append_assoc, checkVariant_succ _ _ _ _ (by decide)]
    simp only [QVariant.representable, Bool.and_eq_true, decide_eq_true_eq] at h
    have ih := checkVariants_write l levels rest h.2
    simp only [QMetaType.Bool, QMetaType.QByteArray, QMetaType.Int, QMetaType.LongLong,
      QMetaType.QRect, QMetaType.QString, QMetaType.QStringList, QMetaType.QUuid,
      QMetaType.QVariantList, Nat.reduceEqDiff, if_false, if_true,
      VariantStream.checkVariantList, List.append_assoc, readUInt32_write _ _ h.1,
      QVariant.withinSizes, QVariant.nesting, Bool.and_eq_true, decide_eq_true_eq]
    by_cases hc : l.length ≤ VariantStream.MaxContainerSize
    · rw [if_neg (by omega), ih]
      simp only [hc, true_and, Nat.lt_succ_iff]
    · rw [if_pos (by omega)]
      simp only [hc, false_and, if_false]
  | .map m, levels + 1, rest, h => by
    rw [writeVariant, List.append_assoc, checkVariant_succ _ _ _ _ (by decide)]
    simp only [QVariant.representable, Bool.and_eq_true, decide_eq_true_eq] at h
    have ih := checkEntries_write m levels rest h.2
    simp only [QMetaType.Bool, QMetaType.QByteArray, QMetaType.Int, QMetaType.LongLong,
      QMetaType.QRect, QMetaType.QString, QMetaType.QStringList, QMetaType.QUuid,
      QMetaType.QVariantList, QMetaType.QVariantMap, Nat.reduceEqDiff, if_false, if_true,
      VariantStream.checkVariantMap, List.append_assoc, readUInt32_write _ _ h.1,
      QVariant.withinSizes, QVariant.nesting, Bool.and_eq_true, decide_eq_true_eq]
    by_cases hc : m.length ≤ VariantStream.MaxContainerSize
    · rw [if_neg (by omega), ih]
      simp only [hc, true_and, Nat.lt_succ_iff]
    · rw [if_pos (by omega)]
      simp only [hc, false_and, if_false]
theorem checkVariants_write : ∀ (l : List QVariant) (levels : Nat) (rest : QByteArray),
    QVariant.representableList l = true →
    checkRepeated (VariantStream.checkVariant levels) l.length (writeVariants l ++ rest)
      = if QVariant.withinSizesList l = true ∧ QVariant.nestingList l ≤ levels then some rest
        else none
  | [], levels, rest, _ => by
    simp [checkRepeated, writeVariants, QVariant.withinSizesList, QVariant.nestingList]
  | v :: vs, levels, rest, h => by
    simp only [QVariant.representableList, Bool.and_eq_true] at h
    have ih1 := checkVariant_write v levels (writeVariants vs ++ rest) h.1
    have ih2 := checkVariants_write vs levels rest h.2
    simp only [List.length_cons, checkRepeated, writeVariants, List.append_assoc, ih1,
      QVariant.withinSizesList, QVariant.nestingList, Bool.and_eq_true]
    by_cases hv : v.withinSizes = true ∧ v.nesting < levels
    · rw [if_pos hv]
      simp only [ih2]
      by_cases hvs : QVariant.withinSizesList vs = true ∧ QVariant.nestingList vs ≤ levels
      · rw [if_pos hvs, if_pos ⟨⟨hv.1, hvs.1⟩, by omega⟩]
      · rw [if_neg hvs, if_neg]
        intro hx
        exact hvs ⟨hx.1.2, by omega⟩
    · rw [if_neg hv]
      simp only []
      rw [if_neg]
      intro hx
      exact hv ⟨hx.1.1, by omega⟩
theorem checkEntries_write : ∀ (m : List (QString × QVariant)) (levels : Nat)
    (rest : QByteArray), QVariant.representableEntries m = true →
    checkRepeated (fun entry =>
        match VariantStream.checkString entry with
        | some value => VariantStream.checkVariant levels value
        | none => none) m.length (writeEntries m ++ rest)
      = if QVariant.withinSizesEntries m = true ∧ QVariant.nestingEntries m ≤ levels
        then some rest else none
  | [], levels, rest, _ => by
    simp [checkRepeated, writeEntries, QVariant.withinSizesEntries, QVariant.nestingEntries]
  | (k, v) :: es, levels, rest, h => by
    simp only [QVariant.representableEntries, Bool.and_eq_true] at h
    have ih1 := checkVariant_write v levels (writeEntries es ++ rest) h.2.1
    have ih2 := checkEntries_write es levels rest h.2.2
    simp only [List.length_cons, checkRepeated, writeEntries, List.append_assoc,
      checkString_write k _ h.1, QVariant.withinSizesEntries, QVariant.nestingEntries,
      Bool.and_eq_true]
    by_cases hk : withinStringSize k = true
    · simp only [hk, if_true, ih1, true_and]
      by_cases hv : v.withinSizes = true ∧ v.nesting < levels
      · rw [if_pos hv]
        simp only [ih2]
        by_cases hvs : QVariant.withinSizesEntries es = true
            ∧ QVariant.nestingEntries es ≤ levels
        · rw [if_pos hvs, if_pos ⟨⟨hv.1, hvs.1⟩, by omega⟩]
        · rw [if_neg hvs, if_neg]
          intro hx
          exact hvs ⟨hx.1.2, by omega⟩
      · rw [if_neg hv]
        simp only []
        rw [if_neg]
        intro hx
        exact hv ⟨hx.1.1, by omega⟩
    · simp only [hk, Bool.false_eq_true, if_false, false_and]
end

/-! ## The variant stream: the materialize pass -/

mutual
theorem readVariant_write : ∀ (v : QVariant) (levels : Nat) (rest : QByteArray),
    v.representable = true → v.nesting < levels →
    readVariant levels (writeVariant v ++ rest) = some (v, rest)
  | _, 0, _, _, hn => by omega
  | .invalid, levels + 1, rest, h, _ => by simp [QVariant.representable] at h
  | .authType _, levels + 1, rest, h, _ => by simp [QVariant.representable] at h
  | .bool b, levels + 1, rest, _, _ => by
    rw [writeVariant, List.append_assoc, List.append_assoc, readVariant,
      readUInt32_write _ _ (by decide)]
    cases b <;> simp [QMetaType.Bool]
  | .int n, levels + 1, rest, h, _ => by
    rw [writeVariant, List.append_assoc, List.append_assoc, readVariant,
      readUInt32_write _ _ (by decide)]
    simp only [QVariant.representable] at h
    simp [QMetaType.Bool, QMetaType.Int, readInt32_write n rest h]
  | .longLong n, levels + 1, rest, h, _ => by
    rw [writeVariant, List.append_assoc, List.append_assoc, readVariant,
      readUInt32_write _ _ (by decide)]
    simp only [QVariant.representable] at h
    simp [QMetaType.Bool, QMetaType.Int, QMetaType.LongLong, readInt64_write n rest h]
  | .rect x y w h, levels + 1, rest, hr, _ => by
    rw [writeVariant, List.append_assoc, List.append_assoc, readVariant,
      readUInt32_write _ _ (by decide)]
    simp only [QVariant.representable, Bool.and_eq_true] at hr
    simp only [List.append_assoc, List.singleton_append, QMetaType.Bool, QMetaType.Int,
      QMetaType.LongLong, QMetaType.QRect, Nat.reduceEqDiff, if_false, if_true,
      readInt32_write x _ hr.1.1.1, readInt32_write y _ hr.1.1.2,
      readInt32_write (x + w - 1) _ hr.1.2, readInt32_write (y + h - 1) _ hr.2,
      Option.map_some']
    have hw : x + w - 1 - x + 1 = w := by omega
    have hh : y + h - 1 - y + 1 = h := by omega
    rw [hw, hh]
  | .string s, levels + 1, rest, h, _ => by
    rw [writeVariant, List.append_assoc, List.append_assoc, readVariant,
      readUInt32_write _ _ (by decide)]
    simp only [QVariant.representable] at h
    simp [QMetaType.Bool, QMetaType.Int, QMetaType.LongLong, QMetaType.QRect,
      QMetaType.QString, readString_write s rest h]
  | .stringList l, levels + 1, rest, h, _ => by
    rw [writeVariant, List.append_assoc, List.append_assoc, readVariant,
      readUInt32_write _ _ (by decide)]
    simp only [QVariant.representable, Bool.and_eq_true, decide_eq_true_eq] at h
    simp only [List.singleton_append, QMetaType.Bool, QMetaType.Int, QMetaType.LongLong,
      QMetaType.QRect, QMetaType.QString, QMetaType.QStringList, Nat.reduceEqDiff, if_false,
      if_true, writeStringList, List.append_assoc, readUInt32_write _ _ h.1,
      readStrings_write l rest h.2, Option.map_some']
  | .uuid u, levels + 1, rest, h, _ => by
    rw [writeVariant, List.append_assoc, List.append_assoc, readVariant,
      readUInt32_write _ _ (by decide)]
    simp only [QVariant.representable, decide_eq_true_eq] at h
    have h1 : (u ++ rest).take 16 = u := by rw [← h, List.take_left]
    have h2 : (u ++ rest).drop 16 = rest := by rw [← h, List.drop_left]
    have h3 : ¬ (u ++ rest).length < 16 := by simp [h]
    simp only [List.singleton_append, QMetaType.Bool, QMetaType.Int, QMetaType.LongLong,
      QMetaType.QRect, QMetaType.QString, QMetaType.QStringList, QMetaType.QUuid,
      Nat.reduceEqDiff, if_false, if_true, h1, h2, h3]
  | .byteArray b, levels + 1, rest, h, _ => by
    rw [writeVariant, List.append_assoc, List.append_assoc, readVariant,
      readUInt32_write _ _ (by decide)]
    simp only [QVariant.representable, decide_eq_true_eq] at h
    simp [QMetaType.Bool, QMetaType.Int, QMetaType.LongLong, QMetaType.QRect,
      QMetaType.QString, QMetaType.QStringList, QMetaType.QUuid, QMetaType.QByteArray,
      readByteArray_write b rest h]
  | .list l, levels + 1, rest, h, hn => by
    rw [writeVariant, List.append_assoc, List.append_assoc, readVariant,
      readUInt32_write _ _ (by decide)]
    simp only [QVariant.representable, Bool.and_eq_true, decide_eq_true_eq] at h
    simp only [QVariant.nesting] at hn
    have ih := readVariants_write l levels rest h.2 (by omega)
    simp only [List.singleton_append, QMetaType.Bool, QMetaType.Int, QMetaType.LongLong,
      QMetaType.QRect, QMetaType.QString, QMetaType.QStringList, QMetaType.QUuid,
      QMetaType.QByteArray, QMetaType.QVariantList, Nat.reduceEqDiff, if_false, if_true,
      List.append_assoc, readUInt32_write _ _ h.1, ih, Option.map_some']
  | .map m, levels + 1, rest, h, hn => by
    rw [writeVariant, List.append_assoc, List.append_assoc, readVariant,
      readUInt32_write _ _ (by decide)]
    simp only [QVariant.representable, Bool.and_eq_true, decide_eq_true_eq] at h
    simp only [QVariant.nesting] at hn
    have ih := readEntries_write m levels rest h.2 (by omega)
    simp only [List.singleton_append, QMetaType.Bool, QMetaType.Int, QMetaType.LongLong,
      QMetaType.QRect, QMetaType.QString, QMetaType.QStringList, QMetaType.QUuid,
      QMetaType.QByteArray, QMetaType.QVariantList, QMetaType.QVariantMap, Nat.reduceEqDiff,
      if_false, if_true, List.append_assoc, readUInt32_write _ _ h.1, ih, Option.map_some']
theorem readVariants_write : ∀ (l : List QVariant) (levels : Nat) (rest : QByteArray),
    QVariant.representableList l = true → QVariant.nestingList l ≤ levels →
    readRepeated (readVariant levels) l.length (writeVariants l ++ rest) = some (l, rest)
  | [], levels, rest, _, _ => rfl
  | v :: vs, levels, rest, h, hn => by
    simp only [QVariant.representableList, Bool.and_eq_true] at h
    simp only [QVariant.nestingList] at hn
    have ih1 := readVariant_write v levels (writeVariants vs ++ rest) h.1 (by omega)
    have ih2 := readVariants_write vs levels rest h.2 (by omega)
    simp only [List.length_cons, readRepeated, writeVariants, List.append_assoc, ih1, ih2]
theorem readEntries_write : ∀ (m : List (QString × QVariant)) (levels : Nat)
    (rest : QByteArray), QVariant.representableEntries m = true →
    QVariant.nestingEntries m ≤ levels →
    readRepeated (fun entry =>
        match readString entry with
        | some (k, value) => (readVariant levels value).map (fun r => ((k, r.1), r.2))
        | none => none) m.length (writeEntries m ++ rest) = some (m, rest)
  | [], levels, rest, _, _ => rfl
  | (k, v) :: es, levels, rest, h, hn => by
    simp only [QVariant.representableEntries, Bool.and_eq_true] at h
    simp only [QVariant.nestingEntries] at hn
    have ih1 := readVariant_write v levels (writeEntries es ++ rest) h.2.1 (by omega)
    have ih2 := readEntries_write es levels rest h.2.2 (by omega)
    simp only [List.length_cons, readRepeated, writeEntries, List.append_assoc,
      readString_write k _ h.1, ih1, Option.map_some', ih2]
end

mutual
theorem nesting_lt_length : ∀ v : QVariant, v.nesting < (writeVariant v).length
  | .invalid => by simp [QVariant.nesting, writeVariant, length_qToBigEndian32]
  | .bool _ => by simp [QVariant.nesting, writeVariant, length_qToBigEndian32]
  | .int _ => by simp [QVariant.nesting, writeVariant, length_qToBigEndian32]
  | .longLong _ => by simp [QVariant.nesting, writeVariant, length_qToBigEndian32]
  | .rect _ _ _ _ => by simp [QVariant.nesting, writeVariant, length_qToBigEndian32]
  | .string _ => by simp [QVariant.nesting, writeVariant, length_qToBigEndian32]
  | .stringList _ => by simp [QVariant.nesting, writeVariant, length_qToBigEndian32]
  | .uuid _ => by simp [QVariant.nesting, writeVariant, length_qToBigEndian32]
  | .byteArray _ => by simp [QVariant.nesting, writeVariant, length_qToBigEndian32]
  | .authType _ => by simp [QVariant.nesting, writeVariant, length_qToBigEndian32]
  | .list l => by
    have ih := nestingList_le_length l
    simp only [QVariant.nesting, writeVariant, List.length_append, length_qToBigEndian32,
      List.length_singleton]
    omega
  | .map m => by
    have ih := nestingEntries_le_length m
    simp only [QVariant.nesting, writeVariant, List.length_append, length_qToBigEndian32,
      List.length_singleton]
    omega
theorem nestingList_le_length : ∀ l : List QVariant,
    QVariant.nestingList l ≤ (writeVariants l).length
  | [] => by simp [QVariant.nestingList]
  | v :: vs => by
    have ih1 := nesting_lt_length v
    have ih2 := nestingList_le_length vs
    simp only [QVariant.nestingList, writeVariants, List.length_append]
    omega
theorem nestingEntries_le_length : ∀ m : List (QString × QVariant),
    QVariant.nestingEntries m ≤ (writeEntries m).length
  | [] => by simp [QVariant.nestingEntries]
  | (k, v) :: es => by
    have ih1 := nesting_lt_length v
    have ih2 := nestingEntries_le_length es
    simp only [QVariant.nestingEntries, writeEntries, List.length_append]
    omega
end

/-- C21, on the model of the codec: for every value that its types can hold, if
it is within the bounds (`MaxStringSize` bytes for a string,
`MaxByteArraySize` bytes for a byte payload, `MaxContainerSize` elements for a
string list, list or map, nesting depth `MaxCheckRecursionDepth`), then `read()`
on a device that holds the bytes of `write(v)`, followed by any other bytes,
returns `v` and leaves exactly the other bytes; and if it violates one of the
bounds, `read()` returns an invalid value and leaves the device as it was, with
every byte in place. The check pass accepts the bytes of a value exactly when
the value is within the bounds. -/
theorem C21_codec_round_trip (d : QIODevice) (v : QVariant) (rest : QByteArray)
    (hv : v.representable = true) :
    VariantStream.write d v = { d with written := d.written ++ [Written.raw (writeVariant v)] } ∧
    ((VariantStream.checkVariant (VariantStream.MaxCheckRecursionDepth + 1)
        (writeVariant v ++ rest)).isSome = v.withinBounds) ∧
    (v.withinBounds = true →
      VariantStream.read { d with readBuffer := writeVariant v ++ rest }
        = (v, { d with readBuffer := rest })) ∧
    (v.withinBounds = false →
      VariantStream.read { d with readBuffer := writeVariant v ++ rest }
        = (QVariant.invalid, { d with readBuffer := writeVariant v ++ rest })) := by
  have hcheck := checkVariant_write v (VariantStream.MaxCheckRecursionDepth + 1) rest hv
  have hread := readVariant_write v ((writeVariant v ++ rest).length + 1) rest hv
    (by have := nesting_lt_length v; simp only [List.length_append]; omega)
  refine ⟨rfl, ?_, ?_, ?_⟩
  · rw [hcheck]
    by_cases hb : v.withinSizes = true ∧ v.nesting < VariantStream.MaxCheckRecursionDepth + 1
    · rw [if_pos hb]
      simp [QVariant.withinBounds, hb.1, Nat.lt_succ_iff.1 hb.2]
    · rw [if_neg hb]
      simp only [QVariant.withinBounds, Option.isSome_none]
      symm
      rw [Bool.and_eq_false_iff]
      by_cases hs : v.withinSizes = true
      · right
        simp only [decide_eq_false_iff_not]
        intro hn
        exact hb ⟨hs, Nat.lt_succ_iff.2 hn⟩
      · left
        simpa using hs
  · intro hb
    simp only [QVariant.withinBounds, Bool.and_eq_true, decide_eq_true_eq] at hb
    unfold VariantStream.read
    simp only [hcheck, hb.1, Nat.lt_succ_iff.2 hb.2, and_self, if_true, hread]
  · intro hb
    unfold VariantStream.read
    have hn : ¬ (v.withinSizes = true
        ∧ v.nesting < VariantStream.MaxCheckRecursionDepth + 1) := by
      intro hx
      have : v.withinBounds = true := by
        simp [QVariant.withinBounds, hx.1, Nat.lt_succ_iff.1 hx.2]
      rw [hb] at this
      exact Bool.false_ne_true this
    simp only [hcheck, hn, if_false]

/-- The example of a map with a list in it, within the bounds, followed by one
more byte on the device. -/
theorem C21_codec_round_trip_witness :
    exampleVariant.representable = true ∧ exampleVariant.withinBounds = true ∧
    VariantStream.read
        { isOpen := true, readBuffer := writeVariant exampleVariant ++ [7], written := [] }
      = (exampleVariant, { isOpen := true, readBuffer := [7], written := [] }) ∧
    exampleDeepVariant.withinBounds = false ∧
    VariantStream.read
        { isOpen := true, readBuffer := writeVariant exampleDeepVariant ++ [7], written := [] }
      = (QVariant.invalid,
          { isOpen := true, readBuffer := writeVariant exampleDeepVariant ++ [7],
            written := [] }) :=
  ⟨by decide, by decide,
    (C21_codec_round_trip { isOpen := true, readBuffer := [], written := [] } exampleVariant [7]
      (by decide)).2.2.1 (by decide),
    by decide,
    (C21_codec_round_trip { isOpen := true, readBuffer := [], written := [] } exampleDeepVariant
      [7] (by decide)).2.2.2 (by decide)⟩

end Veyon
